import Mathlib

/-!
# KlayGE `MathLib` (Math.hpp): a shallow embedding and its verified properties

The scalar type `T` of the templates is a linearly ordered field `K` (exact
arithmetic).  `std::numeric_limits<T>::epsilon()` is carried as an explicit
argument `eps`; the host library's `sqrt`, `sin`, `acos`, `tan` and the
bit-level `RecipSqrt` are carried as function arguments.
-/

namespace KlayGE

/-- Modelled from the spec: `Vector_T<T, 3>` (Vector.hpp is not under src/),
three ordered scalar components read by `x()`, `y()`, `z()`. -/
@[ext]
structure Vector3 (K : Type) where
  x : K
  y : K
  z : K
deriving DecidableEq

/-- Modelled from the spec: `Quaternion_T<T>` (Quaternion.hpp is not under src/),
a 3-component vector part `x, y, z` and a scalar part `w`, constructed in
that order. -/
@[ext]
structure Quaternion (K : Type) where
  x : K
  y : K
  z : K
  w : K
deriving DecidableEq

/-- Modelled from the spec: `Matrix4_T<T>` (Matrix.hpp is not under src/), a
4x4 grid of scalars.  The sixteen constructor arguments are listed row by
row, the way every factory of Math.hpp writes them; field `mRC` is the cell
in row `R`, column `C`. -/
@[ext]
structure Matrix4 (K : Type) where
  m00 : K
  m01 : K
  m02 : K
  m03 : K
  m10 : K
  m11 : K
  m12 : K
  m13 : K
  m20 : K
  m21 : K
  m22 : K
  m23 : K
  m30 : K
  m31 : K
  m32 : K
  m33 : K
deriving DecidableEq


/-- Modelled from the spec: `Vector_T<T, 2>` (Vector.hpp is not under src/),
two ordered scalar components read by `x()`, `y()`. -/
@[ext]
structure Vector2 (K : Type) where
  x : K
  y : K
deriving DecidableEq

/-- Modelled from the spec: `Vector_T<T, 4>` (Vector.hpp is not under src/),
four ordered scalar components read by `x()`, `y()`, `z()`, `w()`. -/
@[ext]
structure Vector4 (K : Type) where
  x : K
  y : K
  z : K
  w : K
deriving DecidableEq

/-- Modelled from the spec: `Plane_T<T>` (Plane.hpp is not under src/), the
four scalars `a, b, c, d` of `a*x + b*y + c*z + d = 0`, constructed in that
order. -/
@[ext]
structure Plane (K : Type) where
  a : K
  b : K
  c : K
  d : K
deriving DecidableEq

/-- Modelled from the spec: the members every vector-like type offers to the
generic templates of `MathLib` (Vector.hpp and Quaternion.hpp are not under
src/): the compile-time dimension `elem_num`, the component read
`operator[]`, and `operator*` by a scalar on the right. -/
class VectorLike (V : Type) (K : outParam Type) where
  elem_num : Nat
  elem : V → Nat → K
  mulScalar : V → K → V

namespace Vector3

variable {K : Type}

/-- Modelled from the spec: `Vector_T<T, 3>::operator[]` (Vector.hpp is not
under src/), components in the order `x, y, z`. -/
def elem (v : Vector3 K) (i : Nat) : K :=
  match i with
  | 0 => v.x
  | 1 => v.y
  | _ => v.z

/-- Modelled from the spec: `Vector_T` binary `operator-` (Vector.hpp is not
under src/), component by component. -/
def sub [Sub K] (lhs rhs : Vector3 K) : Vector3 K :=
  ⟨lhs.x - rhs.x, lhs.y - rhs.y, lhs.z - rhs.z⟩

/-- Modelled from the spec: `Vector_T` `operator*` by a scalar (Vector.hpp is
not under src/), component by component. -/
def mulScalar [Mul K] (lhs : Vector3 K) (rhs : K) : Vector3 K :=
  ⟨lhs.x * rhs, lhs.y * rhs, lhs.z * rhs⟩

instance [Mul K] : VectorLike (Vector3 K) K where
  elem_num := 3
  elem := elem
  mulScalar := mulScalar

/-- Modelled from the spec: `Vector_T<T, 3>::Zero()` (Vector.hpp is not under
src/), all components 0. -/
def Zero [OfNat K 0] : Vector3 K :=
  ⟨0, 0, 0⟩

/-- Modelled from the spec: `Vector_T` `operator+` and `operator+=`
(Vector.hpp is not under src/), component by component. -/
def add [Add K] (lhs rhs : Vector3 K) : Vector3 K :=
  ⟨lhs.x + rhs.x, lhs.y + rhs.y, lhs.z + rhs.z⟩

/-- Modelled from the spec: `Vector_T` `operator*` with the scalar on the
left (Vector.hpp is not under src/), component by component. -/
def scalarMul [Mul K] (lhs : K) (rhs : Vector3 K) : Vector3 K :=
  ⟨lhs * rhs.x, lhs * rhs.y, lhs * rhs.z⟩

/-- Modelled from the spec: `Vector_T` `operator/` by a scalar (Vector.hpp is
not under src/), component by component. -/
def divScalar [Div K] (lhs : Vector3 K) (rhs : K) : Vector3 K :=
  ⟨lhs.x / rhs, lhs.y / rhs, lhs.z / rhs⟩

/-- Modelled from the spec: the negation of a vector, `Vector_T` unary
`operator-` (Vector.hpp is not under src/), component by component. -/
def neg [Neg K] (rhs : Vector3 K) : Vector3 K :=
  ⟨-rhs.x, -rhs.y, -rhs.z⟩

end Vector3

namespace Vector2

variable {K : Type}

/-- Modelled from the spec: `Vector_T<T, 2>::operator[]` (Vector.hpp is not
under src/), components in the order `x, y`. -/
def elem (v : Vector2 K) (i : Nat) : K :=
  match i with
  | 0 => v.x
  | _ => v.y

/-- Modelled from the spec: `Vector_T` `operator*` by a scalar (Vector.hpp is
not under src/), component by component. -/
def mulScalar [Mul K] (lhs : Vector2 K) (rhs : K) : Vector2 K :=
  ⟨lhs.x * rhs, lhs.y * rhs⟩

instance [Mul K] : VectorLike (Vector2 K) K where
  elem_num := 2
  elem := elem
  mulScalar := mulScalar

end Vector2

namespace Vector4

variable {K : Type}

/-- Modelled from the spec: `Vector_T<T, 4>::operator[]` (Vector.hpp is not
under src/), components in the order `x, y, z, w`. -/
def elem (v : Vector4 K) (i : Nat) : K :=
  match i with
  | 0 => v.x
  | 1 => v.y
  | 2 => v.z
  | _ => v.w

/-- Modelled from the spec: `Vector_T` `operator*` by a scalar (Vector.hpp is
not under src/), component by component. -/
def mulScalar [Mul K] (lhs : Vector4 K) (rhs : K) : Vector4 K :=
  ⟨lhs.x * rhs, lhs.y * rhs, lhs.z * rhs, lhs.w * rhs⟩

instance [Mul K] : VectorLike (Vector4 K) K where
  elem_num := 4
  elem := elem
  mulScalar := mulScalar

end Vector4

namespace Plane

variable {K : Type}

/-- Modelled from the spec: `Plane_T<T>::operator[]` (Plane.hpp is not under
src/), the four scalars in the order `a, b, c, d`. -/
def elem (p : Plane K) (i : Nat) : K :=
  match i with
  | 0 => p.a
  | 1 => p.b
  | 2 => p.c
  | _ => p.d

/-- Modelled from the spec: `Plane_T` `operator*` by a scalar (Plane.hpp is
not under src/), component by component. -/
def mulScalar [Mul K] (lhs : Plane K) (rhs : K) : Plane K :=
  ⟨lhs.a * rhs, lhs.b * rhs, lhs.c * rhs, lhs.d * rhs⟩

/-- Modelled from the spec: `Plane_T<T>::Normal()` (Plane.hpp is not under
src/), the vector `(a, b, c)`. -/
def Normal (p : Plane K) : Vector3 K :=
  ⟨p.a, p.b, p.c⟩

instance [Mul K] : VectorLike (Plane K) K where
  elem_num := 4
  elem := elem
  mulScalar := mulScalar

end Plane

namespace Quaternion

variable {K : Type}

/-- Modelled from the spec: `Quaternion_T<T>::operator[]` (Quaternion.hpp is
not under src/), components in the order `x, y, z, w`. -/
def elem (q : Quaternion K) (i : Nat) : K :=
  match i with
  | 0 => q.x
  | 1 => q.y
  | 2 => q.z
  | _ => q.w

/-- Modelled from the spec: `Quaternion_T` `operator+` (Quaternion.hpp is not
under src/), component by component. -/
def add [Add K] (lhs rhs : Quaternion K) : Quaternion K :=
  ⟨lhs.x + rhs.x, lhs.y + rhs.y, lhs.z + rhs.z, lhs.w + rhs.w⟩

/-- Modelled from the spec: `Quaternion_T` `operator*` with the scalar on the
right (Quaternion.hpp is not under src/), component by component. -/
def mulScalar [Mul K] (lhs : Quaternion K) (rhs : K) : Quaternion K :=
  ⟨lhs.x * rhs, lhs.y * rhs, lhs.z * rhs, lhs.w * rhs⟩

/-- Modelled from the spec: `Quaternion_T` `operator*` with the scalar on the
left (Quaternion.hpp is not under src/), component by component. -/
def scalarMul [Mul K] (lhs : K) (rhs : Quaternion K) : Quaternion K :=
  ⟨lhs * rhs.x, lhs * rhs.y, lhs * rhs.z, lhs * rhs.w⟩

/-- Modelled from the spec: `Quaternion_T<T>::v()` (Quaternion.hpp is not
under src/), the 3-component vector part `(x, y, z)`. -/
def v (q : Quaternion K) : Vector3 K :=
  ⟨q.x, q.y, q.z⟩

instance [Mul K] : VectorLike (Quaternion K) K where
  elem_num := 4
  elem := elem
  mulScalar := mulScalar

end Quaternion

/-- Scalar expressions whose sum and product are kept as written (no law of
associativity or commutativity): the components `a i` and `b i` of two
vectors, their products and sums. -/
inductive DotTerm where
  | a (i : Nat)
  | b (i : Nat)
  | zero
  | mul (l r : DotTerm)
  | add (l r : DotTerm)
deriving DecidableEq

instance : Mul DotTerm := ⟨DotTerm.mul⟩

instance : Add DotTerm := ⟨DotTerm.add⟩

instance : Zero DotTerm := ⟨DotTerm.zero⟩

namespace Matrix4

variable {K : Type}

/-- Modelled from the spec: `Matrix4_T::operator()(row, col)` (Matrix.hpp is
not under src/); `Translation` stores `x, y, z` as constructor arguments
13..15 and `TransformHelper` reads them back as `mat(3, 0..2)`, so the first
index is the constructor row. -/
def get (M : Matrix4 K) (r c : Fin 4) : K :=
  ![![M.m00, M.m01, M.m02, M.m03],
    ![M.m10, M.m11, M.m12, M.m13],
    ![M.m20, M.m21, M.m22, M.m23],
    ![M.m30, M.m31, M.m32, M.m33]] r c

/-- Builds a matrix from its cell function, row by row. -/
def ofFn (f : Fin 4 → Fin 4 → K) : Matrix4 K :=
  ⟨f 0 0, f 0 1, f 0 2, f 0 3,
   f 1 0, f 1 1, f 1 2, f 1 3,
   f 2 0, f 2 1, f 2 2, f 2 3,
   f 3 0, f 3 1, f 3 2, f 3 3⟩

/-- Modelled from the spec: assignment through the reference returned by
`Matrix4_T::operator()(row, col)` (Matrix.hpp is not under src/): cell
`(r, c)` becomes `v`, every other cell is kept. -/
def set (M : Matrix4 K) (r c : Fin 4) (v : K) : Matrix4 K :=
  ofFn (fun i j => if i = r ∧ j = c then v else M.get i j)

/-- Modelled from the spec: `Matrix4_T::Identity()` (Matrix.hpp is not under
src/), ones on the diagonal and zeros elsewhere. -/
def Identity [Zero K] [One K] : Matrix4 K :=
  ⟨1, 0, 0, 0,
   0, 1, 0, 0,
   0, 0, 1, 0,
   0, 0, 0, 1⟩

/-- The cells of a `Matrix4` as a Mathlib matrix. -/
def toMatrix (M : Matrix4 K) : Matrix (Fin 4) (Fin 4) K :=
  Matrix.of (fun r c => M.get r c)

end Matrix4

namespace MathLib

variable {K : Type} [LinearOrderedField K]

/-- `Abs`: `x < T(0) ? -x : x`. -/
def Abs (x : K) : K :=
  if x < 0 then -x else x

/-- `Eq`: the floating overloads test `Abs(lhs - rhs) <= epsilon`; with
`eps = 0` this is the generic overload `lhs == rhs`. -/
def Eq (eps lhs rhs : K) : Bool :=
  decide (Abs (lhs - rhs) ≤ eps)

/-- `PIdiv2`: `const float PIdiv2 = 1.570796f`, read as the decimal it is
written as. -/
def PIdiv2 : K := 1570796 / 1000000

/-- `DotHelper<T, N>::Do`: `lhs[0] * rhs[0] + DotHelper<T, N - 1>::Do(lhs + 1, rhs + 1)`
down to `DotHelper<T, 1>`; the arrays are index functions and `lhs + 1` shifts
them.  (`N = 0` is never instantiated.)  Only the product and the sum of the
scalar type are used, so `T` is any type with the two operations. -/
def DotHelper {T : Type} [Mul T] [Add T] [Zero T] : Nat → (Nat → T) → (Nat → T) → T
  | 0, _, _ => 0
  | 1, lhs, rhs => lhs 0 * rhs 0
  | n + 2, lhs, rhs =>
    lhs 0 * rhs 0 + DotHelper (n + 1) (fun i => lhs (i + 1)) (fun i => rhs (i + 1))

/-- `Dot`: `DotHelper<T::value_type, T::elem_num>::Do(&lhs[0], &rhs[0])`. -/
def Dot {V T : Type} [VectorLike V T] [Mul T] [Add T] [Zero T] (lhs rhs : V) : T :=
  DotHelper (VectorLike.elem_num V) (VectorLike.elem lhs) (VectorLike.elem rhs)

/-- `LengthSq`: `Dot(rhs, rhs)`. -/
def LengthSq {V : Type} [VectorLike V K] (rhs : V) : K :=
  Dot rhs rhs

/-- `Normalize`: `rhs * RecipSqrt(LengthSq(rhs))`; the bit-level `RecipSqrt`
is the argument `RecipSqrt`. -/
def Normalize {V : Type} [VectorLike V K] (RecipSqrt : K → K) (rhs : V) : V :=
  VectorLike.mulScalar rhs (RecipSqrt (LengthSq rhs))

/-- `Cross` on 3D vectors. -/
def Cross (lhs rhs : Vector3 K) : Vector3 K :=
  Vector3.mk (lhs.y * rhs.z - lhs.z * rhs.y)
    (lhs.z * rhs.x - lhs.x * rhs.z)
    (lhs.x * rhs.y - lhs.y * rhs.x)

/-- `Multiply` on 4x4 matrices. -/
def Multiply (lhs rhs : Matrix4 K) : Matrix4 K :=
  Matrix4.mk
    (lhs.get 0 0 * rhs.get 0 0 + lhs.get 0 1 * rhs.get 1 0 + lhs.get 0 2 * rhs.get 2 0 + lhs.get 0 3 * rhs.get 3 0)
    (lhs.get 0 0 * rhs.get 0 1 + lhs.get 0 1 * rhs.get 1 1 + lhs.get 0 2 * rhs.get 2 1 + lhs.get 0 3 * rhs.get 3 1)
    (lhs.get 0 0 * rhs.get 0 2 + lhs.get 0 1 * rhs.get 1 2 + lhs.get 0 2 * rhs.get 2 2 + lhs.get 0 3 * rhs.get 3 2)
    (lhs.get 0 0 * rhs.get 0 3 + lhs.get 0 1 * rhs.get 1 3 + lhs.get 0 2 * rhs.get 2 3 + lhs.get 0 3 * rhs.get 3 3)

    (lhs.get 1 0 * rhs.get 0 0 + lhs.get 1 1 * rhs.get 1 0 + lhs.get 1 2 * rhs.get 2 0 + lhs.get 1 3 * rhs.get 3 0)
    (lhs.get 1 0 * rhs.get 0 1 + lhs.get 1 1 * rhs.get 1 1 + lhs.get 1 2 * rhs.get 2 1 + lhs.get 1 3 * rhs.get 3 1)
    (lhs.get 1 0 * rhs.get 0 2 + lhs.get 1 1 * rhs.get 1 2 + lhs.get 1 2 * rhs.get 2 2 + lhs.get 1 3 * rhs.get 3 2)
    (lhs.get 1 0 * rhs.get 0 3 + lhs.get 1 1 * rhs.get 1 3 + lhs.get 1 2 * rhs.get 2 3 + lhs.get 1 3 * rhs.get 3 3)

    (lhs.get 2 0 * rhs.get 0 0 + lhs.get 2 1 * rhs.get 1 0 + lhs.get 2 2 * rhs.get 2 0 + lhs.get 2 3 * rhs.get 3 0)
    (lhs.get 2 0 * rhs.get 0 1 + lhs.get 2 1 * rhs.get 1 1 + lhs.get 2 2 * rhs.get 2 1 + lhs.get 2 3 * rhs.get 3 1)
    (lhs.get 2 0 * rhs.get 0 2 + lhs.get 2 1 * rhs.get 1 2 + lhs.get 2 2 * rhs.get 2 2 + lhs.get 2 3 * rhs.get 3 2)
    (lhs.get 2 0 * rhs.get 0 3 + lhs.get 2 1 * rhs.get 1 3 + lhs.get 2 2 * rhs.get 2 3 + lhs.get 2 3 * rhs.get 3 3)

    (lhs.get 3 0 * rhs.get 0 0 + lhs.get 3 1 * rhs.get 1 0 + lhs.get 3 2 * rhs.get 2 0 + lhs.get 3 3 * rhs.get 3 0)
    (lhs.get 3 0 * rhs.get 0 1 + lhs.get 3 1 * rhs.get 1 1 + lhs.get 3 2 * rhs.get 2 1 + lhs.get 3 3 * rhs.get 3 1)
    (lhs.get 3 0 * rhs.get 0 2 + lhs.get 3 1 * rhs.get 1 2 + lhs.get 3 2 * rhs.get 2 2 + lhs.get 3 3 * rhs.get 3 2)
    (lhs.get 3 0 * rhs.get 0 3 + lhs.get 3 1 * rhs.get 1 3 + lhs.get 3 2 * rhs.get 2 3 + lhs.get 3 3 * rhs.get 3 3)

/-- `Determinant`: cofactor expansion along row 0 over the six 2x2 minors of
rows 2 and 3. -/
def Determinant (rhs : Matrix4 K) : K :=
  let _3142_3241 := rhs.get 2 0 * rhs.get 3 1 - rhs.get 2 1 * rhs.get 3 0
  let _3143_3341 := rhs.get 2 0 * rhs.get 3 2 - rhs.get 2 2 * rhs.get 3 0
  let _3144_3441 := rhs.get 2 0 * rhs.get 3 3 - rhs.get 2 3 * rhs.get 3 0
  let _3243_3342 := rhs.get 2 1 * rhs.get 3 2 - rhs.get 2 2 * rhs.get 3 1
  let _3244_3442 := rhs.get 2 1 * rhs.get 3 3 - rhs.get 2 3 * rhs.get 3 1
  let _3344_3443 := rhs.get 2 2 * rhs.get 3 3 - rhs.get 2 3 * rhs.get 3 2
  rhs.get 0 0 * (rhs.get 1 1 * _3344_3443 - rhs.get 1 2 * _3244_3442 + rhs.get 1 3 * _3243_3342)
    - rhs.get 0 1 * (rhs.get 1 0 * _3344_3443 - rhs.get 1 2 * _3144_3441 + rhs.get 1 3 * _3143_3341)
    + rhs.get 0 2 * (rhs.get 1 0 * _3244_3442 - rhs.get 1 1 * _3144_3441 + rhs.get 1 3 * _3142_3241)
    - rhs.get 0 3 * (rhs.get 1 0 * _3243_3342 - rhs.get 1 1 * _3143_3341 + rhs.get 1 2 * _3142_3241)

/-- `Inverse` on 4x4 matrices: the returned scalar is the first component,
the matrix written to `out` the second. -/
def Inverse (eps : K) (rhs : Matrix4 K) : K × Matrix4 K :=
  let _2132_2231 := rhs.get 1 0 * rhs.get 2 1 - rhs.get 1 1 * rhs.get 2 0
  let _2133_2331 := rhs.get 1 0 * rhs.get 2 2 - rhs.get 1 2 * rhs.get 2 0
  let _2134_2431 := rhs.get 1 0 * rhs.get 2 3 - rhs.get 1 3 * rhs.get 2 0
  let _2142_2241 := rhs.get 1 0 * rhs.get 3 1 - rhs.get 1 1 * rhs.get 3 0
  let _2143_2341 := rhs.get 1 0 * rhs.get 3 2 - rhs.get 1 2 * rhs.get 3 0
  let _2144_2441 := rhs.get 1 0 * rhs.get 3 3 - rhs.get 1 3 * rhs.get 3 0
  let _2233_2332 := rhs.get 1 1 * rhs.get 2 2 - rhs.get 1 2 * rhs.get 2 1
  let _2234_2432 := rhs.get 1 1 * rhs.get 2 3 - rhs.get 1 3 * rhs.get 2 1
  let _2243_2342 := rhs.get 1 1 * rhs.get 3 2 - rhs.get 1 2 * rhs.get 3 1
  let _2244_2442 := rhs.get 1 1 * rhs.get 3 3 - rhs.get 1 3 * rhs.get 3 1
  let _2334_2433 := rhs.get 1 2 * rhs.get 2 3 - rhs.get 1 3 * rhs.get 2 2
  let _2344_2443 := rhs.get 1 2 * rhs.get 3 3 - rhs.get 1 3 * rhs.get 3 2
  let _3142_3241 := rhs.get 2 0 * rhs.get 3 1 - rhs.get 2 1 * rhs.get 3 0
  let _3143_3341 := rhs.get 2 0 * rhs.get 3 2 - rhs.get 2 2 * rhs.get 3 0
  let _3144_3441 := rhs.get 2 0 * rhs.get 3 3 - rhs.get 2 3 * rhs.get 3 0
  let _3243_3342 := rhs.get 2 1 * rhs.get 3 2 - rhs.get 2 2 * rhs.get 3 1
  let _3244_3442 := rhs.get 2 1 * rhs.get 3 3 - rhs.get 2 3 * rhs.get 3 1
  let _3344_3443 := rhs.get 2 2 * rhs.get 3 3 - rhs.get 2 3 * rhs.get 3 2
  let det := Determinant rhs
  if !Eq eps det 0 then
    let invDet := 1 / det
    (det, Matrix4.mk
      (invDet * (rhs.get 1 1 * _3344_3443 - rhs.get 1 2 * _3244_3442 + rhs.get 1 3 * _3243_3342))
      (-invDet * (rhs.get 0 1 * _3344_3443 - rhs.get 0 2 * _3244_3442 + rhs.get 0 3 * _3243_3342))
      (invDet * (rhs.get 0 1 * _2344_2443 - rhs.get 0 2 * _2244_2442 + rhs.get 0 3 * _2243_2342))
      (-invDet * (rhs.get 0 1 * _2334_2433 - rhs.get 0 2 * _2234_2432 + rhs.get 0 3 * _2233_2332))

      (-invDet * (rhs.get 1 0 * _3344_3443 - rhs.get 1 2 * _3144_3441 + rhs.get 1 3 * _3143_3341))
      (invDet * (rhs.get 0 0 * _3344_3443 - rhs.get 0 2 * _3144_3441 + rhs.get 0 3 * _3143_3341))
      (-invDet * (rhs.get 0 0 * _2344_2443 - rhs.get 0 2 * _2144_2441 + rhs.get 0 3 * _2143_2341))
      (invDet * (rhs.get 0 0 * _2334_2433 - rhs.get 0 2 * _2134_2431 + rhs.get 0 3 * _2133_2331))

      (invDet * (rhs.get 1 0 * _3244_3442 - rhs.get 1 1 * _3144_3441 + rhs.get 1 3 * _3142_3241))
      (-invDet * (rhs.get 0 0 * _3244_3442 - rhs.get 0 1 * _3144_3441 + rhs.get 0 3 * _3142_3241))
      (invDet * (rhs.get 0 0 * _2244_2442 - rhs.get 0 1 * _2144_2441 + rhs.get 0 3 * _2142_2241))
      (-invDet * (rhs.get 0 0 * _2234_2432 - rhs.get 0 1 * _2134_2431 + rhs.get 0 3 * _2132_2231))

      (-invDet * (rhs.get 1 0 * _3243_3342 - rhs.get 1 1 * _3143_3341 + rhs.get 1 2 * _3142_3241))
      (invDet * (rhs.get 0 0 * _3243_3342 - rhs.get 0 1 * _3143_3341 + rhs.get 0 2 * _3142_3241))
      (-invDet * (rhs.get 0 0 * _2243_2342 - rhs.get 0 1 * _2143_2341 + rhs.get 0 2 * _2142_2241))
      (invDet * (rhs.get 0 0 * _2233_2332 - rhs.get 0 1 * _2133_2331 + rhs.get 0 2 * _2132_2231)))
  else
    (det, rhs)

/-- `LookAtLH`. -/
def LookAtLH (RecipSqrt : K → K) (vEye vAt vUp : Vector3 K) : Matrix4 K :=
  let zAxis := Normalize RecipSqrt (Vector3.sub vAt vEye)
  let xAxis := Cross vUp zAxis
  let xAxis := Normalize RecipSqrt xAxis
  let yAxis := Cross zAxis xAxis
  Matrix4.mk
    xAxis.x yAxis.x zAxis.x 0
    xAxis.y yAxis.y zAxis.y 0
    xAxis.z yAxis.z zAxis.z 0
    (-Dot xAxis vEye) (-Dot yAxis vEye) (-Dot zAxis vEye) 1

/-- `LookAtRH`. -/
def LookAtRH (RecipSqrt : K → K) (vEye vAt vUp : Vector3 K) : Matrix4 K :=
  let zAxis := Normalize RecipSqrt (Vector3.sub vEye vAt)
  let xAxis := Cross vUp zAxis
  let xAxis := Normalize RecipSqrt xAxis
  let yAxis := Cross zAxis xAxis
  Matrix4.mk
    xAxis.x yAxis.x zAxis.x 0
    xAxis.y yAxis.y zAxis.y 0
    xAxis.z yAxis.z zAxis.z 0
    (-Dot xAxis vEye) (-Dot yAxis vEye) (-Dot zAxis vEye) 1

/-- `PerspectiveFovLH`; the host library's `tan` is the argument `Tan`. -/
def PerspectiveFovLH (Tan : K → K) (fov aspect nearPlane farPlane : K) : Matrix4 K :=
  let h := 1 / Tan (fov / 2)
  let w := h / aspect
  let q := farPlane / (farPlane - nearPlane)
  Matrix4.mk
    w 0 0 0
    0 h 0 0
    0 0 q 1
    0 0 (-nearPlane * q) 0

/-- `ToMatrix`: the rotation matrix of a quaternion. -/
def ToMatrix (quat : Quaternion K) : Matrix4 K :=
  let x2 := quat.x + quat.x
  let y2 := quat.y + quat.y
  let z2 := quat.z + quat.z
  let xx2 := quat.x * x2
  let xy2 := quat.x * y2
  let xz2 := quat.x * z2
  let yy2 := quat.y * y2
  let yz2 := quat.y * z2
  let zz2 := quat.z * z2
  let wx2 := quat.w * x2
  let wy2 := quat.w * y2
  let wz2 := quat.w * z2
  Matrix4.mk
    (1 - yy2 - zz2) (xy2 + wz2) (xz2 - wy2) 0
    (xy2 - wz2) (1 - xx2 - zz2) (yz2 + wx2) 0
    (xz2 + wy2) (yz2 - wx2) (1 - xx2 - yy2) 0
    0 0 0 1

/-- `LHToRH`: `out = rhs`, then the four cells `out(2, 0)` .. `out(2, 3)` are
negated in place. -/
def LHToRH (rhs : Matrix4 K) : Matrix4 K :=
  let out := rhs
  let out := out.set 2 0 (-out.get 2 0)
  let out := out.set 2 1 (-out.get 2 1)
  let out := out.set 2 2 (-out.get 2 2)
  let out := out.set 2 3 (-out.get 2 3)
  out

/-- `PerspectiveFovRH`: `PerspectiveFovLH(out, ...)` followed by
`LHToRH(out, out)`. -/
def PerspectiveFovRH (Tan : K → K) (fov aspect nearPlane farPlane : K) : Matrix4 K :=
  let out := PerspectiveFovLH Tan fov aspect nearPlane farPlane
  LHToRH out

/-- `ToQuaternion`: the four-way branch on the trace and the diagonal; the
host library's `sqrt` is the argument `Sqrt`, `0.5f` is `1 / 2`. -/
def ToQuaternion (Sqrt : K → K) (eps : K) (mat : Matrix4 K) : Quaternion K :=
  let tr := mat.get 0 0 + mat.get 1 1 + mat.get 2 2
  if tr > 0 then
    let s := Sqrt (tr + 1)
    let qw := s * (1 / 2)
    let s := (1 / 2) / s
    let qx := (mat.get 1 2 - mat.get 2 1) * s
    let qy := (mat.get 2 0 - mat.get 0 2) * s
    let qz := (mat.get 0 1 - mat.get 1 0) * s
    Quaternion.mk qx qy qz qw
  else
    if mat.get 1 1 > mat.get 0 0 ∧ mat.get 2 2 ≤ mat.get 1 1 then
      let s := Sqrt ((mat.get 1 1 - (mat.get 2 2 + mat.get 0 0)) + 1)
      let qy := s * (1 / 2)
      let s := if !Eq eps s 0 then (1 / 2) / s else s
      let qw := (mat.get 2 0 - mat.get 0 2) * s
      let qz := (mat.get 2 1 + mat.get 1 2) * s
      let qx := (mat.get 0 1 + mat.get 1 0) * s
      Quaternion.mk qx qy qz qw
    else
      if (mat.get 1 1 ≤ mat.get 0 0 ∧ mat.get 2 2 > mat.get 0 0) ∨ (mat.get 2 2 > mat.get 1 1) then
        let s := Sqrt ((mat.get 2 2 - (mat.get 0 0 + mat.get 1 1)) + 1)
        let qz := s * (1 / 2)
        let s := if !Eq eps s 0 then (1 / 2) / s else s
        let qw := (mat.get 0 1 - mat.get 1 0) * s
        let qx := (mat.get 0 2 + mat.get 2 0) * s
        let qy := (mat.get 1 2 + mat.get 2 1) * s
        Quaternion.mk qx qy qz qw
      else
        let s := Sqrt ((mat.get 0 0 - (mat.get 1 1 + mat.get 2 2)) + 1)
        let qx := s * (1 / 2)
        let s := if !Eq eps s 0 then (1 / 2) / s else s
        let qw := (mat.get 1 2 - mat.get 2 1) * s
        let qy := (mat.get 1 0 + mat.get 0 1) * s
        let qz := (mat.get 2 0 + mat.get 0 2) * s
        Quaternion.mk qx qy qz qw

/-- `Slerp`: `eps` is `std::numeric_limits<T>::epsilon()`, the host library's
`sin` and `acos` are the arguments `Sin` and `ACos`. -/
def Slerp (eps : K) (Sin ACos : K → K) (lhs rhs : Quaternion K) (slerp : K) : Quaternion K :=
  let cosom := Dot lhs rhs
  if cosom > eps - 1 then
    let scales : K × K :=
      if cosom < 1 - eps then
        let omega := ACos cosom
        let isinom := 1 / Sin omega
        (Sin ((1 - slerp) * omega) * isinom, Sin (slerp * omega) * isinom)
      else
        (1 - slerp, slerp)
    let scale0 := scales.1
    let scale1 := scales.2
    let q2 := Quaternion.mulScalar rhs scale1
    Quaternion.add (Quaternion.scalarMul scale0 lhs) q2
  else
    let scale0 := Sin ((1 - slerp) * PIdiv2)
    let scale1 := Sin (slerp * PIdiv2)
    let q2 := Quaternion.mk (-rhs.y * scale1) (rhs.x * scale1) (-rhs.w * scale1) (rhs.z * scale1)
    Quaternion.add (Quaternion.scalarMul scale0 lhs) q2

/-- `Eq`, the generic template: `lhs == rhs`. -/
def EqGeneric {T : Type} [DecidableEq T] (lhs rhs : T) : Bool :=
  decide (lhs = rhs)

/-- `Surround`, first loop: `while (ret >= high) ret -= rang;`, at most
`fuel` tests of the condition. -/
def SurroundDown {T : Type} [LinearOrderedRing T] : Nat → T → T → T → Option T
  | 0, _, _, _ => none
  | fuel + 1, ret, high, rang =>
    if ret ≥ high then SurroundDown fuel (ret - rang) high rang else some ret

/-- `Surround`, second loop: `while (ret < low) ret += rang;`, at most `fuel`
tests of the condition. -/
def SurroundUp {T : Type} [LinearOrderedRing T] : Nat → T → T → T → Option T
  | 0, _, _, _ => none
  | fuel + 1, ret, low, rang =>
    if ret < low then SurroundUp fuel (ret + rang) low rang else some ret

/-- `Surround`: `ret = val`, `rang = high - low`, the two loops, `return ret`;
`none` when a loop has not ended within `fuel` tests. -/
def Surround {T : Type} [LinearOrderedRing T] (fuel : Nat) (val low high : T) : Option T :=
  let ret := val
  let rang := high - low
  match SurroundDown fuel ret high rang with
  | none => none
  | some ret => SurroundUp fuel ret low rang

/-- The closed-form wrap on integers, in the words of the spec: a single
floor-modulo, `low + ((val - low) floor-mod (high - low))`. -/
def SurroundClosedInt (val low high : ℤ) : ℤ :=
  low + Int.fmod (val - low) (high - low)

/-- The closed-form wrap on an ordered field with a floor, in the words of
the spec: `low + ((val - low) floor-mod (high - low))`, the floor-modulo
being `x - ⌊x / m⌋ * m`. -/
def SurroundClosedField {F : Type} [LinearOrderedField F] [FloorRing F] (val low high : F) : F :=
  low + ((val - low) - (⌊(val - low) / (high - low)⌋ : ℤ) * (high - low))

/-- `Length`: `Sqrt(LengthSq(rhs))`; the host library's `sqrt` is the
argument `Sqrt`. -/
def Length {V : Type} [VectorLike V K] (Sqrt : K → K) (rhs : V) : K :=
  Sqrt (LengthSq rhs)

/-- `Cross` on 4D vectors (the overload with three operands). -/
def Cross4 (v1 v2 v3 : Vector4 K) : Vector4 K :=
  let A := (v2.x * v3.y) - (v2.y * v3.x)
  let B := (v2.x * v3.z) - (v2.z * v3.x)
  let C := (v2.x * v3.w) - (v2.w * v3.x)
  let D := (v2.y * v3.z) - (v2.z * v3.y)
  let E := (v2.y * v3.w) - (v2.w * v3.y)
  let F := (v2.z * v3.w) - (v2.w * v3.z)
  Vector4.mk ((v1.y * F) - (v1.z * E) + (v1.w * D))
    (-(v1.x * F) + (v1.z * C) - (v1.w * B))
    ((v1.x * E) - (v1.y * C) + (v1.w * A))
    (-(v1.x * D) + (v1.y * B) - (v1.z * A))

/-- `DotCoord`. -/
def DotCoord (lhs : Plane K) (rhs : Vector3 K) : K :=
  lhs.a * rhs.x + lhs.b * rhs.y + lhs.c * rhs.z + lhs.d

/-- `Normalize` (the `Plane_T` overload): every component times
`1 / Length(rhs)`, `Length` being the generic template applied to the plane. -/
def NormalizePlane (Sqrt : K → K) (rhs : Plane K) : Plane K :=
  let inv := 1 / Length Sqrt rhs
  Plane.mk (rhs.a * inv) (rhs.b * inv) (rhs.c * inv) (rhs.d * inv)

/-- `FromPointNormal`. -/
def FromPointNormal (point normal : Vector3 K) : Plane K :=
  Plane.mk normal.x normal.y normal.z (-Dot point normal)

/-- `FromPoints`. -/
def FromPoints (RecipSqrt : K → K) (v0 v1 v2 : Vector3 K) : Plane K :=
  let vec := Cross (Vector3.sub v1 v0) (Vector3.sub v1 v2)
  let vec := Normalize RecipSqrt vec
  FromPointNormal v0 vec

/-- `IntersectLine`, the seed point `vP`: `(0, 0, 0)` with one coordinate set
from the first of `a`, `b`, `c` that is not `Eq` to 0. -/
def IntersectLineSeed (eps : K) (p : Plane K) : Vector3 K :=
  let vP : Vector3 K := Vector3.mk 0 0 0
  if !Eq eps p.a 0 then
    { vP with x := -p.d / p.a }
  else
    if !Eq eps p.b 0 then
      { vP with y := -p.d / p.b }
    else
      if !Eq eps p.c 0 then
        { vP with z := -p.d / p.c }
      else
        vP

/-- `IntersectLine`: the returned `bool` is the first component, the content
of `out` after the call the second (`out` is only written on the path that
returns `true`). -/
def IntersectLine (eps : K) (out : Vector3 K) (p : Plane K) (orig dir : Vector3 K) :
    Bool × Vector3 K :=
  let vP := IntersectLineSeed eps p
  let deno := Dot dir p.Normal
  if !Eq eps deno 0 then
    (false, out)
  else
    let t := Dot (Vector3.sub vP orig) p.Normal / deno
    (true, Vector3.add orig (Vector3.scalarMul t dir))

/-- The formulas of `ToQuaternion`, named after the component computed
first. -/
inductive QuatFormula where
  | trace
  | yDiag
  | zDiag
  | xDiag
deriving DecidableEq, Repr

/-- The formula `ToQuaternion` takes: the conditions of its nested `if`s, in
the order of the source. -/
def ToQuaternionFormula (mat : Matrix4 K) : QuatFormula :=
  let tr := mat.get 0 0 + mat.get 1 1 + mat.get 2 2
  if tr > 0 then
    QuatFormula.trace
  else
    if mat.get 1 1 > mat.get 0 0 ∧ mat.get 2 2 ≤ mat.get 1 1 then
      QuatFormula.yDiag
    else
      if (mat.get 1 1 ≤ mat.get 0 0 ∧ mat.get 2 2 > mat.get 0 0) ∨ (mat.get 2 2 > mat.get 1 1) then
        QuatFormula.zDiag
      else
        QuatFormula.xDiag

/-- `RecipSqrt(1.0f)`, followed in exact arithmetic: `xhalf = 0.5f * x`; the
bits of `1.0f` are `0x3f800000`, so `n = 0x5f3759df - (n >> 1)` is
`0x3f7759df`; the float with these bits has exponent field 126 and is
`(1 + (n - 126 * 2^23) / 2^23) / 2`; then the Newton step
`x * (1.5f - xhalf * x * x)` (its rounding left out). -/
def RecipSqrtAtOne : ℚ :=
  let xhalf : ℚ := (1 / 2) * 1
  let n : ℚ := 0x5f3759df - 0x3f800000 / 2
  let x : ℚ := (1 + (n - 126 * 2 ^ 23) / 2 ^ 23) / 2
  x * (3 / 2 - xhalf * x * x)

/-- The conversion to `U16` of `const U16 v0Index = *(iter + 0)`. -/
def U16 (n : Nat) : Nat :=
  n % 65536

/-- `*(normalBegin + i) += vec`: `none` when `i` is outside the buffer. -/
def AddAt (buf : List (Vector3 K)) (i : Nat) (vec : Vector3 K) : Option (List (Vector3 K)) :=
  match buf.get? i with
  | none => none
  | some v => some (buf.set i (Vector3.add v vec))

/-- `ComputeNormal`, the loop over the index sequence in steps of 3: `none`
when an index is outside the positions, or when the sequence does not end on
a whole triangle (`iter != indicesEnd` is then never false). -/
def ComputeNormalTriangles (xyzs : List (Vector3 K)) :
    List Nat → List (Vector3 K) → Option (List (Vector3 K))
  | [], normals => some normals
  | i0 :: i1 :: i2 :: rest, normals =>
    let v0Index := U16 i0
    let v1Index := U16 i1
    let v2Index := U16 i2
    match xyzs.get? v0Index, xyzs.get? v1Index, xyzs.get? v2Index with
    | some v0, some v1, some v2 =>
      let vec := Cross (Vector3.sub v1 v0) (Vector3.sub v2 v0)
      match AddAt normals v0Index vec with
      | none => none
      | some normals =>
        match AddAt normals v1Index vec with
        | none => none
        | some normals =>
          match AddAt normals v2Index vec with
          | none => none
          | some normals => ComputeNormalTriangles xyzs rest normals
    | _, _, _ => none
  | _, _ => none

/-- `ComputeNormal`: one zero normal per position, the loop over the
triangles, then `Normalize` on every normal; the result is the content of the
normal buffer. -/
def ComputeNormal (RecipSqrt : K → K) (indices : List Nat) (xyzs : List (Vector3 K)) :
    Option (List (Vector3 K)) :=
  let normals := List.replicate xyzs.length Vector3.Zero
  match ComputeNormalTriangles xyzs indices normals with
  | none => none
  | some normals => some (normals.map (Normalize RecipSqrt))

/-- `TransformHelper<T, 4>::Do`, reached through `Transform` on a 4D vector. -/
def Transform4 (v : Vector4 K) (mat : Matrix4 K) : Vector4 K :=
  Vector4.mk (v.x * mat.get 0 0 + v.y * mat.get 1 0 + v.z * mat.get 2 0 + v.w * mat.get 3 0)
    (v.x * mat.get 0 1 + v.y * mat.get 1 1 + v.z * mat.get 2 1 + v.w * mat.get 3 1)
    (v.x * mat.get 0 2 + v.y * mat.get 1 2 + v.z * mat.get 2 2 + v.w * mat.get 3 2)
    (v.x * mat.get 0 3 + v.y * mat.get 1 3 + v.z * mat.get 2 3 + v.w * mat.get 3 3)

/-- `TransformHelper<T, 3>::Do`, reached through `Transform` on a 3D vector. -/
def Transform3 (v : Vector3 K) (mat : Matrix4 K) : Vector4 K :=
  Vector4.mk (v.x * mat.get 0 0 + v.y * mat.get 1 0 + v.z * mat.get 2 0 + mat.get 3 0)
    (v.x * mat.get 0 1 + v.y * mat.get 1 1 + v.z * mat.get 2 1 + mat.get 3 1)
    (v.x * mat.get 0 2 + v.y * mat.get 1 2 + v.z * mat.get 2 2 + mat.get 3 2)
    (v.x * mat.get 0 3 + v.y * mat.get 1 3 + v.z * mat.get 2 3 + mat.get 3 3)

/-- `Reflect`; the host library's `sqrt` reaches it through `Normalize` on the
plane. -/
def Reflect (Sqrt : K → K) (p : Plane K) : Matrix4 K :=
  let P := NormalizePlane Sqrt p
  let aa2 := -2 * P.a * P.a
  let ab2 := -2 * P.a * P.b
  let ac2 := -2 * P.a * P.c
  let ad2 := -2 * P.a * P.d
  let bb2 := -2 * P.b * P.b
  let bc2 := -2 * P.b * P.c
  let bd2 := -2 * P.a * P.c
  let cc2 := -2 * P.c * P.c
  let cd2 := -2 * P.c * P.d
  Matrix4.mk
    (aa2 + 1) ab2 ac2 0
    ab2 (bb2 + 1) bc2 0
    ac2 bc2 (cc2 + 1) 0
    ad2 bd2 cd2 1

/-- `Multiply` on quaternions. -/
def MultiplyQuat (lhs rhs : Quaternion K) : Quaternion K :=
  Quaternion.mk
    (lhs.x * rhs.w - lhs.y * rhs.z + lhs.z * rhs.y + lhs.w * rhs.x)
    (lhs.x * rhs.z + lhs.y * rhs.w - lhs.z * rhs.x + lhs.w * rhs.y)
    (lhs.y * rhs.x - lhs.x * rhs.y + lhs.z * rhs.w + lhs.w * rhs.z)
    (lhs.w * rhs.w - lhs.x * rhs.x - lhs.y * rhs.y - lhs.z * rhs.z)

/-- `ComputeNormal`, the loop over the triangles with its iterations counted:
every iteration is the loop body on one triangle. -/
def ComputeNormalIterations (xyzs : List (Vector3 K)) :
    List Nat → List (Vector3 K) → Option (Nat × List (Vector3 K))
  | [], normals => some (0, normals)
  | i0 :: i1 :: i2 :: rest, normals =>
    match ComputeNormalTriangles xyzs [i0, i1, i2] normals with
    | none => none
    | some normals =>
      match ComputeNormalIterations xyzs rest normals with
      | none => none
      | some (n, out) => some (n + 1, out)
  | _, _ => none

/-- The sum of the spec for `ComputeNormal`: over every triangle
`(i0, i1, i2)` of the index sequence and every slot `k` with `ik = i`, the
face normal `Cross(pos[i1] - pos[i0], pos[i2] - pos[i0])`. -/
def NormalSum (xyzs : List (Vector3 K)) : List Nat → Nat → Vector3 K
  | i0 :: i1 :: i2 :: rest, i =>
    let pos := fun k => xyzs.getD k Vector3.Zero
    let vec := Cross (Vector3.sub (pos i1) (pos i0)) (Vector3.sub (pos i2) (pos i0))
    Vector3.add
      (Vector3.add
        (Vector3.add (if i0 = i then vec else Vector3.Zero) (if i1 = i then vec else Vector3.Zero))
        (if i2 = i then vec else Vector3.Zero))
      (NormalSum xyzs rest i)
  | _, _ => Vector3.Zero

/-- `ComputeTangent`, the body of the loop up to `T` and `B`: the tangent and
the binormal of one face from the positions and texture coordinates of its
previous, current and next vertex; `0.0001f` is `1 / 10000`. -/
def TangentFace (previousXYZ currentXYZ nextXYZ : Vector3 K)
    (previousTex currentTex nextTex : Vector2 K) : Vector3 K × Vector3 K :=
  let v1v0 := Vector3.sub nextXYZ currentXYZ
  let v2v0 := Vector3.sub previousXYZ currentXYZ
  let s1 := nextTex.x - currentTex.x
  let t1 := nextTex.y - currentTex.y
  let s2 := previousTex.x - currentTex.x
  let t2 := previousTex.y - currentTex.y
  let denominator := s1 * t2 - s2 * t1
  if denominator < 1 / 10000 then
    (Vector3.mk 1 0 0, Vector3.mk 0 1 0)
  else
    (Vector3.divScalar
        (Vector3.sub (Vector3.scalarMul t2 v1v0) (Vector3.scalarMul t1 v2v0)) denominator,
      Vector3.divScalar
        (Vector3.sub (Vector3.scalarMul s1 v2v0) (Vector3.scalarMul s2 v1v0)) denominator)

/-- `ComputeTangent`, the loop over the index sequence in steps of 3, on the
pair of the tangent and the binormal buffer: `none` when an index is outside
the positions or the texture coordinates, or when the sequence does not end
on a whole triangle. -/
def ComputeTangentTriangles (xyzs : List (Vector3 K)) (texs : List (Vector2 K)) :
    List Nat → List (Vector3 K) × List (Vector3 K) →
      Option (List (Vector3 K) × List (Vector3 K))
  | [], buffers => some buffers
  | i0 :: i1 :: i2 :: rest, (targents, binorms) =>
    let previousIndex := U16 i0
    let currentIndex := U16 i1
    let nextIndex := U16 i2
    match xyzs.get? currentIndex, xyzs.get? previousIndex, xyzs.get? nextIndex,
        texs.get? nextIndex, texs.get? currentIndex, texs.get? previousIndex with
    | some currentXYZ, some previousXYZ, some nextXYZ,
        some nextTex, some currentTex, some previousTex =>
      let TB := TangentFace previousXYZ currentXYZ nextXYZ previousTex currentTex nextTex
      match AddAt targents previousIndex TB.1, AddAt binorms previousIndex TB.2 with
      | some targents, some binorms =>
        match AddAt targents currentIndex TB.1, AddAt binorms currentIndex TB.2 with
        | some targents, some binorms =>
          match AddAt targents nextIndex TB.1, AddAt binorms nextIndex TB.2 with
          | some targents, some binorms =>
            ComputeTangentTriangles xyzs texs rest (targents, binorms)
          | _, _ => none
        | _, _ => none
      | _, _ => none
    | _, _, _, _, _, _ => none
  | _, _ => none

/-- `ComputeTangent`, the loop over the triangles with its iterations
counted: every iteration is the loop body on one triangle. -/
def ComputeTangentIterations (xyzs : List (Vector3 K)) (texs : List (Vector2 K)) :
    List Nat → List (Vector3 K) × List (Vector3 K) →
      Option (Nat × (List (Vector3 K) × List (Vector3 K)))
  | [], buffers => some (0, buffers)
  | i0 :: i1 :: i2 :: rest, buffers =>
    match ComputeTangentTriangles xyzs texs [i0, i1, i2] buffers with
    | none => none
    | some buffers =>
      match ComputeTangentIterations xyzs texs rest buffers with
      | none => none
      | some (n, out) => some (n + 1, out)
  | _, _ => none

/-- `ComputeTangent`: one zero tangent and binormal per position, the loop
over the triangles, then `Normalize` on every tangent and binormal; the
result is the content of the two buffers. -/
def ComputeTangent (RecipSqrt : K → K) (indices : List Nat) (xyzs : List (Vector3 K))
    (texs : List (Vector2 K)) : Option (List (Vector3 K) × List (Vector3 K)) :=
  let targents := List.replicate xyzs.length Vector3.Zero
  let binorms := List.replicate xyzs.length Vector3.Zero
  match ComputeTangentTriangles xyzs texs indices (targents, binorms) with
  | none => none
  | some (targents, binorms) =>
    some (targents.map (Normalize RecipSqrt), binorms.map (Normalize RecipSqrt))

/-- `PI`: `const float PI = 3.141592f`, read as the decimal it is written
as. -/
def PI : K := 3141592 / 1000000

/-- `Cos`: `Sin(x + PI / 2)`; the host library's `sinf` is the argument
`Sin`. -/
def Cos (Sin : K → K) (x : K) : K :=
  Sin (x + PI / 2)

/-- `SinCos`: the pair `(s, c)` written to its two reference arguments. -/
def SinCos (Sin : K → K) (x : K) : K × K :=
  (Sin x, Cos Sin x)

/-- `RotationYawPitchRoll`. -/
def RotationYawPitchRoll (Sin : K → K) (yaw pitch roll : K) : Quaternion K :=
  let angX := pitch / 2
  let angY := yaw / 2
  let angZ := roll / 2
  let sx := (SinCos Sin angX).1
  let cx := (SinCos Sin angX).2
  let sy := (SinCos Sin angY).1
  let cy := (SinCos Sin angY).2
  let sz := (SinCos Sin angZ).1
  let cz := (SinCos Sin angZ).2
  Quaternion.mk
    (sx * cy * cz + cx * sy * sz)
    (cx * sy * cz - sx * cy * sz)
    (cx * cy * sz - sx * sy * cz)
    (sx * sy * sz + cx * cy * cz)

/-- `Conjugate`. -/
def Conjugate (rhs : Quaternion K) : Quaternion K :=
  Quaternion.mk (-rhs.x) (-rhs.y) (-rhs.z) rhs.w

/-- `Inverse` on quaternions.  The source names its parameter `q` and reads
`rhs` in the body; `rhs` is taken to be that parameter. -/
def InverseQuat (Sqrt : K → K) (q : Quaternion K) : Quaternion K :=
  let rhs := q
  let inv := 1 / Length Sqrt rhs
  Quaternion.mk (-rhs.x * inv) (-rhs.y * inv) (-rhs.z * inv) (rhs.w * inv)

/-- `TransformNormalHelper<T, 3>::Do`, reached through `TransformNormal` on a
3D vector: the 4D vector `(x, y, z, 0)` through `TransformHelper<T, 4>`, then
its first three components. -/
def TransformNormal3 (v : Vector3 K) (mat : Matrix4 K) : Vector3 K :=
  let temp := Vector4.mk v.x v.y v.z 0
  let temp := Transform4 temp mat
  Vector3.mk temp.x temp.y temp.z

/-- `TransQuat`. -/
def TransQuat (v : Vector3 K) (quat : Quaternion K) : Vector3 K :=
  let a := quat.w * quat.w - Dot quat.v quat.v
  let b := 2 * Dot quat.v v
  let c := quat.w + quat.w
  let cross := Cross quat.v v
  Vector3.mk (a * v.x + b * quat.x + c * cross.x)
    (a * v.y + b * quat.y + c * cross.y)
    (a * v.z + b * quat.z + c * cross.z)

/-- The index sequence of the spec for the reversed winding: each triangle
`(i0, i1, i2)` replaced by `(i0, i2, i1)`; indices left over after the last
whole triangle stay. -/
def SwapWinding : List Nat → List Nat
  | i0 :: i1 :: i2 :: rest => i0 :: i2 :: i1 :: SwapWinding rest
  | rest => rest

end MathLib

/-! ## Reading cells -/

namespace Matrix4

variable {K : Type}

theorem get_00 (M : Matrix4 K) : M.get 0 0 = M.m00 := rfl

theorem get_01 (M : Matrix4 K) : M.get 0 1 = M.m01 := rfl

theorem get_02 (M : Matrix4 K) : M.get 0 2 = M.m02 := rfl

theorem get_03 (M : Matrix4 K) : M.get 0 3 = M.m03 := rfl

theorem get_10 (M : Matrix4 K) : M.get 1 0 = M.m10 := rfl

theorem get_11 (M : Matrix4 K) : M.get 1 1 = M.m11 := rfl

theorem get_12 (M : Matrix4 K) : M.get 1 2 = M.m12 := rfl

theorem get_13 (M : Matrix4 K) : M.get 1 3 = M.m13 := rfl

theorem get_20 (M : Matrix4 K) : M.get 2 0 = M.m20 := rfl

theorem get_21 (M : Matrix4 K) : M.get 2 1 = M.m21 := rfl

theorem get_22 (M : Matrix4 K) : M.get 2 2 = M.m22 := rfl

theorem get_23 (M : Matrix4 K) : M.get 2 3 = M.m23 := rfl

theorem get_30 (M : Matrix4 K) : M.get 3 0 = M.m30 := rfl

theorem get_31 (M : Matrix4 K) : M.get 3 1 = M.m31 := rfl

theorem get_32 (M : Matrix4 K) : M.get 3 2 = M.m32 := rfl

theorem get_33 (M : Matrix4 K) : M.get 3 3 = M.m33 := rfl

end Matrix4

namespace MathLib

variable {K : Type} [LinearOrderedField K]

/-! ## Scalar helpers -/

theorem Abs_eq_abs (x : K) : Abs x = |x| := by
  unfold Abs
  split_ifs with h
  · exact (abs_of_neg h).symm
  · exact (abs_of_nonneg (not_lt.mp h)).symm

theorem Eq_eq_true_iff (eps a b : K) : Eq eps a b = true ↔ |a - b| ≤ eps := by
  simp [Eq, Abs_eq_abs]

theorem Eq_eq_false_iff (eps a b : K) : Eq eps a b = false ↔ eps < |a - b| := by
  simp [Eq, Abs_eq_abs]

theorem ne_zero_of_Eq_zero_eq_false {eps a : K} (heps : 0 ≤ eps) (h : Eq eps a 0 = false) :
    a ≠ 0 := by
  intro h0
  rw [Eq_eq_false_iff, h0] at h
  simp at h
  exact absurd heps (not_le.mpr h)

/-! ## Determinant, product and inverse of 4x4 matrices -/

theorem det_fin_four {R : Type} [CommRing R] (A : Matrix (Fin 4) (Fin 4) R) :
    A.det =
      A 0 0 * (A 1 1 * (A 2 2 * A 3 3 - A 2 3 * A 3 2) - A 1 2 * (A 2 1 * A 3 3 - A 2 3 * A 3 1)
          + A 1 3 * (A 2 1 * A 3 2 - A 2 2 * A 3 1))
      - A 0 1 * (A 1 0 * (A 2 2 * A 3 3 - A 2 3 * A 3 2) - A 1 2 * (A 2 0 * A 3 3 - A 2 3 * A 3 0)
          + A 1 3 * (A 2 0 * A 3 2 - A 2 2 * A 3 0))
      + A 0 2 * (A 1 0 * (A 2 1 * A 3 3 - A 2 3 * A 3 1) - A 1 1 * (A 2 0 * A 3 3 - A 2 3 * A 3 0)
          + A 1 3 * (A 2 0 * A 3 1 - A 2 1 * A 3 0))
      - A 0 3 * (A 1 0 * (A 2 1 * A 3 2 - A 2 2 * A 3 1) - A 1 1 * (A 2 0 * A 3 2 - A 2 2 * A 3 0)
          + A 1 2 * (A 2 0 * A 3 1 - A 2 1 * A 3 0)) := by
  have s0 : Fin.succ (0 : Fin 3) = 1 := rfl
  have s1 : Fin.succ (1 : Fin 3) = 2 := rfl
  have s2 : Fin.succ (2 : Fin 3) = 3 := rfl
  have a00 : (0 : Fin 4).succAbove (0 : Fin 3) = 1 := rfl
  have a01 : (0 : Fin 4).succAbove (1 : Fin 3) = 2 := rfl
  have a02 : (0 : Fin 4).succAbove (2 : Fin 3) = 3 := rfl
  have a10 : (1 : Fin 4).succAbove (0 : Fin 3) = 0 := rfl
  have a11 : (1 : Fin 4).succAbove (1 : Fin 3) = 2 := rfl
  have a12 : (1 : Fin 4).succAbove (2 : Fin 3) = 3 := rfl
  have a20 : (2 : Fin 4).succAbove (0 : Fin 3) = 0 := rfl
  have a21 : (2 : Fin 4).succAbove (1 : Fin 3) = 1 := rfl
  have a22 : (2 : Fin 4).succAbove (2 : Fin 3) = 3 := rfl
  have a30 : (3 : Fin 4).succAbove (0 : Fin 3) = 0 := rfl
  have a31 : (3 : Fin 4).succAbove (1 : Fin 3) = 1 := rfl
  have a32 : (3 : Fin 4).succAbove (2 : Fin 3) = 2 := rfl
  have v3 : ((3 : Fin 4) : ℕ) = 3 := rfl
  rw [Matrix.det_succ_row_zero, Fin.sum_univ_four]
  simp only [Matrix.det_fin_three, Matrix.submatrix_apply, s0, s1, s2, a00, a01, a02, a10, a11,
    a12, a20, a21, a22, a30, a31, a32, v3, Fin.val_zero, Fin.val_one, Fin.val_two]
  ring

theorem Determinant_eq_det (M : Matrix4 K) : Determinant M = M.toMatrix.det := by
  rw [det_fin_four]
  rfl

theorem Multiply_toMatrix (A B : Matrix4 K) :
    (Multiply A B).toMatrix = A.toMatrix * B.toMatrix := by
  ext i j
  rw [Matrix.mul_apply, Fin.sum_univ_four]
  fin_cases i <;> fin_cases j <;> rfl

theorem Identity_toMatrix : (Matrix4.Identity : Matrix4 K).toMatrix = 1 := by
  ext i j
  fin_cases i <;> fin_cases j <;> rfl

theorem Inverse_fst (eps : K) (M : Matrix4 K) : (Inverse eps M).1 = Determinant M := by
  unfold Inverse
  by_cases h : Eq eps (Determinant M) 0 = true
  · simp [h]
  · simp [h]

theorem Inverse_snd_of_Eq (eps : K) (M : Matrix4 K) (h : Eq eps (Determinant M) 0 = true) :
    (Inverse eps M).2 = M := by
  unfold Inverse
  simp [h]

theorem Multiply_Inverse_of_ne (eps : K) (M : Matrix4 K) (h : Eq eps (Determinant M) 0 = false)
    (hne : Determinant M ≠ 0) : Multiply (Inverse eps M).2 M = Matrix4.Identity := by
  obtain ⟨a00, a01, a02, a03, a10, a11, a12, a13, a20, a21, a22, a23, a30, a31, a32, a33⟩ := M
  simp only [Determinant, Matrix4.get_00, Matrix4.get_01, Matrix4.get_02, Matrix4.get_03, Matrix4.get_10, Matrix4.get_11, Matrix4.get_12, Matrix4.get_13, Matrix4.get_20, Matrix4.get_21, Matrix4.get_22, Matrix4.get_23, Matrix4.get_30, Matrix4.get_31, Matrix4.get_32, Matrix4.get_33] at hne
  simp only [Inverse, h, Bool.not_false, if_true]
  simp only [Multiply, Matrix4.Identity, Determinant, Matrix4.get_00, Matrix4.get_01, Matrix4.get_02, Matrix4.get_03, Matrix4.get_10, Matrix4.get_11, Matrix4.get_12, Matrix4.get_13, Matrix4.get_20, Matrix4.get_21, Matrix4.get_22, Matrix4.get_23, Matrix4.get_30, Matrix4.get_31, Matrix4.get_32, Matrix4.get_33, Matrix4.mk.injEq]
  generalize hd : a00 * (a11 * (a22 * a33 - a23 * a32) - a12 * (a21 * a33 - a23 * a31)
            + a13 * (a21 * a32 - a22 * a31))
          - a01 * (a10 * (a22 * a33 - a23 * a32) - a12 * (a20 * a33 - a23 * a30)
            + a13 * (a20 * a32 - a22 * a30))
        + a02 * (a10 * (a21 * a33 - a23 * a31) - a11 * (a20 * a33 - a23 * a30)
            + a13 * (a20 * a31 - a21 * a30))
      - a03 * (a10 * (a21 * a32 - a22 * a31) - a11 * (a20 * a32 - a22 * a30)
            + a12 * (a20 * a31 - a21 * a30)) = d at hne ⊢
  have hi : d * (1 / d) = 1 := mul_one_div_cancel hne
  generalize 1 / d = i at hi ⊢
  clear h hne
  refine ⟨?_, ?_, ?_, ?_, ?_, ?_, ?_, ?_, ?_, ?_, ?_, ?_, ?_, ?_, ?_, ?_⟩ <;>
    first
    | ring1
    | linear_combination hi + i * hd

/-! ## Claims C1 to C4: inverse and determinant -/

/-- C1: for every 4x4 matrix `M` whose `Determinant` is not `Eq` to 0 (exact
arithmetic, any epsilon `0 ≤ eps`), `Multiply(Inverse(M), M)` is the identity
matrix, `Inverse(M)` being the matrix written to `out`. -/
theorem C1_Multiply_Inverse_eq_Identity (eps : K) (heps : 0 ≤ eps) (M : Matrix4 K)
    (h : Eq eps (Determinant M) 0 = false) :
    Multiply (Inverse eps M).2 M = Matrix4.Identity :=
  Multiply_Inverse_of_ne eps M h (ne_zero_of_Eq_zero_eq_false heps h)

/-- C1, witness: the hypotheses hold for a matrix of determinant 6 with the
single-precision epsilon `2⁻²³`. -/
theorem C1_witness :
    (0 : ℚ) ≤ 1 / 8388608 ∧
    Eq (1 / 8388608 : ℚ) (Determinant (Matrix4.mk 2 0 0 1 0 1 0 0 1 0 3 0 0 2 0 1)) 0 = false ∧
    Multiply (Inverse (1 / 8388608 : ℚ) (Matrix4.mk 2 0 0 1 0 1 0 0 1 0 3 0 0 2 0 1)).2
        (Matrix4.mk 2 0 0 1 0 1 0 0 1 0 3 0 0 2 0 1) = Matrix4.Identity :=
  ⟨by norm_num,
   by rw [Eq_eq_false_iff]; norm_num [Determinant, Matrix4.get_00, Matrix4.get_01, Matrix4.get_02, Matrix4.get_03, Matrix4.get_10, Matrix4.get_11, Matrix4.get_12, Matrix4.get_13, Matrix4.get_20, Matrix4.get_21, Matrix4.get_22, Matrix4.get_23, Matrix4.get_30, Matrix4.get_31, Matrix4.get_32, Matrix4.get_33],
   C1_Multiply_Inverse_eq_Identity (1 / 8388608) (by norm_num) _
     (by rw [Eq_eq_false_iff]; norm_num [Determinant, Matrix4.get_00, Matrix4.get_01, Matrix4.get_02, Matrix4.get_03, Matrix4.get_10, Matrix4.get_11, Matrix4.get_12, Matrix4.get_13, Matrix4.get_20, Matrix4.get_21, Matrix4.get_22, Matrix4.get_23, Matrix4.get_30, Matrix4.get_31, Matrix4.get_32, Matrix4.get_33])⟩

/-- C2: for every 4x4 matrix `M`, `Inverse(out, M)` returns exactly
`Determinant(M)`; and when `Eq(Determinant(M), 0)` holds, `out` is `M` itself
(the input copied through, nothing else signalled). -/
theorem C2_Inverse_returns_Determinant (eps : K) (M : Matrix4 K) :
    (Inverse eps M).1 = Determinant M ∧
    (Eq eps (Determinant M) 0 = true → (Inverse eps M).2 = M) :=
  ⟨Inverse_fst eps M, Inverse_snd_of_Eq eps M⟩

/-- C2, witness: a matrix with two equal rows has determinant 0, which is
`Eq` to 0, and is copied through. -/
theorem C2_witness :
    Eq (1 / 8388608 : ℚ) (Determinant (Matrix4.mk 1 2 3 4 1 2 3 4 0 0 1 0 0 0 0 1)) 0 = true ∧
    (Inverse (1 / 8388608 : ℚ) (Matrix4.mk 1 2 3 4 1 2 3 4 0 0 1 0 0 0 0 1)).2
      = Matrix4.mk 1 2 3 4 1 2 3 4 0 0 1 0 0 0 0 1 :=
  ⟨by rw [Eq_eq_true_iff]; norm_num [Determinant, Matrix4.get_00, Matrix4.get_01, Matrix4.get_02, Matrix4.get_03, Matrix4.get_10, Matrix4.get_11, Matrix4.get_12, Matrix4.get_13, Matrix4.get_20, Matrix4.get_21, Matrix4.get_22, Matrix4.get_23, Matrix4.get_30, Matrix4.get_31, Matrix4.get_32, Matrix4.get_33],
   (C2_Inverse_returns_Determinant (1 / 8388608 : ℚ) _).2
     (by rw [Eq_eq_true_iff]; norm_num [Determinant, Matrix4.get_00, Matrix4.get_01, Matrix4.get_02, Matrix4.get_03, Matrix4.get_10, Matrix4.get_11, Matrix4.get_12, Matrix4.get_13, Matrix4.get_20, Matrix4.get_21, Matrix4.get_22, Matrix4.get_23, Matrix4.get_30, Matrix4.get_31, Matrix4.get_32, Matrix4.get_33])⟩

/-- C3: for every 4x4 matrix `M`, `Determinant(M)` (cofactor expansion along
the first row over the six 2x2 minors of the bottom two rows) equals the
determinant of `M` as the Leibniz sum over permutations (`Matrix.det`). -/
theorem C3_Determinant_eq_Leibniz (M : Matrix4 K) :
    Determinant M = ∑ σ : Equiv.Perm (Fin 4), Equiv.Perm.sign σ • ∏ i, M.toMatrix (σ i) i := by
  rw [Determinant_eq_det, Matrix.det_apply]

/-- C4: for every 4x4 matrix `M` whose `Determinant` is not `Eq` to 0,
`Determinant(Inverse(M)) * Determinant(M) = 1` in exact arithmetic. -/
theorem C4_Determinant_Inverse_mul (eps : K) (heps : 0 ≤ eps) (M : Matrix4 K)
    (h : Eq eps (Determinant M) 0 = false) :
    Determinant (Inverse eps M).2 * Determinant M = 1 := by
  have hmul := Multiply_Inverse_of_ne eps M h (ne_zero_of_Eq_zero_eq_false heps h)
  have hdet := congrArg (fun A => Matrix.det (Matrix4.toMatrix A)) hmul
  simp only [Multiply_toMatrix, Identity_toMatrix, Matrix.det_mul, Matrix.det_one] at hdet
  rw [Determinant_eq_det, Determinant_eq_det]
  exact hdet

/-- C4, witness: the hypotheses hold for a matrix of determinant 6 with the
single-precision epsilon `2⁻²³`. -/
theorem C4_witness :
    (0 : ℚ) ≤ 1 / 8388608 ∧
    Eq (1 / 8388608 : ℚ) (Determinant (Matrix4.mk 2 0 0 1 0 1 0 0 1 0 3 0 0 2 0 1)) 0 = false ∧
    Determinant (Inverse (1 / 8388608 : ℚ) (Matrix4.mk 2 0 0 1 0 1 0 0 1 0 3 0 0 2 0 1)).2
        * Determinant (Matrix4.mk 2 0 0 1 0 1 0 0 1 0 3 0 0 2 0 1) = 1 :=
  ⟨by norm_num,
   by rw [Eq_eq_false_iff]; norm_num [Determinant, Matrix4.get_00, Matrix4.get_01, Matrix4.get_02, Matrix4.get_03, Matrix4.get_10, Matrix4.get_11, Matrix4.get_12, Matrix4.get_13, Matrix4.get_20, Matrix4.get_21, Matrix4.get_22, Matrix4.get_23, Matrix4.get_30, Matrix4.get_31, Matrix4.get_32, Matrix4.get_33],
   C4_Determinant_Inverse_mul (1 / 8388608) (by norm_num) _
     (by rw [Eq_eq_false_iff]; norm_num [Determinant, Matrix4.get_00, Matrix4.get_01, Matrix4.get_02, Matrix4.get_03, Matrix4.get_10, Matrix4.get_11, Matrix4.get_12, Matrix4.get_13, Matrix4.get_20, Matrix4.get_21, Matrix4.get_22, Matrix4.get_23, Matrix4.get_30, Matrix4.get_31, Matrix4.get_32, Matrix4.get_33])⟩

/-! ## Handedness: `LHToRH`, the perspective pair and the look-at pair -/

theorem LHToRH_eq (M : Matrix4 K) :
    LHToRH M = Matrix4.mk M.m00 M.m01 M.m02 M.m03 M.m10 M.m11 M.m12 M.m13
      (-M.m20) (-M.m21) (-M.m22) (-M.m23) M.m30 M.m31 M.m32 M.m33 := by
  simp [LHToRH, Matrix4.set, Matrix4.ofFn, Matrix4.get]

theorem LHToRH_get (M : Matrix4 K) (r c : Fin 4) :
    (LHToRH M).get r c = if r = 2 then -M.get r c else M.get r c := by
  rw [LHToRH_eq]
  fin_cases r <;> fin_cases c <;> simp [Matrix4.get]

theorem Dot_vector3 (a b : Vector3 K) : Dot a b = a.x * b.x + (a.y * b.y + a.z * b.z) := rfl

theorem Dot_quaternion (a b : Quaternion K) :
    Dot a b = a.x * b.x + (a.y * b.y + (a.z * b.z + a.w * b.w)) := rfl

theorem Normalize_vector3 (R : K → K) (v : Vector3 K) :
    Normalize R v =
      Vector3.mk (v.x * R (LengthSq v)) (v.y * R (LengthSq v)) (v.z * R (LengthSq v)) :=
  rfl

theorem Normalize_of_neg (R : K → K) (v w : Vector3 K)
    (hx : w.x = -v.x) (hy : w.y = -v.y) (hz : w.z = -v.z) :
    (Normalize R w).x = -(Normalize R v).x ∧ (Normalize R w).y = -(Normalize R v).y ∧
      (Normalize R w).z = -(Normalize R v).z := by
  have hl : LengthSq w = LengthSq v := by
    simp only [LengthSq, Dot_vector3, hx, hy, hz]
    ring
  simp only [Normalize_vector3, hl, hx, hy, hz]
  refine ⟨?_, ?_, ?_⟩ <;> ring

theorem LookAtRH_eq (R : K → K) (e a u : Vector3 K) :
    LookAtRH R e a u =
      Matrix4.mk
        (-(LookAtLH R e a u).m00) (LookAtLH R e a u).m01
        (-(LookAtLH R e a u).m02) (LookAtLH R e a u).m03
        (-(LookAtLH R e a u).m10) (LookAtLH R e a u).m11
        (-(LookAtLH R e a u).m12) (LookAtLH R e a u).m13
        (-(LookAtLH R e a u).m20) (LookAtLH R e a u).m21
        (-(LookAtLH R e a u).m22) (LookAtLH R e a u).m23
        (-(LookAtLH R e a u).m30) (LookAtLH R e a u).m31
        (-(LookAtLH R e a u).m32) (LookAtLH R e a u).m33 := by
  obtain ⟨zx, zy, zz⟩ := Normalize_of_neg R (Vector3.sub a e) (Vector3.sub e a)
    (by simp [Vector3.sub]) (by simp [Vector3.sub]) (by simp [Vector3.sub])
  obtain ⟨xx, xy, xz⟩ := Normalize_of_neg R (Cross u (Normalize R (Vector3.sub a e)))
    (Cross u (Normalize R (Vector3.sub e a)))
    (by simp only [Cross, zx, zy, zz]; ring) (by simp only [Cross, zx, zy, zz]; ring)
    (by simp only [Cross, zx, zy, zz]; ring)
  simp only [LookAtRH, LookAtLH, Matrix4.mk.injEq, Dot_vector3]
  generalize Normalize R (Cross u (Normalize R (Vector3.sub e a))) = X' at xx xy xz ⊢
  generalize Normalize R (Cross u (Normalize R (Vector3.sub a e))) = X at xx xy xz ⊢
  generalize Normalize R (Vector3.sub e a) = Z' at zx zy zz ⊢
  generalize Normalize R (Vector3.sub a e) = Z at zx zy zz ⊢
  simp only [Cross, zx, zy, zz, xx, xy, xz]
  refine ⟨?_, ?_, ?_, ?_, ?_, ?_, ?_, ?_, ?_, ?_, ?_, ?_, ?_, ?_, ?_, ?_⟩ <;>
    first
    | trivial
    | ring1

/-! ## Claims C5 to C7 -/

/-- C5, as stated, fails: `LHToRH` does not negate the third column.  On the
matrix with cells 1..16, cell (0, 2) of the third column is kept (3, not -3)
and cell (2, 0), outside the third column, is changed (-9, not 9). -/
theorem C5_counterexample :
    (LHToRH (Matrix4.mk (1 : ℚ) 2 3 4 5 6 7 8 9 10 11 12 13 14 15 16)).get 0 2
        ≠ -(Matrix4.mk (1 : ℚ) 2 3 4 5 6 7 8 9 10 11 12 13 14 15 16).get 0 2 ∧
    (LHToRH (Matrix4.mk (1 : ℚ) 2 3 4 5 6 7 8 9 10 11 12 13 14 15 16)).get 2 0
        ≠ (Matrix4.mk (1 : ℚ) 2 3 4 5 6 7 8 9 10 11 12 13 14 15 16).get 2 0 := by
  rw [LHToRH_eq]
  simp only [Matrix4.get_02, Matrix4.get_20]
  norm_num

/-- C5, amended: for every 4x4 matrix `M`, `LHToRH(M)` negates the third row
of `M`: cell (2, c) of the result is `-M(2, c)` for every column `c` in
0..3, and every cell outside the third row is unchanged (indices are
(row, column) in the row-vector convention used by `Transform`). -/
theorem C5_LHToRH_negates_third_row (M : Matrix4 K) :
    (∀ c : Fin 4, (LHToRH M).get 2 c = -M.get 2 c) ∧
    (∀ r c : Fin 4, r ≠ 2 → (LHToRH M).get r c = M.get r c) := by
  refine ⟨fun c => ?_, fun r c hr => ?_⟩
  · rw [LHToRH_get, if_pos rfl]
  · rw [LHToRH_get, if_neg hr]

/-- C5, witness of the amended claim: cell (1, 2), outside the third row, is
unchanged on the matrix with cells 1..16. -/
theorem C5_witness :
    (1 : Fin 4) ≠ 2 ∧
    (LHToRH (Matrix4.mk (1 : ℚ) 2 3 4 5 6 7 8 9 10 11 12 13 14 15 16)).get 1 2
      = (Matrix4.mk (1 : ℚ) 2 3 4 5 6 7 8 9 10 11 12 13 14 15 16).get 1 2 :=
  ⟨by decide, (C5_LHToRH_negates_third_row _).2 1 2 (by decide)⟩

/-- C6, as stated, fails: with `fov = 2`, `aspect = 1`, `nearPlane = 1`,
`farPlane = 2` (so `q = 2`) the cell (2, 3), outside the Z column, is 1 in
`PerspectiveFovLH` and -1 in `PerspectiveFovRH`, and the Z-column cell (3, 2)
is -2 in both instead of being negated.  Neither cell depends on `Tan`. -/
theorem C6_counterexample :
    (PerspectiveFovRH (fun x => x) (2 : ℚ) 1 1 2).get 2 3
        ≠ (PerspectiveFovLH (fun x => x) (2 : ℚ) 1 1 2).get 2 3 ∧
    (PerspectiveFovRH (fun x => x) (2 : ℚ) 1 1 2).get 3 2
        ≠ -(PerspectiveFovLH (fun x => x) (2 : ℚ) 1 1 2).get 3 2 := by
  simp only [PerspectiveFovRH, LHToRH_eq, PerspectiveFovLH, Matrix4.get_23, Matrix4.get_32]
  norm_num

/-- C6, amended: for every `fov`, `aspect`, `nearPlane` and `farPlane`,
`PerspectiveFovRH` and `PerspectiveFovLH` called with the same parameters
agree in every cell outside the third row, and each cell of the third row of
the RH matrix is the negation of the corresponding LH cell. -/
theorem C6_PerspectiveFov_RH_vs_LH (Tan : K → K) (fov aspect nearPlane farPlane : K) :
    (∀ c : Fin 4, (PerspectiveFovRH Tan fov aspect nearPlane farPlane).get 2 c
        = -(PerspectiveFovLH Tan fov aspect nearPlane farPlane).get 2 c) ∧
    (∀ r c : Fin 4, r ≠ 2 → (PerspectiveFovRH Tan fov aspect nearPlane farPlane).get r c
        = (PerspectiveFovLH Tan fov aspect nearPlane farPlane).get r c) := by
  unfold PerspectiveFovRH
  refine ⟨fun c => ?_, fun r c hr => ?_⟩
  · rw [LHToRH_get, if_pos rfl]
  · rw [LHToRH_get, if_neg hr]

/-- C6, witness of the amended claim: the Z-column cell (3, 2) is the same
in both matrices. -/
theorem C6_witness :
    (3 : Fin 4) ≠ 2 ∧
    (PerspectiveFovRH (fun x => x) (2 : ℚ) 1 1 2).get 3 2
      = (PerspectiveFovLH (fun x => x) (2 : ℚ) 1 1 2).get 3 2 :=
  ⟨by decide, (C6_PerspectiveFov_RH_vs_LH (fun x => x) (2 : ℚ) 1 1 2).2 3 2 (by decide)⟩

/-- C7, as stated, fails: for `eye = (0,0,0)`, `at = (0,0,1)`, `up = (0,1,0)`
every vector that is normalized has squared length 1, where the reciprocal
square root is 1; `LookAtLH` is the identity, `LHToRH` of it has cell (0, 0)
equal to 1, and `LookAtRH` has cell (0, 0) equal to -1. -/
theorem C7_counterexample :
    (LookAtRH (fun _ => (1 : ℚ)) ⟨0, 0, 0⟩ ⟨0, 0, 1⟩ ⟨0, 1, 0⟩).get 0 0 = -1 ∧
    (LHToRH (LookAtLH (fun _ => (1 : ℚ)) ⟨0, 0, 0⟩ ⟨0, 0, 1⟩ ⟨0, 1, 0⟩)).get 0 0 = 1 ∧
    LookAtRH (fun _ => (1 : ℚ)) ⟨0, 0, 0⟩ ⟨0, 0, 1⟩ ⟨0, 1, 0⟩
      ≠ LHToRH (LookAtLH (fun _ => (1 : ℚ)) ⟨0, 0, 0⟩ ⟨0, 0, 1⟩ ⟨0, 1, 0⟩) := by
  have h1 : (LookAtRH (fun _ => (1 : ℚ)) ⟨0, 0, 0⟩ ⟨0, 0, 1⟩ ⟨0, 1, 0⟩).get 0 0 = -1 := by
    simp only [LookAtRH, Matrix4.get_00, Normalize_vector3, Cross, Vector3.sub]
    norm_num
  have h2 : (LHToRH (LookAtLH (fun _ => (1 : ℚ)) ⟨0, 0, 0⟩ ⟨0, 0, 1⟩ ⟨0, 1, 0⟩)).get 0 0
      = 1 := by
    simp only [LHToRH_eq, LookAtLH, Matrix4.get_00, Normalize_vector3, Cross, Vector3.sub]
    norm_num
  refine ⟨h1, h2, fun h => ?_⟩
  rw [h, h2] at h1
  norm_num at h1

/-- C7, amended: `LookAtRH(eye, at, up)` is not `LHToRH` of
`LookAtLH(eye, at, up)`; it is built directly, with the z axis
`Normalize(eye - at)`, and cell by cell it is `LookAtLH(eye, at, up)` with
the first and the third column negated and the other two columns kept. -/
theorem C7_LookAtRH_vs_LookAtLH (RecipSqrt : K → K) (vEye vAt vUp : Vector3 K) :
    (∀ r : Fin 4, (LookAtRH RecipSqrt vEye vAt vUp).get r 0
        = -(LookAtLH RecipSqrt vEye vAt vUp).get r 0) ∧
    (∀ r : Fin 4, (LookAtRH RecipSqrt vEye vAt vUp).get r 2
        = -(LookAtLH RecipSqrt vEye vAt vUp).get r 2) ∧
    (∀ r : Fin 4, (LookAtRH RecipSqrt vEye vAt vUp).get r 1
        = (LookAtLH RecipSqrt vEye vAt vUp).get r 1) ∧
    (∀ r : Fin 4, (LookAtRH RecipSqrt vEye vAt vUp).get r 3
        = (LookAtLH RecipSqrt vEye vAt vUp).get r 3) := by
  rw [LookAtRH_eq]
  generalize LookAtLH RecipSqrt vEye vAt vUp = L
  refine ⟨fun r => ?_, fun r => ?_, fun r => ?_, fun r => ?_⟩ <;> fin_cases r <;>
    simp [Matrix4.get]

/-! ## Quaternion interpolation at its end points -/

theorem Eq_self (eps a : K) (heps : 0 ≤ eps) : Eq eps a a = true := by
  rw [Eq_eq_true_iff]
  simpa using heps

theorem abs_le_one_of_mul_self_le {x : K} (h : x * x ≤ 1) : |x| ≤ 1 := by
  rw [abs_le]
  constructor
  · nlinarith [mul_self_nonneg (x + 1)]
  · nlinarith [mul_self_nonneg (x - 1)]

theorem abs_le_one_of_LengthSq (q : Quaternion K) (hq : LengthSq q = 1) :
    |q.x| ≤ 1 ∧ |q.y| ≤ 1 ∧ |q.z| ≤ 1 ∧ |q.w| ≤ 1 := by
  simp only [LengthSq, Dot_quaternion] at hq
  have hx := mul_self_nonneg q.x
  have hy := mul_self_nonneg q.y
  have hz := mul_self_nonneg q.z
  have hw := mul_self_nonneg q.w
  refine ⟨?_, ?_, ?_, ?_⟩ <;> apply abs_le_one_of_mul_self_le <;> linarith

theorem Slerp_zero_of_gt (eps : K) (Sin ACos : K → K) (a b : Quaternion K)
    (hSin0 : Sin 0 = 0)
    (hSinACos : ∀ c : K, eps - 1 < c → c < 1 - eps → Sin (ACos c) ≠ 0)
    (h : Dot a b > eps - 1) : Slerp eps Sin ACos a b 0 = a := by
  unfold Slerp
  simp only [h, if_true]
  by_cases h2 : Dot a b < 1 - eps
  · have hne := hSinACos (Dot a b) h h2
    simp only [h2, if_true, Quaternion.add, Quaternion.scalarMul, Quaternion.mulScalar,
      sub_zero, one_mul, zero_mul, hSin0, mul_zero, add_zero, mul_one_div_cancel hne]
  · simp only [h2, if_false, Quaternion.add, Quaternion.scalarMul, Quaternion.mulScalar,
      sub_zero, one_mul, mul_zero, add_zero]

theorem Slerp_zero_of_le (eps : K) (Sin ACos : K → K) (a b : Quaternion K)
    (hSin0 : Sin 0 = 0) (h : ¬ Dot a b > eps - 1) :
    Slerp eps Sin ACos a b 0 =
      Quaternion.mk (Sin PIdiv2 * a.x) (Sin PIdiv2 * a.y) (Sin PIdiv2 * a.z) (Sin PIdiv2 * a.w) := by
  unfold Slerp
  simp only [h, if_false, Quaternion.add, Quaternion.scalarMul,
      sub_zero, one_mul, zero_mul, hSin0, mul_zero, add_zero]

theorem Slerp_one_of_gt (eps : K) (Sin ACos : K → K) (a b : Quaternion K)
    (hSin0 : Sin 0 = 0)
    (hSinACos : ∀ c : K, eps - 1 < c → c < 1 - eps → Sin (ACos c) ≠ 0)
    (h : Dot a b > eps - 1) : Slerp eps Sin ACos a b 1 = b := by
  unfold Slerp
  simp only [h, if_true]
  by_cases h2 : Dot a b < 1 - eps
  · have hne := hSinACos (Dot a b) h h2
    simp only [h2, if_true, Quaternion.add, Quaternion.scalarMul, Quaternion.mulScalar,
      sub_self, one_mul, zero_mul, hSin0, mul_one, zero_add, mul_one_div_cancel hne]
  · simp only [h2, if_false, Quaternion.add, Quaternion.scalarMul, Quaternion.mulScalar,
      sub_self, zero_mul, mul_one, zero_add]

theorem Slerp_one_of_le (eps : K) (Sin ACos : K → K) (a b : Quaternion K)
    (hSin0 : Sin 0 = 0) (h : ¬ Dot a b > eps - 1) :
    Slerp eps Sin ACos a b 1 =
      Quaternion.mk (-b.y * Sin PIdiv2) (b.x * Sin PIdiv2) (-b.w * Sin PIdiv2) (b.z * Sin PIdiv2) := by
  unfold Slerp
  simp only [h, if_false, Quaternion.add, Quaternion.scalarMul,
      sub_self, one_mul, zero_mul, hSin0, zero_add]


theorem Real_sin_PIdiv2 : |Real.sin (PIdiv2 : ℝ) - 1| ≤ 1 / 8388608 := by
  have h1 := Real.pi_gt_d6
  have h2 := Real.pi_lt_d6
  have hx : Real.sin (PIdiv2 : ℝ) = Real.cos (Real.pi / 2 - PIdiv2) :=
    (Real.cos_pi_div_two_sub _).symm
  have hlow := @Real.one_sub_sq_div_two_le_cos (Real.pi / 2 - PIdiv2)
  have hup := Real.cos_le_one (Real.pi / 2 - PIdiv2)
  rw [hx, abs_le]
  unfold PIdiv2 at *
  norm_num at h1 h2
  have hd0 : 0 < Real.pi / 2 - 1570796 / 1000000 := by linarith
  have hd1 : Real.pi / 2 - 1570796 / 1000000 < 1 / 1000000 := by linarith
  have hsq : (Real.pi / 2 - 1570796 / 1000000) ^ 2 ≤ (1 / 1000000) ^ 2 :=
    pow_le_pow_left₀ hd0.le hd1.le 2
  constructor
  · norm_num at hsq ⊢
    linarith
  · linarith

theorem Real_sin_arccos_ne_zero (c : ℝ) (h1 : -1 < c) (h2 : c < 1) :
    Real.sin (Real.arccos c) ≠ 0 := by
  rw [Real.sin_arccos]
  have : 0 < 1 - c ^ 2 := by nlinarith
  exact (Real.sqrt_pos.mpr this).ne'

/-! ## Claims C8 and C9: `Slerp` at `t = 0` and `t = 1` -/

/-- C8: for every two quaternions `a` (of unit length) and `b`,
`Slerp(a, b, 0)` equals `a` within epsilon per component (`Eq`), whichever of
the three branches is taken.  The sine is exact where it is used: `Sin 0 = 0`,
`Sin(PIdiv2)` is `Eq` to 1, and `Sin(ACos c)` is not 0 for `c` strictly
between `eps - 1` and `1 - eps`. -/
theorem C8_Slerp_zero (eps : K) (Sin ACos : K → K) (a b : Quaternion K)
    (heps : 0 ≤ eps) (ha : LengthSq a = 1)
    (hSin0 : Sin 0 = 0) (hSinPi : Eq eps (Sin PIdiv2) 1 = true)
    (hSinACos : ∀ c : K, eps - 1 < c → c < 1 - eps → Sin (ACos c) ≠ 0) :
    Eq eps (Slerp eps Sin ACos a b 0).x a.x = true ∧
    Eq eps (Slerp eps Sin ACos a b 0).y a.y = true ∧
    Eq eps (Slerp eps Sin ACos a b 0).z a.z = true ∧
    Eq eps (Slerp eps Sin ACos a b 0).w a.w = true := by
  by_cases h : Dot a b > eps - 1
  · rw [Slerp_zero_of_gt eps Sin ACos a b hSin0 hSinACos h]
    exact ⟨Eq_self eps _ heps, Eq_self eps _ heps, Eq_self eps _ heps, Eq_self eps _ heps⟩
  · rw [Slerp_zero_of_le eps Sin ACos a b hSin0 h]
    obtain ⟨hx, hy, hz, hw⟩ := abs_le_one_of_LengthSq a ha
    rw [Eq_eq_true_iff] at hSinPi
    have key : ∀ t : K, |t| ≤ 1 → Eq eps (Sin PIdiv2 * t) t = true := by
      intro t ht
      rw [Eq_eq_true_iff]
      have e : Sin PIdiv2 * t - t = (Sin PIdiv2 - 1) * t := by ring
      rw [e, abs_mul]
      calc |Sin PIdiv2 - 1| * |t| ≤ eps * 1 :=
            mul_le_mul hSinPi ht (abs_nonneg t) heps
        _ = eps := mul_one eps
    exact ⟨key _ hx, key _ hy, key _ hz, key _ hw⟩

/-- C8, witness: the hypotheses hold over the reals with the real sine and
arccosine and the single-precision epsilon `2⁻²³`; the input `a = (0,0,0,1)`,
`b = -a` takes the antiparallel branch. -/
theorem C8_witness :
    (0 : ℝ) ≤ 1 / 8388608 ∧
    LengthSq (Quaternion.mk (0 : ℝ) 0 0 1) = 1 ∧
    Real.sin 0 = 0 ∧
    Eq (1 / 8388608 : ℝ) (Real.sin PIdiv2) 1 = true ∧
    Eq (1 / 8388608 : ℝ)
      (Slerp (1 / 8388608 : ℝ) Real.sin Real.arccos ⟨0, 0, 0, 1⟩ ⟨0, 0, 0, -1⟩ 0).w 1 = true :=
  ⟨by norm_num,
   by norm_num [LengthSq, Dot_quaternion],
   Real.sin_zero,
   (Eq_eq_true_iff _ _ _).mpr Real_sin_PIdiv2,
   (C8_Slerp_zero (1 / 8388608 : ℝ) Real.sin Real.arccos ⟨0, 0, 0, 1⟩ ⟨0, 0, 0, -1⟩
     (by norm_num) (by norm_num [LengthSq, Dot_quaternion]) Real.sin_zero
     ((Eq_eq_true_iff _ _ _).mpr Real_sin_PIdiv2)
     (fun c h1 h2 => Real_sin_arccos_ne_zero c (by linarith) (by linarith))).2.2.2⟩

/-- C9, as stated, fails: for the unit quaternions `a = (0,0,0,1)` and
`b = -a = (0,0,0,-1)`, with the real sine and arccosine and epsilon `2⁻²³`,
`Dot(a, b) = -1` selects the antiparallel branch and the `w` component of
`Slerp(a, b, 1)` is 0, which is not within epsilon of `b.w = -1`. -/
theorem C9_counterexample :
    LengthSq (Quaternion.mk (0 : ℝ) 0 0 1) = 1 ∧
    LengthSq (Quaternion.mk (0 : ℝ) 0 0 (-1)) = 1 ∧
    (Slerp (1 / 8388608 : ℝ) Real.sin Real.arccos ⟨0, 0, 0, 1⟩ ⟨0, 0, 0, -1⟩ 1).w = 0 ∧
    Eq (1 / 8388608 : ℝ)
      (Slerp (1 / 8388608 : ℝ) Real.sin Real.arccos ⟨0, 0, 0, 1⟩ ⟨0, 0, 0, -1⟩ 1).w (-1)
      = false := by
  have hbr : ¬ Dot (Quaternion.mk (0 : ℝ) 0 0 1) (Quaternion.mk (0 : ℝ) 0 0 (-1))
      > 1 / 8388608 - 1 := by
    norm_num [Dot_quaternion]
  rw [Slerp_one_of_le _ _ _ _ _ Real.sin_zero hbr, Eq_eq_false_iff]
  norm_num [LengthSq, Dot_quaternion]

/-- C9, amended: for all quaternions `a` and `b` with
`Dot(a, b) > epsilon - 1` (the near-parallel and the spherical branch),
`Slerp(a, b, 1)` equals `b`; in the antiparallel branch
(`Dot(a, b) <= epsilon - 1`, which contains `a = -b` for unit `b`) it is
`Sin(PIdiv2) * (-b.y, b.x, -b.w, b.z)`, the quaternion the code builds
perpendicular to `b`.  The sine is exact where it is used: `Sin 0 = 0` and
`Sin(ACos c)` is not 0 for `c` strictly between `eps - 1` and `1 - eps`. -/
theorem C9_Slerp_one (eps : K) (Sin ACos : K → K) (a b : Quaternion K)
    (hSin0 : Sin 0 = 0)
    (hSinACos : ∀ c : K, eps - 1 < c → c < 1 - eps → Sin (ACos c) ≠ 0) :
    (Dot a b > eps - 1 → Slerp eps Sin ACos a b 1 = b) ∧
    (Dot a b ≤ eps - 1 → Slerp eps Sin ACos a b 1 =
      Quaternion.mk (-b.y * Sin PIdiv2) (b.x * Sin PIdiv2) (-b.w * Sin PIdiv2)
        (b.z * Sin PIdiv2)) :=
  ⟨fun h => Slerp_one_of_gt eps Sin ACos a b hSin0 hSinACos h,
   fun h => Slerp_one_of_le eps Sin ACos a b hSin0 (not_lt.mpr h)⟩


/-- C9, witness of the amended claim: over the reals, `a = (0,0,0,1)` and
`b = (1,0,0,0)` have `Dot(a, b) = 0` (spherical branch) and `Slerp(a, b, 1)`
is `b`. -/
theorem C9_witness :
    Real.sin 0 = 0 ∧
    Dot (Quaternion.mk (0 : ℝ) 0 0 1) (Quaternion.mk (1 : ℝ) 0 0 0) > 1 / 8388608 - 1 ∧
    Slerp (1 / 8388608 : ℝ) Real.sin Real.arccos ⟨0, 0, 0, 1⟩ ⟨1, 0, 0, 0⟩ 1
      = Quaternion.mk 1 0 0 0 :=
  ⟨Real.sin_zero,
   by norm_num [Dot_quaternion],
   (C9_Slerp_one (1 / 8388608 : ℝ) Real.sin Real.arccos ⟨0, 0, 0, 1⟩ ⟨1, 0, 0, 0⟩
     Real.sin_zero
     (fun c h1 h2 => Real_sin_arccos_ne_zero c (by linarith) (by linarith))).1
     (by norm_num [Dot_quaternion])⟩

/-! ## Matrix to quaternion and back -/

theorem ToQuaternion_ToMatrix_guard (Sqrt : K → K) (eps x z : K)
    (hSqrt : ∀ y : K, 0 ≤ y → Sqrt (y * y) = y)
    (hxz : x * x + z * z = 1) (hz0 : 0 < z) (hze : 2 * z ≤ eps) :
    ToQuaternion Sqrt eps (ToMatrix (Quaternion.mk x 0 z 0))
      = Quaternion.mk (8 * x * z * z) 0 z 0 := by
  have hS : ∀ t u : K, 0 ≤ u → t = u * u → Sqrt t = u := fun t u hu ht => ht ▸ hSqrt u hu
  have hE : Eq eps (2 * z) 0 = true := by
    rw [Eq_eq_true_iff, sub_zero, abs_of_pos (by positivity)]
    exact hze
  have hzz : 0 < z * z := mul_pos hz0 hz0
  have h1 : ¬ ((ToMatrix (Quaternion.mk x 0 z 0)).get 0 0
      + (ToMatrix (Quaternion.mk x 0 z 0)).get 1 1
      + (ToMatrix (Quaternion.mk x 0 z 0)).get 2 2 > 0) := by
    simp only [ToMatrix, Matrix4.get_00, Matrix4.get_01, Matrix4.get_02, Matrix4.get_03, Matrix4.get_10, Matrix4.get_11, Matrix4.get_12, Matrix4.get_13, Matrix4.get_20, Matrix4.get_21, Matrix4.get_22, Matrix4.get_23, Matrix4.get_30, Matrix4.get_31, Matrix4.get_32, Matrix4.get_33]
    linarith
  have h2 : ¬ ((ToMatrix (Quaternion.mk x 0 z 0)).get 1 1
        > (ToMatrix (Quaternion.mk x 0 z 0)).get 0 0
      ∧ (ToMatrix (Quaternion.mk x 0 z 0)).get 2 2
        ≤ (ToMatrix (Quaternion.mk x 0 z 0)).get 1 1) := by
    simp only [ToMatrix, Matrix4.get_00, Matrix4.get_01, Matrix4.get_02, Matrix4.get_03, Matrix4.get_10, Matrix4.get_11, Matrix4.get_12, Matrix4.get_13, Matrix4.get_20, Matrix4.get_21, Matrix4.get_22, Matrix4.get_23, Matrix4.get_30, Matrix4.get_31, Matrix4.get_32, Matrix4.get_33]
    rintro ⟨_, h⟩
    linarith
  have h3 : ((ToMatrix (Quaternion.mk x 0 z 0)).get 1 1
          ≤ (ToMatrix (Quaternion.mk x 0 z 0)).get 0 0
        ∧ (ToMatrix (Quaternion.mk x 0 z 0)).get 2 2
          > (ToMatrix (Quaternion.mk x 0 z 0)).get 0 0)
      ∨ ((ToMatrix (Quaternion.mk x 0 z 0)).get 2 2
          > (ToMatrix (Quaternion.mk x 0 z 0)).get 1 1) := by
    right
    simp only [ToMatrix, Matrix4.get_00, Matrix4.get_01, Matrix4.get_02, Matrix4.get_03, Matrix4.get_10, Matrix4.get_11, Matrix4.get_12, Matrix4.get_13, Matrix4.get_20, Matrix4.get_21, Matrix4.get_22, Matrix4.get_23, Matrix4.get_30, Matrix4.get_31, Matrix4.get_32, Matrix4.get_33]
    linarith
  unfold ToQuaternion
  simp only [if_neg h1, if_neg h2, if_pos h3]
  simp only [ToMatrix, Matrix4.get_00, Matrix4.get_01, Matrix4.get_02, Matrix4.get_03, Matrix4.get_10, Matrix4.get_11, Matrix4.get_12, Matrix4.get_13, Matrix4.get_20, Matrix4.get_21, Matrix4.get_22, Matrix4.get_23, Matrix4.get_30, Matrix4.get_31, Matrix4.get_32, Matrix4.get_33]
  rw [hS _ (2 * z) (by positivity) (by ring)]
  simp only [hE, Bool.not_true, Bool.false_eq_true, if_false, Quaternion.mk.injEq]
  refine ⟨?_, ?_, ?_, ?_⟩ <;> ring


/-- The conditions of the second and third parts of the round trip above
cannot both be dropped when epsilon is positive. In the exact model, the
unit quaternion `q = ((2⁵⁰ - 1) / (2⁵⁰ + 1), 0, 2²⁶ / (2⁵⁰ + 1), 0)`, which is no binary
fraction (no floating-point number holds it), has `M = ToMatrix(q)` with
`M(1,1) < M(2,2) < M(0,0)`: the z formula is taken below `M(0,0)`, its scale
`s = 2 * q.z` is within epsilon `2⁻²³` of 0, the reciprocal is skipped, and
cell (1, 1) of `ToMatrix(ToQuaternion(M))` differs from `M(1, 1)`. -/
theorem ToQuaternion_ToMatrix_guard_fires :
    LengthSq (Quaternion.mk ((2 ^ 50 - 1) / (2 ^ 50 + 1) : ℚ) 0 (2 ^ 26 / (2 ^ 50 + 1)) 0) = 1 ∧
    (ToMatrix (ToQuaternion Rat.sqrt (1 / 8388608)
        (ToMatrix (Quaternion.mk ((2 ^ 50 - 1) / (2 ^ 50 + 1) : ℚ) 0 (2 ^ 26 / (2 ^ 50 + 1)) 0)))).get 1 1
      ≠ (ToMatrix (Quaternion.mk ((2 ^ 50 - 1) / (2 ^ 50 + 1) : ℚ) 0 (2 ^ 26 / (2 ^ 50 + 1)) 0)).get 1 1 := by
  constructor
  · norm_num [LengthSq, Dot_quaternion]
  · have hg := ToQuaternion_ToMatrix_guard Rat.sqrt (1 / 8388608 : ℚ)
      ((2 ^ 50 - 1) / (2 ^ 50 + 1)) (2 ^ 26 / (2 ^ 50 + 1))
      (fun y hy => by rw [Rat.sqrt_eq, abs_of_nonneg hy]) (by norm_num) (by norm_num)
      (by norm_num)
    rw [hg]
    simp only [ToMatrix, Matrix4.get_11]
    norm_num

theorem ToQuaternionFormula_yDiag (M : Matrix4 K) (h : ToQuaternionFormula M = QuatFormula.yDiag) :
    M.get 0 0 ≤ M.get 1 1 ∧ M.get 2 2 ≤ M.get 1 1 := by
  unfold ToQuaternionFormula at h
  simp only at h
  split_ifs at h with h1 h2 h3
  exact ⟨le_of_lt h2.1, h2.2⟩

theorem ToQuaternionFormula_xDiag (M : Matrix4 K) (h : ToQuaternionFormula M = QuatFormula.xDiag) :
    M.get 1 1 ≤ M.get 0 0 ∧ M.get 2 2 ≤ M.get 0 0 := by
  unfold ToQuaternionFormula at h
  simp only at h
  split_ifs at h with h1 h2 h3
  push_neg at h2 h3
  obtain ⟨h3a, h3b⟩ := h3
  have h11 : M.get 1 1 ≤ M.get 0 0 := by
    by_contra hc
    rw [not_le] at hc
    exact absurd (h2 hc) (not_lt.mpr h3b)
  exact ⟨h11, h3a h11⟩

theorem ToQuaternion_of_yDiag (Sqrt : K → K) (eps : K) (M : Matrix4 K)
    (h : ToQuaternionFormula M = QuatFormula.yDiag) :
    (ToQuaternion Sqrt eps M).y
      = Sqrt ((M.get 1 1 - (M.get 2 2 + M.get 0 0)) + 1) * (1 / 2) := by
  unfold ToQuaternionFormula at h
  simp only at h
  unfold ToQuaternion
  simp only
  split_ifs at h with h1 h2 h3
  rw [if_neg h1, if_pos h2]

theorem ToQuaternion_of_zDiag (Sqrt : K → K) (eps : K) (M : Matrix4 K)
    (h : ToQuaternionFormula M = QuatFormula.zDiag) :
    (ToQuaternion Sqrt eps M).z
      = Sqrt ((M.get 2 2 - (M.get 0 0 + M.get 1 1)) + 1) * (1 / 2) := by
  unfold ToQuaternionFormula at h
  simp only at h
  unfold ToQuaternion
  simp only
  split_ifs at h with h1 h2 h3
  rw [if_neg h1, if_neg h2, if_pos h3]

theorem ToQuaternion_of_xDiag (Sqrt : K → K) (eps : K) (M : Matrix4 K)
    (h : ToQuaternionFormula M = QuatFormula.xDiag) :
    (ToQuaternion Sqrt eps M).x
      = Sqrt ((M.get 0 0 - (M.get 1 1 + M.get 2 2)) + 1) * (1 / 2) := by
  unfold ToQuaternionFormula at h
  simp only at h
  unfold ToQuaternion
  simp only
  split_ifs at h with h1 h2 h3
  rw [if_neg h1, if_neg h2, if_neg h3]

/-- C11, the code at the failing input: for the rotation matrix
`M = ToMatrix(4/5, 0, 3/5, 0)` (diagonal `7/25, -1, -7/25`, trace `-1`) the
z formula is taken, because `M(2,2) > M(1,1)`, although `M(2,2)` is smaller
than `M(0,0)`. -/
theorem C11_zDiag_taken_below_m00 :
    LengthSq (Quaternion.mk (4 / 5 : ℚ) 0 (3 / 5) 0) = 1 ∧
    (ToMatrix (Quaternion.mk (4 / 5 : ℚ) 0 (3 / 5) 0)).get 0 0
        + (ToMatrix (Quaternion.mk (4 / 5 : ℚ) 0 (3 / 5) 0)).get 1 1
        + (ToMatrix (Quaternion.mk (4 / 5 : ℚ) 0 (3 / 5) 0)).get 2 2 ≤ 0 ∧
    ToQuaternionFormula (ToMatrix (Quaternion.mk (4 / 5 : ℚ) 0 (3 / 5) 0)) = QuatFormula.zDiag ∧
    (ToMatrix (Quaternion.mk (4 / 5 : ℚ) 0 (3 / 5) 0)).get 2 2
      < (ToMatrix (Quaternion.mk (4 / 5 : ℚ) 0 (3 / 5) 0)).get 0 0 := by
  refine ⟨?_, ?_, ?_, ?_⟩
  · norm_num [LengthSq, Dot_quaternion]
  · norm_num [ToMatrix, Matrix4.get_00, Matrix4.get_11, Matrix4.get_22]
  · unfold ToQuaternionFormula
    norm_num [ToMatrix, Matrix4.get_00, Matrix4.get_11, Matrix4.get_22]
  · norm_num [ToMatrix, Matrix4.get_00, Matrix4.get_11, Matrix4.get_22]

/-- C12: for floating arguments `Eq(a, b)` is true if and only if
`|a - b| <= epsilon`; the generic template is true if and only if
`a == b`. -/
theorem C12_Eq_iff {T : Type} [DecidableEq T] :
    (∀ eps a b : K, Eq eps a b = true ↔ |a - b| ≤ eps) ∧
    (∀ a b : T, EqGeneric a b = true ↔ a = b) :=
  ⟨Eq_eq_true_iff, fun a b => by simp [EqGeneric]⟩

/-! ## Claim C13: `Surround` -/

theorem SurroundDown_spec {T : Type} [LinearOrderedCommRing T] (high rang : T) :
    ∀ (n : ℕ) (ret : T), ret < high + n * rang →
      ∃ m : ℕ, (∀ fuel : ℕ, n + 1 ≤ fuel →
          SurroundDown fuel ret high rang = some (ret - m * rang)) ∧
        ret - m * rang < high ∧ (m = 0 ∨ high ≤ ret - m * rang + rang) := by
  intro n
  induction n with
  | zero =>
    intro ret h
    refine ⟨0, fun fuel hf => ?_, by simpa using h, Or.inl rfl⟩
    obtain ⟨f, rfl⟩ : ∃ f, fuel = f + 1 := ⟨fuel - 1, by omega⟩
    have hn : ¬ ret ≥ high := by simpa using h
    simp [SurroundDown, hn]
  | succ n ih =>
    intro ret h
    by_cases hge : ret ≥ high
    · have h' : ret - rang < high + n * rang := by
        push_cast at h
        linarith
      obtain ⟨m, hm, hlt, hor⟩ := ih (ret - rang) h'
      refine ⟨m + 1, fun fuel hf => ?_, ?_, Or.inr ?_⟩
      · obtain ⟨f, rfl⟩ : ∃ f, fuel = f + 1 := ⟨fuel - 1, by omega⟩
        rw [SurroundDown, if_pos hge, hm f (by omega)]
        congr 1
        push_cast
        ring
      · push_cast
        linarith
      · push_cast
        rcases hor with h0 | h1
        · subst h0
          simp only [Nat.cast_zero, zero_add, one_mul, sub_add_cancel]
          exact hge
        · linarith
    · refine ⟨0, fun fuel hf => ?_, by simpa using hge, Or.inl rfl⟩
      obtain ⟨f, rfl⟩ : ∃ f, fuel = f + 1 := ⟨fuel - 1, by omega⟩
      simp [SurroundDown, hge]

theorem SurroundUp_spec {T : Type} [LinearOrderedCommRing T] (low rang : T) :
    ∀ (n : ℕ) (ret : T), low ≤ ret + n * rang →
      ∃ m : ℕ, (∀ fuel : ℕ, n + 1 ≤ fuel →
          SurroundUp fuel ret low rang = some (ret + m * rang)) ∧
        low ≤ ret + m * rang ∧ (m = 0 ∨ ret + m * rang - rang < low) := by
  intro n
  induction n with
  | zero =>
    intro ret h
    refine ⟨0, fun fuel hf => ?_, by simpa using h, Or.inl rfl⟩
    obtain ⟨f, rfl⟩ : ∃ f, fuel = f + 1 := ⟨fuel - 1, by omega⟩
    have hn : ¬ ret < low := by simpa using h
    simp [SurroundUp, hn]
  | succ n ih =>
    intro ret h
    by_cases hlt : ret < low
    · have h' : low ≤ ret + rang + n * rang := by
        push_cast at h
        linarith
      obtain ⟨m, hm, hle, hor⟩ := ih (ret + rang) h'
      refine ⟨m + 1, fun fuel hf => ?_, ?_, Or.inr ?_⟩
      · obtain ⟨f, rfl⟩ : ∃ f, fuel = f + 1 := ⟨fuel - 1, by omega⟩
        rw [SurroundUp, if_pos hlt, hm f (by omega)]
        congr 1
        push_cast
        ring
      · push_cast
        linarith
      · push_cast
        rcases hor with h0 | h1
        · subst h0
          simp only [Nat.cast_zero, zero_add, one_mul, add_sub_cancel_right]
          exact hlt
        · linarith
    · refine ⟨0, fun fuel hf => ?_, by simpa using hlt, Or.inl rfl⟩
      obtain ⟨f, rfl⟩ : ∃ f, fuel = f + 1 := ⟨fuel - 1, by omega⟩
      simp [SurroundUp, hlt]

theorem Surround_spec {T : Type} [LinearOrderedCommRing T] [Archimedean T] (val low high : T)
    (h : high > low) :
    ∃ (fuel0 : ℕ) (r : T), (∀ fuel : ℕ, fuel0 ≤ fuel → Surround fuel val low high = some r) ∧
      low ≤ r ∧ r < high ∧ ∃ k : ℤ, r - val = k * (high - low) := by
  have hr : 0 < high - low := sub_pos.mpr h
  obtain ⟨n1, hn1⟩ := Archimedean.arch (val - high + (high - low)) hr
  have h1 : val < high + (n1 : T) * (high - low) := by
    rw [nsmul_eq_mul] at hn1
    linarith
  obtain ⟨m1, hm1, hlt1, _⟩ := SurroundDown_spec high (high - low) n1 val h1
  obtain ⟨n2, hn2⟩ := Archimedean.arch (low - (val - m1 * (high - low))) hr
  have h2 : low ≤ (val - m1 * (high - low)) + (n2 : T) * (high - low) := by
    rw [nsmul_eq_mul] at hn2
    linarith
  obtain ⟨m2, hm2, hle2, hor2⟩ :=
    SurroundUp_spec low (high - low) n2 (val - m1 * (high - low)) h2
  refine ⟨max (n1 + 1) (n2 + 1), val - m1 * (high - low) + m2 * (high - low),
    fun fuel hf => ?_, hle2, ?_, ⟨(m2 : ℤ) - m1, ?_⟩⟩
  · unfold Surround
    simp only
    rw [hm1 fuel (le_trans (le_max_left _ _) hf)]
    exact hm2 fuel (le_trans (le_max_right _ _) hf)
  · rcases hor2 with h0 | h3
    · subst h0
      simpa using hlt1
    · linarith
  · push_cast
    ring

theorem SurroundClosedInt_unique (val low high r : ℤ) (h : high > low)
    (hlo : low ≤ r) (hhi : r < high) (hk : ∃ k : ℤ, r - val = k * (high - low)) :
    r = SurroundClosedInt val low high := by
  obtain ⟨k, hk⟩ := hk
  have hr : 0 < high - low := sub_pos.mpr h
  unfold SurroundClosedInt
  rw [Int.fmod_eq_emod _ hr.le]
  have e : val - low = (r - low) + (-k) * (high - low) := by linarith
  rw [e, Int.add_mul_emod_self, Int.emod_eq_of_lt (by linarith) (by linarith)]
  ring

theorem SurroundClosedField_unique {F : Type} [LinearOrderedField F] [FloorRing F]
    (val low high r : F) (h : high > low)
    (hlo : low ≤ r) (hhi : r < high) (hk : ∃ k : ℤ, r - val = k * (high - low)) :
    r = SurroundClosedField val low high := by
  obtain ⟨k, hk⟩ := hk
  have hr : 0 < high - low := sub_pos.mpr h
  have hfl : ⌊(val - low) / (high - low)⌋ = -k := by
    rw [Int.floor_eq_iff]
    push_cast
    constructor
    · rw [le_div_iff₀ hr]
      linarith
    · rw [div_lt_iff₀ hr]
      linarith
  unfold SurroundClosedField
  rw [hfl]
  push_cast
  linarith

/-- C13: for `val`, `low`, `high` with `high > low`, on the integers and on
every ordered field with a floor (the rationals), `Surround` ends (every
fuel from some bound on gives the same result) and returns the closed-form
wrap `low + ((val - low) floor-mod (high - low))`, which lies in
`[low, high)` and differs from `val` by an integer multiple of
`high - low`. -/
theorem C13_Surround {F : Type} [LinearOrderedField F] [FloorRing F] :
    (∀ val low high : ℤ, high > low →
      (∃ fuel0 : ℕ, ∀ fuel : ℕ, fuel0 ≤ fuel →
        Surround fuel val low high = some (SurroundClosedInt val low high)) ∧
      low ≤ SurroundClosedInt val low high ∧ SurroundClosedInt val low high < high ∧
      ∃ k : ℤ, SurroundClosedInt val low high - val = k * (high - low)) ∧
    (∀ val low high : F, high > low →
      (∃ fuel0 : ℕ, ∀ fuel : ℕ, fuel0 ≤ fuel →
        Surround fuel val low high = some (SurroundClosedField val low high)) ∧
      low ≤ SurroundClosedField val low high ∧ SurroundClosedField val low high < high ∧
      ∃ k : ℤ, SurroundClosedField val low high - val = k * (high - low)) := by
  constructor
  · intro val low high h
    obtain ⟨fuel0, r, hf, hlo, hhi, hk⟩ := Surround_spec val low high h
    have e := SurroundClosedInt_unique val low high r h hlo hhi (by simpa using hk)
    rw [← e]
    exact ⟨⟨fuel0, hf⟩, hlo, hhi, by simpa using hk⟩
  · intro val low high h
    obtain ⟨fuel0, r, hf, hlo, hhi, hk⟩ := Surround_spec val low high h
    have e := SurroundClosedField_unique val low high r h hlo hhi hk
    rw [← e]
    exact ⟨⟨fuel0, hf⟩, hlo, hhi, hk⟩

/-- C13, witness: `Surround(17, 0, 5)` on the integers is 2 (four tests of
the first loop), and `Surround(-7/2, 0, 1)` on the rationals ends with the
closed form. -/
theorem C13_witness :
    ((5 : ℤ) > 0 ∧ SurroundClosedInt 17 0 5 = 2 ∧ Surround 4 (17 : ℤ) 0 5 = some 2 ∧
      ∃ fuel0 : ℕ, ∀ fuel : ℕ, fuel0 ≤ fuel →
        Surround fuel (17 : ℤ) 0 5 = some (SurroundClosedInt 17 0 5)) ∧
    ((1 : ℚ) > 0 ∧
      ∃ fuel0 : ℕ, ∀ fuel : ℕ, fuel0 ≤ fuel →
        Surround fuel (-7 / 2 : ℚ) 0 1 = some (SurroundClosedField (-7 / 2) 0 1)) :=
  ⟨⟨by decide, by decide, by decide, ((@C13_Surround ℚ _ _).1 17 0 5 (by decide)).1⟩,
   ⟨by norm_num, ((@C13_Surround ℚ _ _).2 (-7 / 2) 0 1 (by norm_num)).1⟩⟩


/-! ## Claims C14 and C15: normalized length and the cross products -/

theorem Dot_vector2 (a b : Vector2 K) : Dot a b = a.x * b.x + a.y * b.y := rfl

theorem Dot_vector4 (a b : Vector4 K) :
    Dot a b = a.x * b.x + (a.y * b.y + (a.z * b.z + a.w * b.w)) := rfl

theorem Dot_plane (p q : Plane K) :
    Dot p q = p.a * q.a + (p.b * q.b + (p.c * q.c + p.d * q.d)) := rfl

theorem Normalize_vector2 (R : K → K) (v : Vector2 K) :
    Normalize R v = Vector2.mk (v.x * R (LengthSq v)) (v.y * R (LengthSq v)) :=
  rfl

theorem Normalize_vector4 (R : K → K) (v : Vector4 K) :
    Normalize R v =
      Vector4.mk (v.x * R (LengthSq v)) (v.y * R (LengthSq v)) (v.z * R (LengthSq v))
        (v.w * R (LengthSq v)) :=
  rfl

theorem LengthSq_Normalize_vector3 (R : K → K) (v : Vector3 K) :
    LengthSq (Normalize R v) = LengthSq v * R (LengthSq v) ^ 2 := by
  rw [Normalize_vector3]
  generalize R (LengthSq v) = r
  simp only [LengthSq, Dot_vector3]
  ring

/-- C15: the cross product is orthogonal to every operand, for the 3D
cross product of two vectors and for the 4D cross product of three. -/
theorem C15_Cross_orthogonal :
    (∀ a b : Vector3 K, Dot (Cross a b) a = 0 ∧ Dot (Cross a b) b = 0) ∧
    (∀ v1 v2 v3 : Vector4 K, Dot (Cross4 v1 v2 v3) v1 = 0 ∧ Dot (Cross4 v1 v2 v3) v2 = 0 ∧
      Dot (Cross4 v1 v2 v3) v3 = 0) := by
  constructor
  · intro a b
    simp only [Dot_vector3, Cross]
    constructor <;> ring
  · intro v1 v2 v3
    simp only [Dot_vector4, Cross4]
    refine ⟨?_, ?_, ?_⟩ <;> ring


/-! ## Claims C16 to C19: planes -/

theorem NormalizePlane_eq (Sqrt : K → K) (p : Plane K) :
    NormalizePlane Sqrt p =
      Plane.mk (p.a * (1 / Sqrt (p.a * p.a + (p.b * p.b + (p.c * p.c + p.d * p.d)))))
        (p.b * (1 / Sqrt (p.a * p.a + (p.b * p.b + (p.c * p.c + p.d * p.d)))))
        (p.c * (1 / Sqrt (p.a * p.a + (p.b * p.b + (p.c * p.c + p.d * p.d)))))
        (p.d * (1 / Sqrt (p.a * p.a + (p.b * p.b + (p.c * p.c + p.d * p.d))))) :=
  rfl

theorem NormalizePlane_Normal_LengthSq (Sqrt : K → K) (p : Plane K) (s : K)
    (hs : Sqrt (LengthSq p) = s) (hs0 : s ≠ 0) (hss : s * s = LengthSq p) :
    LengthSq (NormalizePlane Sqrt p).Normal * LengthSq p = LengthSq p.Normal := by
  have hs' : Sqrt (p.a * p.a + (p.b * p.b + (p.c * p.c + p.d * p.d))) = s := hs
  rw [NormalizePlane_eq, hs', ← hss]
  simp only [LengthSq, Dot_vector3, Plane.Normal]
  field_simp

/-- C16, the code at the failing input: with an exact square root,
`Normalize` of the plane `(3, 0, 0, 4)` divides by
`Length = Sqrt(3*3 + 0 + 0 + 4*4) = 5`, the length over all four scalars, and
gives `(3/5, 0, 0, 4/5)`, whose normal has squared length `9/25`, not 1. -/
theorem C16_NormalizePlane_not_unit :
    NormalizePlane Rat.sqrt (Plane.mk (3 : ℚ) 0 0 4) = Plane.mk (3 / 5) 0 0 (4 / 5) ∧
    LengthSq (NormalizePlane Rat.sqrt (Plane.mk (3 : ℚ) 0 0 4)).Normal = 9 / 25 := by
  have h5 : Rat.sqrt (3 * 3 + (0 * 0 + (0 * 0 + 4 * 4))) = 5 := by
    rw [show (3 * 3 + (0 * 0 + (0 * 0 + 4 * 4)) : ℚ) = 5 * 5 by norm_num, Rat.sqrt_eq]
    norm_num [abs_of_pos]
  have e : NormalizePlane Rat.sqrt (Plane.mk (3 : ℚ) 0 0 4) = Plane.mk (3 / 5) 0 0 (4 / 5) := by
    rw [NormalizePlane_eq]
    simp only [h5]
    norm_num
  rw [e]
  refine ⟨rfl, ?_⟩
  norm_num [LengthSq, Dot_vector3, Plane.Normal]

/-- C17: a constructed plane contains its defining points:
`DotCoord(FromPointNormal(p, n), p) = 0` and the plane's `(a, b, c)` is `n`;
`DotCoord(FromPoints(v0, v1, v2), vi) = 0` for `i = 0, 1, 2`, whatever
`RecipSqrt` returns. -/
theorem C17_plane_contains_points (RecipSqrt : K → K) :
    (∀ point normal : Vector3 K,
      DotCoord (FromPointNormal point normal) point = 0 ∧
      (FromPointNormal point normal).Normal = normal) ∧
    (∀ v0 v1 v2 : Vector3 K,
      DotCoord (FromPoints RecipSqrt v0 v1 v2) v0 = 0 ∧
      DotCoord (FromPoints RecipSqrt v0 v1 v2) v1 = 0 ∧
      DotCoord (FromPoints RecipSqrt v0 v1 v2) v2 = 0) := by
  constructor
  · intro point normal
    constructor
    · simp only [DotCoord, FromPointNormal, Dot_vector3]
      ring
    · rfl
  · intro v0 v1 v2
    simp only [FromPoints, Normalize_vector3]
    generalize RecipSqrt (LengthSq (Cross (Vector3.sub v1 v0) (Vector3.sub v1 v2))) = r
    simp only [DotCoord, FromPointNormal, Dot_vector3, Cross, Vector3.sub]
    refine ⟨?_, ?_, ?_⟩ <;> ring

theorem IntersectLine_fst (eps : K) (out : Vector3 K) (p : Plane K) (orig dir : Vector3 K) :
    (IntersectLine eps out p orig dir).1 = Eq eps (Dot dir p.Normal) 0 := by
  unfold IntersectLine
  by_cases h : Eq eps (Dot dir p.Normal) 0 = true
  · simp [h]
  · simp [h]

/-- C18, the code at the failing inputs (plane `z = 0`, origin `(0,0,1)`,
epsilon `2⁻²³`): for the direction `(0,0,-1)`, not parallel to the plane
(`Dot(dir, normal) = -1` is not `Eq` to 0), `IntersectLine` returns `false`;
for the direction `(1,0,0)`, parallel to the plane (`Dot(dir, normal) = 0`),
it returns `true`. -/
theorem C18_IntersectLine_polarity :
    Eq (1 / 8388608 : ℚ) (Dot (Vector3.mk (0 : ℚ) 0 (-1)) (Plane.mk (0 : ℚ) 0 1 0).Normal) 0
      = false ∧
    (IntersectLine (1 / 8388608 : ℚ) ⟨0, 0, 0⟩ ⟨0, 0, 1, 0⟩ ⟨0, 0, 1⟩ ⟨0, 0, -1⟩).1 = false ∧
    Eq (1 / 8388608 : ℚ) (Dot (Vector3.mk (1 : ℚ) 0 0) (Plane.mk (0 : ℚ) 0 1 0).Normal) 0
      = true ∧
    (IntersectLine (1 / 8388608 : ℚ) ⟨0, 0, 0⟩ ⟨0, 0, 1, 0⟩ ⟨0, 0, 1⟩ ⟨1, 0, 0⟩).1 = true := by
  have h1 : Eq (1 / 8388608 : ℚ)
      (Dot (Vector3.mk (0 : ℚ) 0 (-1)) (Plane.mk (0 : ℚ) 0 1 0).Normal) 0 = false := by
    rw [Eq_eq_false_iff]
    norm_num [Dot_vector3, Plane.Normal]
  have h2 : Eq (1 / 8388608 : ℚ)
      (Dot (Vector3.mk (1 : ℚ) 0 0) (Plane.mk (0 : ℚ) 0 1 0).Normal) 0 = true := by
    rw [Eq_eq_true_iff]
    norm_num [Dot_vector3, Plane.Normal]
  refine ⟨h1, ?_, h2, ?_⟩
  · rw [IntersectLine_fst, h1]
  · rw [IntersectLine_fst, h2]

theorem IntersectLineSeed_on_plane (eps : K) (heps : 0 ≤ eps) (p : Plane K)
    (hp : Eq eps p.a 0 = false ∨ Eq eps p.b 0 = false ∨ Eq eps p.c 0 = false) :
    DotCoord p (IntersectLineSeed eps p) = 0 := by
  unfold IntersectLineSeed
  by_cases ha : Eq eps p.a 0 = false
  · have ha0 := ne_zero_of_Eq_zero_eq_false heps ha
    simp only [ha, Bool.not_false, if_true, DotCoord]
    field_simp
    ring
  · rw [Bool.not_eq_false] at ha
    by_cases hb : Eq eps p.b 0 = false
    · have hb0 := ne_zero_of_Eq_zero_eq_false heps hb
      simp only [ha, hb, Bool.not_false, Bool.not_true, Bool.false_eq_true, if_true, if_false,
        DotCoord]
      field_simp
      ring
    · rw [Bool.not_eq_false] at hb
      have hc : Eq eps p.c 0 = false := by
        rcases hp with h | h | h
        · rw [ha] at h
          exact absurd h (by decide)
        · rw [hb] at h
          exact absurd h (by decide)
        · exact h
      have hc0 := ne_zero_of_Eq_zero_eq_false heps hc
      simp only [ha, hb, hc, Bool.not_false, Bool.not_true, Bool.false_eq_true, if_true,
        if_false, DotCoord]
      field_simp
      ring

/-- C19: for every plane `p` with at least one of `a`, `b`, `c` not `Eq` to
0, and every `orig` and `dir` with `Dot(dir, p.Normal()) != 0`: whenever
`IntersectLine` returns `true`, the point written to `out` is
`orig + t * dir` for the computed `t` and satisfies `DotCoord(p, out) = 0`,
and the seed point `vP` satisfies `DotCoord(p, vP) = 0`. -/
theorem C19_IntersectLine_point (eps : K) (heps : 0 ≤ eps) (out : Vector3 K) (p : Plane K)
    (orig dir : Vector3 K)
    (hp : Eq eps p.a 0 = false ∨ Eq eps p.b 0 = false ∨ Eq eps p.c 0 = false)
    (hd : Dot dir p.Normal ≠ 0)
    (hret : (IntersectLine eps out p orig dir).1 = true) :
    (IntersectLine eps out p orig dir).2 =
      Vector3.add orig (Vector3.scalarMul
        (Dot (Vector3.sub (IntersectLineSeed eps p) orig) p.Normal / Dot dir p.Normal) dir) ∧
    DotCoord p (IntersectLine eps out p orig dir).2 = 0 ∧
    DotCoord p (IntersectLineSeed eps p) = 0 := by
  have hseed := IntersectLineSeed_on_plane eps heps p hp
  rw [IntersectLine_fst] at hret
  have hout : (IntersectLine eps out p orig dir).2 =
      Vector3.add orig (Vector3.scalarMul
        (Dot (Vector3.sub (IntersectLineSeed eps p) orig) p.Normal / Dot dir p.Normal) dir) := by
    unfold IntersectLine
    simp [hret]
  refine ⟨hout, ?_, hseed⟩
  rw [hout]
  generalize IntersectLineSeed eps p = vP at hseed ⊢
  simp only [DotCoord, Dot_vector3, Plane.Normal, Vector3.add, Vector3.scalarMul,
    Vector3.sub] at hseed hd ⊢
  field_simp
  linear_combination (dir.x * p.a + (dir.y * p.b + dir.z * p.c)) * hseed

/-- C19, witness: with epsilon `2⁻²³`, the plane `z = 1` and the direction
`(0, 0, 2⁻²⁴)`, `Dot(dir, normal) = 2⁻²⁴` is non-zero and `Eq` to 0, so
`IntersectLine` returns `true`; the point written is on the plane. -/
theorem C19_witness :
    (0 : ℚ) ≤ 1 / 8388608 ∧
    Eq (1 / 8388608 : ℚ) (Plane.mk (0 : ℚ) 0 1 (-1)).c 0 = false ∧
    Dot (Vector3.mk (0 : ℚ) 0 (1 / 16777216)) (Plane.mk (0 : ℚ) 0 1 (-1)).Normal ≠ 0 ∧
    (IntersectLine (1 / 8388608 : ℚ) ⟨0, 0, 0⟩ ⟨0, 0, 1, -1⟩ ⟨0, 0, 0⟩
      ⟨0, 0, 1 / 16777216⟩).1 = true ∧
    DotCoord (Plane.mk (0 : ℚ) 0 1 (-1))
      (IntersectLine (1 / 8388608 : ℚ) ⟨0, 0, 0⟩ ⟨0, 0, 1, -1⟩ ⟨0, 0, 0⟩
        ⟨0, 0, 1 / 16777216⟩).2 = 0 :=
  have hc : Eq (1 / 8388608 : ℚ) (Plane.mk (0 : ℚ) 0 1 (-1)).c 0 = false := by
    rw [Eq_eq_false_iff]
    norm_num
  have hd : Dot (Vector3.mk (0 : ℚ) 0 (1 / 16777216)) (Plane.mk (0 : ℚ) 0 1 (-1)).Normal ≠ 0 := by
    norm_num [Dot_vector3, Plane.Normal]
  have hr : (IntersectLine (1 / 8388608 : ℚ) ⟨0, 0, 0⟩ ⟨0, 0, 1, -1⟩ ⟨0, 0, 0⟩
      ⟨0, 0, 1 / 16777216⟩).1 = true := by
    rw [IntersectLine_fst, Eq_eq_true_iff]
    norm_num [Dot_vector3, Plane.Normal, abs_le]
  ⟨by norm_num, hc, hd, hr,
   (C19_IntersectLine_point (1 / 8388608 : ℚ) (by norm_num) ⟨0, 0, 0⟩ ⟨0, 0, 1, -1⟩ ⟨0, 0, 0⟩
     ⟨0, 0, 1 / 16777216⟩ (Or.inr (Or.inr hc)) hd hr).2.1⟩


/-! ## Claim C20: `ComputeNormal` on a single triangle -/

theorem Vector3_add_Zero (v : Vector3 K) : Vector3.add Vector3.Zero v = v := by
  simp [Vector3.add, Vector3.Zero]

theorem ComputeNormal_single (RecipSqrt : K → K) (p0 p1 p2 : Vector3 K) :
    ComputeNormal RecipSqrt [0, 1, 2] [p0, p1, p2] =
      some [Normalize RecipSqrt (Cross (Vector3.sub p1 p0) (Vector3.sub p2 p0)),
        Normalize RecipSqrt (Cross (Vector3.sub p1 p0) (Vector3.sub p2 p0)),
        Normalize RecipSqrt (Cross (Vector3.sub p1 p0) (Vector3.sub p2 p0))] := by
  simp [ComputeNormal, ComputeNormalTriangles, U16, AddAt, Vector3_add_Zero]

theorem RecipSqrtAtOne_lt_one : RecipSqrtAtOne < 1 := by
  norm_num [RecipSqrtAtOne]

/-- C20, as stated, fails: for the positions `(0,0,0), (1,0,0), (0,1,0)`
the face normal is `(0,0,1)` of squared length 1, every `Normalize` calls
`RecipSqrt(1)`, and with the value the code's `RecipSqrt` has there (about
`0.9983`, below 1) all three normals are `(0, 0, RecipSqrt(1))`, not
`(0, 0, 1)`. -/
theorem C20_counterexample :
    ComputeNormal (fun _ => RecipSqrtAtOne) [0, 1, 2]
        [Vector3.mk (0 : ℚ) 0 0, Vector3.mk 1 0 0, Vector3.mk 0 1 0]
      = some [Vector3.mk 0 0 RecipSqrtAtOne, Vector3.mk 0 0 RecipSqrtAtOne,
          Vector3.mk 0 0 RecipSqrtAtOne] ∧
    RecipSqrtAtOne < 1 ∧
    ComputeNormal (fun _ => RecipSqrtAtOne) [0, 1, 2]
        [Vector3.mk (0 : ℚ) 0 0, Vector3.mk 1 0 0, Vector3.mk 0 1 0]
      ≠ some [Vector3.mk 0 0 1, Vector3.mk 0 0 1, Vector3.mk 0 0 1] := by
  have h : ComputeNormal (fun _ => RecipSqrtAtOne) [0, 1, 2]
        [Vector3.mk (0 : ℚ) 0 0, Vector3.mk 1 0 0, Vector3.mk 0 1 0]
      = some [Vector3.mk 0 0 RecipSqrtAtOne, Vector3.mk 0 0 RecipSqrtAtOne,
          Vector3.mk 0 0 RecipSqrtAtOne] := by
    rw [ComputeNormal_single]
    simp [Normalize_vector3, Cross, Vector3.sub]
  refine ⟨h, RecipSqrtAtOne_lt_one, ?_⟩
  rw [h]
  intro hc
  have h1 : RecipSqrtAtOne = 1 := by
    simpa using hc
  exact absurd h1 (ne_of_lt RecipSqrtAtOne_lt_one)

/-- C20, amended: for a mesh of a single triangle with indices `(0, 1, 2)`,
`ComputeNormal` writes the same vector to all three vertices, `Normalize` of
the face normal `Cross(p1 - p0, p2 - p0)`; it has unit length where
`RecipSqrt` returns the exact reciprocal square root of the face normal's
squared length; for the positions `(0,0,0), (1,0,0), (0,1,0)` it is
`(0, 0, RecipSqrt(1))`. -/
theorem C20_ComputeNormal_single_triangle (RecipSqrt : K → K) :
    (∀ p0 p1 p2 : Vector3 K,
      ComputeNormal RecipSqrt [0, 1, 2] [p0, p1, p2] =
        some [Normalize RecipSqrt (Cross (Vector3.sub p1 p0) (Vector3.sub p2 p0)),
          Normalize RecipSqrt (Cross (Vector3.sub p1 p0) (Vector3.sub p2 p0)),
          Normalize RecipSqrt (Cross (Vector3.sub p1 p0) (Vector3.sub p2 p0))] ∧
      ∀ s : K, s * s = LengthSq (Cross (Vector3.sub p1 p0) (Vector3.sub p2 p0)) →
        RecipSqrt (LengthSq (Cross (Vector3.sub p1 p0) (Vector3.sub p2 p0))) * s = 1 →
        LengthSq (Normalize RecipSqrt (Cross (Vector3.sub p1 p0) (Vector3.sub p2 p0))) = 1) ∧
    ComputeNormal RecipSqrt [0, 1, 2] [Vector3.mk 0 0 0, Vector3.mk 1 0 0, Vector3.mk 0 1 0]
      = some [Vector3.mk 0 0 (RecipSqrt 1), Vector3.mk 0 0 (RecipSqrt 1),
          Vector3.mk 0 0 (RecipSqrt 1)] := by
  constructor
  · intro p0 p1 p2
    refine ⟨ComputeNormal_single RecipSqrt p0 p1 p2, fun s hs hr => ?_⟩
    rw [LengthSq_Normalize_vector3, ← hs]
    rw [← hs] at hr
    linear_combination (RecipSqrt (s * s) * s + 1) * hr
  · rw [ComputeNormal_single]
    simp [Normalize_vector3, Cross, Vector3.sub, LengthSq, Dot_vector3]

/-- C20, witness of the amended claim: the triangle
`(0,0,0), (3,0,0), (0,4,0)` has face normal `(0,0,12)`; with the exact
reciprocal square root `1/12` of 144 the normal written has unit length. -/
theorem C20_witness :
    (12 : ℚ) * 12
      = LengthSq (Cross (Vector3.sub (Vector3.mk (3 : ℚ) 0 0) (Vector3.mk 0 0 0))
          (Vector3.sub (Vector3.mk (0 : ℚ) 4 0) (Vector3.mk 0 0 0))) ∧
    LengthSq (Normalize (fun _ : ℚ => (1 / 12 : ℚ))
        (Cross (Vector3.sub (Vector3.mk (3 : ℚ) 0 0) (Vector3.mk 0 0 0))
          (Vector3.sub (Vector3.mk (0 : ℚ) 4 0) (Vector3.mk 0 0 0)))) = 1 :=
  ⟨by norm_num [LengthSq, Dot_vector3, Cross, Vector3.sub],
   ((C20_ComputeNormal_single_triangle (fun _ : ℚ => (1 / 12 : ℚ))).1
      (Vector3.mk 0 0 0) (Vector3.mk 3 0 0) (Vector3.mk 0 4 0)).2 12
     (by norm_num [LengthSq, Dot_vector3, Cross, Vector3.sub]) (by norm_num)⟩

/-! ## Claims C24 and C25: `Reflect` and `Transform` -/

/-- C25: `Transform` is the row vector times the matrix and agrees with
`Multiply`: `Transform(Transform(v, A), B) = Transform(v, Multiply(A, B))`
for every 4D vector, and `Transform` of the 3D vector `(x, y, z)` is
`Transform` of the 4D vector `(x, y, z, 1)`. -/
theorem C25_Transform_Multiply :
    (∀ (v : Vector4 K) (A B : Matrix4 K),
      Transform4 (Transform4 v A) B = Transform4 v (Multiply A B)) ∧
    (∀ (v : Vector3 K) (M : Matrix4 K),
      Transform3 v M = Transform4 (Vector4.mk v.x v.y v.z 1) M) := by
  constructor
  · intro v A B
    simp only [Transform4, Multiply, Matrix4.get_00, Matrix4.get_01, Matrix4.get_02,
      Matrix4.get_03, Matrix4.get_10, Matrix4.get_11, Matrix4.get_12, Matrix4.get_13,
      Matrix4.get_20, Matrix4.get_21, Matrix4.get_22, Matrix4.get_23, Matrix4.get_30,
      Matrix4.get_31, Matrix4.get_32, Matrix4.get_33, Vector4.mk.injEq]
    refine ⟨?_, ?_, ?_, ?_⟩ <;> ring
  · intro v M
    simp only [Transform3, Transform4, mul_one, one_mul]

theorem Reflect_of_Sqrt_one (Sqrt : K → K) (p : Plane K) (h : Sqrt (LengthSq p) = 1) :
    Reflect Sqrt p = Matrix4.mk
      (-2 * p.a * p.a + 1) (-2 * p.a * p.b) (-2 * p.a * p.c) 0
      (-2 * p.a * p.b) (-2 * p.b * p.b + 1) (-2 * p.b * p.c) 0
      (-2 * p.a * p.c) (-2 * p.b * p.c) (-2 * p.c * p.c + 1) 0
      (-2 * p.a * p.d) (-2 * p.a * p.c) (-2 * p.c * p.d) 1 := by
  have hP : NormalizePlane Sqrt p = p := by
    unfold NormalizePlane Length
    rw [h]
    simp
  unfold Reflect
  rw [hP]

/-- C24 fails on the code: `Reflect` computes `bd2` as `-2 * P.a * P.c`
where the reflection needs `-2 * P.b * P.d`.  For the plane
`(3/5, 0, 4/5, 0)`, of unit normal and offset 0, the cell `(3, 1)` of
`Reflect(p)` is `-24/25` and not `-2bd = 0`, and the origin, a point of the
plane, is sent to `(0, -24/25, 0)` instead of being left fixed. -/
theorem C24_Reflect_translation_row :
    LengthSq (Plane.mk (3 / 5 : ℚ) 0 (4 / 5) 0).Normal = 1 ∧
    DotCoord (Plane.mk (3 / 5 : ℚ) 0 (4 / 5) 0) (Vector3.mk 0 0 0) = 0 ∧
    (Reflect Rat.sqrt (Plane.mk (3 / 5 : ℚ) 0 (4 / 5) 0)).get 3 1 = -24 / 25 ∧
    Transform3 (Vector3.mk 0 0 0) (Reflect Rat.sqrt (Plane.mk (3 / 5 : ℚ) 0 (4 / 5) 0))
      = Vector4.mk 0 (-24 / 25) 0 1 := by
  have h1 : Rat.sqrt (LengthSq (Plane.mk (3 / 5 : ℚ) 0 (4 / 5) 0)) = 1 := by
    have e : LengthSq (Plane.mk (3 / 5 : ℚ) 0 (4 / 5) 0) = 1 * 1 := by
      norm_num [LengthSq, Dot_plane]
    rw [e, Rat.sqrt_eq]
    norm_num
  rw [Reflect_of_Sqrt_one Rat.sqrt _ h1]
  refine ⟨?_, ?_, ?_, ?_⟩
  · norm_num [LengthSq, Dot_vector3, Plane.Normal]
  · norm_num [DotCoord]
  · norm_num [Matrix4.get_31]
  · simp only [Transform3, Matrix4.get_00, Matrix4.get_01, Matrix4.get_02,
      Matrix4.get_03, Matrix4.get_10, Matrix4.get_11, Matrix4.get_12, Matrix4.get_13,
      Matrix4.get_20, Matrix4.get_21, Matrix4.get_22, Matrix4.get_23, Matrix4.get_30,
      Matrix4.get_31, Matrix4.get_32, Matrix4.get_33, Vector4.mk.injEq]
    norm_num

/-! ## Claim C28: the order of the sum in `Dot` -/

/-- C28, as stated, fails: over an addition that is only a term
constructor, `Dot` on 3D vectors is `a0*b0 + (a1*b1 + a2*b2)`, which is not
the left fold `(a0*b0 + a1*b1) + a2*b2`. -/
theorem C28_counterexample :
    Dot (Vector3.mk (DotTerm.a 0) (DotTerm.a 1) (DotTerm.a 2))
        (Vector3.mk (DotTerm.b 0) (DotTerm.b 1) (DotTerm.b 2))
      = DotTerm.a 0 * DotTerm.b 0 + (DotTerm.a 1 * DotTerm.b 1 + DotTerm.a 2 * DotTerm.b 2) ∧
    Dot (Vector3.mk (DotTerm.a 0) (DotTerm.a 1) (DotTerm.a 2))
        (Vector3.mk (DotTerm.b 0) (DotTerm.b 1) (DotTerm.b 2))
      ≠ (DotTerm.a 0 * DotTerm.b 0 + DotTerm.a 1 * DotTerm.b 1) + DotTerm.a 2 * DotTerm.b 2 := by
  constructor
  · rfl
  · decide

/-- C28, amended: `Dot` nests the sum of the component products to the
right, `a0*b0 + (a1*b1 + (a2*b2 + a3*b3))` (for `N = 2` this is also the left
fold), over any multiplication and addition; in exact arithmetic its value
is the sum of the `a_i * b_i`. -/
theorem C28_Dot_order {T : Type} [Mul T] [Add T] [Zero T] :
    (∀ a b : Vector2 T, Dot a b = a.x * b.x + a.y * b.y) ∧
    (∀ a b : Vector3 T, Dot a b = a.x * b.x + (a.y * b.y + a.z * b.z)) ∧
    (∀ a b : Vector4 T, Dot a b = a.x * b.x + (a.y * b.y + (a.z * b.z + a.w * b.w))) ∧
    (∀ a b : Vector2 K, Dot a b = ∑ i ∈ Finset.range 2, Vector2.elem a i * Vector2.elem b i) ∧
    (∀ a b : Vector3 K, Dot a b = ∑ i ∈ Finset.range 3, Vector3.elem a i * Vector3.elem b i) ∧
    (∀ a b : Vector4 K, Dot a b = ∑ i ∈ Finset.range 4, Vector4.elem a i * Vector4.elem b i) := by
  refine ⟨fun _ _ => rfl, fun _ _ => rfl, fun _ _ => rfl, fun a b => ?_, fun a b => ?_,
    fun a b => ?_⟩
  · simp [Finset.sum_range_succ, Vector2.elem, Dot, DotHelper, VectorLike.elem,
      VectorLike.elem_num]
  · simp [Finset.sum_range_succ, Vector3.elem, Dot, DotHelper, VectorLike.elem,
      VectorLike.elem_num]
    ring
  · simp [Finset.sum_range_succ, Vector4.elem, Dot, DotHelper, VectorLike.elem,
      VectorLike.elem_num]
    ring

/-! ## Claims C29 and C30: quaternions -/

/-- C29: when `Dot(a, b) ≤ epsilon - 1`, `Slerp` returns
`Sin((1-t)*PIdiv2) * a + Sin(t*PIdiv2) * p` with `p = (-b.y, b.x, -b.w, b.z)`,
an expression without a quotient; `p` is perpendicular to `b` and has the
squared length of `b`. -/
theorem C29_Slerp_antiparallel (eps : K) (Sin ACos : K → K) (a b : Quaternion K) (t : K)
    (h : Dot a b ≤ eps - 1) :
    Slerp eps Sin ACos a b t =
      Quaternion.add (Quaternion.scalarMul (Sin ((1 - t) * PIdiv2)) a)
        (Quaternion.scalarMul (Sin (t * PIdiv2)) (Quaternion.mk (-b.y) b.x (-b.w) b.z)) ∧
    Dot (Quaternion.mk (-b.y) b.x (-b.w) b.z) b = 0 ∧
    LengthSq (Quaternion.mk (-b.y) b.x (-b.w) b.z) = LengthSq b := by
  refine ⟨?_, ?_, ?_⟩
  · unfold Slerp
    simp only [if_neg (not_lt.mpr h), Quaternion.add, Quaternion.scalarMul, Quaternion.mk.injEq]
    refine ⟨?_, ?_, ?_, ?_⟩ <;> ring
  · simp only [Dot_quaternion]
    ring
  · simp only [LengthSq, Dot_quaternion]
    ring

/-- C30: for unit quaternions `a` and `b`,
`ToMatrix(Multiply(a, b)) = Multiply(ToMatrix(a), ToMatrix(b))`. -/
theorem C30_ToMatrix_MultiplyQuat (a b : Quaternion K) (ha : LengthSq a = 1)
    (hb : LengthSq b = 1) :
    ToMatrix (MultiplyQuat a b) = Multiply (ToMatrix a) (ToMatrix b) := by
  obtain ⟨ax, ay, az, aw⟩ := a
  obtain ⟨bx, b_y, bz, bw⟩ := b
  simp only [LengthSq, Dot_quaternion] at ha hb
  simp only [ToMatrix, MultiplyQuat, Multiply, Matrix4.get_00, Matrix4.get_01, Matrix4.get_02,
      Matrix4.get_03, Matrix4.get_10, Matrix4.get_11, Matrix4.get_12, Matrix4.get_13,
      Matrix4.get_20, Matrix4.get_21, Matrix4.get_22, Matrix4.get_23, Matrix4.get_30,
      Matrix4.get_31, Matrix4.get_32, Matrix4.get_33, Matrix4.mk.injEq]
  refine ⟨?_, ?_, ?_, ?_, ?_, ?_, ?_, ?_, ?_, ?_, ?_, ?_, ?_, ?_, ?_, ?_⟩
  · linear_combination (1 - b_y * (b_y + b_y) - bz * (bz + bz) - 1) * ha
      + (1 - ay * (ay + ay) - az * (az + az) - 1) * hb
  · linear_combination (bx * (b_y + b_y) + bw * (bz + bz)) * ha
      + (ax * (ay + ay) + aw * (az + az)) * hb
  · linear_combination (bx * (bz + bz) - bw * (b_y + b_y)) * ha
      + (ax * (az + az) - aw * (ay + ay)) * hb
  · ring
  · linear_combination (bx * (b_y + b_y) - bw * (bz + bz)) * ha
      + (ax * (ay + ay) - aw * (az + az)) * hb
  · linear_combination (1 - bx * (bx + bx) - bz * (bz + bz) - 1) * ha
      + (1 - ax * (ax + ax) - az * (az + az) - 1) * hb
  · linear_combination (b_y * (bz + bz) + bw * (bx + bx)) * ha
      + (ay * (az + az) + aw * (ax + ax)) * hb
  · ring
  · linear_combination (bx * (bz + bz) + bw * (b_y + b_y)) * ha
      + (ax * (az + az) + aw * (ay + ay)) * hb
  · linear_combination (b_y * (bz + bz) - bw * (bx + bx)) * ha
      + (ay * (az + az) - aw * (ax + ax)) * hb
  · linear_combination (1 - bx * (bx + bx) - b_y * (b_y + b_y) - 1) * ha
      + (1 - ax * (ax + ax) - ay * (ay + ay) - 1) * hb
  · ring
  · ring
  · ring
  · ring
  · ring

/-! ## Claims C22 and C23: the tangent and binormal of one face -/

theorem TangentFace_fallback (previousXYZ currentXYZ nextXYZ : Vector3 K)
    (previousTex currentTex nextTex : Vector2 K)
    (h : (nextTex.x - currentTex.x) * (previousTex.y - currentTex.y)
        - (previousTex.x - currentTex.x) * (nextTex.y - currentTex.y) < 1 / 10000) :
    TangentFace previousXYZ currentXYZ nextXYZ previousTex currentTex nextTex
      = (Vector3.mk 1 0 0, Vector3.mk 0 1 0) := by
  unfold TangentFace
  simp only [if_pos h]

theorem ComputeTangentTriangles_cons (xyzs : List (Vector3 K)) (texs : List (Vector2 K))
    (i0 i1 i2 : Nat) (rest : List Nat) (targents binorms : List (Vector3 K))
    (previousXYZ currentXYZ nextXYZ : Vector3 K) (previousTex currentTex nextTex : Vector2 K)
    (hp : xyzs.get? (U16 i0) = some previousXYZ) (hc : xyzs.get? (U16 i1) = some currentXYZ)
    (hn : xyzs.get? (U16 i2) = some nextXYZ)
    (hpt : texs.get? (U16 i0) = some previousTex) (hct : texs.get? (U16 i1) = some currentTex)
    (hnt : texs.get? (U16 i2) = some nextTex)
    (t1 t2 t3 b1 b2 b3 : List (Vector3 K))
    (ht1 : AddAt targents (U16 i0)
      (TangentFace previousXYZ currentXYZ nextXYZ previousTex currentTex nextTex).1 = some t1)
    (hb1 : AddAt binorms (U16 i0)
      (TangentFace previousXYZ currentXYZ nextXYZ previousTex currentTex nextTex).2 = some b1)
    (ht2 : AddAt t1 (U16 i1)
      (TangentFace previousXYZ currentXYZ nextXYZ previousTex currentTex nextTex).1 = some t2)
    (hb2 : AddAt b1 (U16 i1)
      (TangentFace previousXYZ currentXYZ nextXYZ previousTex currentTex nextTex).2 = some b2)
    (ht3 : AddAt t2 (U16 i2)
      (TangentFace previousXYZ currentXYZ nextXYZ previousTex currentTex nextTex).1 = some t3)
    (hb3 : AddAt b2 (U16 i2)
      (TangentFace previousXYZ currentXYZ nextXYZ previousTex currentTex nextTex).2 = some b3) :
    ComputeTangentTriangles xyzs texs (i0 :: i1 :: i2 :: rest) (targents, binorms)
      = ComputeTangentTriangles xyzs texs rest (t3, b3) := by
  rw [ComputeTangentTriangles]
  simp only [hp, hc, hn, hpt, hct, hnt, ht1, hb1, ht2, hb2, ht3, hb3]

/-- C23: for a triangle whose UV determinant
`den = s1 * t2 - s2 * t1` is at least `0.0001`, the `T` and `B` that
`ComputeTangent` computes for the face solve the 2x2 system exactly:
`s1 * T + t1 * B = next - current` and `s2 * T + t2 * B = previous - current`,
with `(s1, t1)` and `(s2, t2)` the UV deltas of the same two edges. -/
theorem C23_TangentFace_solves (previousXYZ currentXYZ nextXYZ : Vector3 K)
    (previousTex currentTex nextTex : Vector2 K)
    (h : (nextTex.x - currentTex.x) * (previousTex.y - currentTex.y)
        - (previousTex.x - currentTex.x) * (nextTex.y - currentTex.y) ≥ 1 / 10000) :
    Vector3.add
        (Vector3.scalarMul (nextTex.x - currentTex.x)
          (TangentFace previousXYZ currentXYZ nextXYZ previousTex currentTex nextTex).1)
        (Vector3.scalarMul (nextTex.y - currentTex.y)
          (TangentFace previousXYZ currentXYZ nextXYZ previousTex currentTex nextTex).2)
      = Vector3.sub nextXYZ currentXYZ ∧
    Vector3.add
        (Vector3.scalarMul (previousTex.x - currentTex.x)
          (TangentFace previousXYZ currentXYZ nextXYZ previousTex currentTex nextTex).1)
        (Vector3.scalarMul (previousTex.y - currentTex.y)
          (TangentFace previousXYZ currentXYZ nextXYZ previousTex currentTex nextTex).2)
      = Vector3.sub previousXYZ currentXYZ := by
  have hn : ¬ ((nextTex.x - currentTex.x) * (previousTex.y - currentTex.y)
        - (previousTex.x - currentTex.x) * (nextTex.y - currentTex.y) < 1 / 10000) :=
    not_lt.mpr h
  have hd : (nextTex.x - currentTex.x) * (previousTex.y - currentTex.y)
        - (previousTex.x - currentTex.x) * (nextTex.y - currentTex.y) ≠ 0 := by
    intro h0
    rw [h0] at h
    norm_num at h
  unfold TangentFace
  simp only [if_neg hn, Vector3.add, Vector3.scalarMul, Vector3.sub, Vector3.divScalar,
    Vector3.mk.injEq]
  refine ⟨⟨?_, ?_, ?_⟩, ⟨?_, ?_, ?_⟩⟩ <;> field_simp <;> ring

/-! ## Claims C21, C26 and C27: the loops over the triangles -/

theorem Vector3_add_Zero_right (v : Vector3 K) : Vector3.add v Vector3.Zero = v := by
  simp [Vector3.add, Vector3.Zero]

theorem Vector3_add_assoc (a b c : Vector3 K) :
    Vector3.add (Vector3.add a b) c = Vector3.add a (Vector3.add b c) := by
  simp [Vector3.add, add_assoc]

theorem U16_of_lt (n : Nat) (h : n < 65536) : U16 n = n :=
  Nat.mod_eq_of_lt h

theorem U16_le (n : Nat) : U16 n ≤ n :=
  Nat.mod_le n 65536

theorem map_U16_of_lt (indices : List Nat) (h : ∀ i ∈ indices, i < 65536) :
    indices.map U16 = indices := by
  induction indices with
  | nil => rfl
  | cons i rest ih =>
    rw [List.map_cons, U16_of_lt i (h i (List.mem_cons_self i rest)),
      ih (fun k hk => h k (List.mem_cons_of_mem i hk))]

theorem AddAt_spec (buf : List (Vector3 K)) (i : Nat) (vec : Vector3 K) (h : i < buf.length) :
    ∃ out, AddAt buf i vec = some out ∧ out.length = buf.length ∧
      ∀ j, out.getD j Vector3.Zero =
        Vector3.add (buf.getD j Vector3.Zero) (if i = j then vec else Vector3.Zero) := by
  unfold AddAt
  rw [List.get?_eq_get h]
  refine ⟨_, rfl, List.length_set _ _ _, ?_⟩
  intro j
  by_cases hij : i = j
  · subst hij
    simp [List.getD_eq_getElem?_getD, h]
  · simp [List.getD_eq_getElem?_getD, hij, List.getElem?_set_ne, Vector3_add_Zero_right]

theorem AddAt_Zero (buf : List (Vector3 K)) (i : Nat) (h : i < buf.length) :
    AddAt buf i (Vector3.mk 0 0 0) = some buf := by
  unfold AddAt
  rw [List.get?_eq_get h]
  have e : Vector3.add (buf.get ⟨i, h⟩) (Vector3.mk 0 0 0) = buf.get ⟨i, h⟩ :=
    Vector3_add_Zero_right _
  show some (buf.set i (Vector3.add (buf.get ⟨i, h⟩) (Vector3.mk 0 0 0))) = some buf
  rw [e]
  congr 1
  apply List.ext_getElem?
  intro k
  by_cases hk : i = k
  · subst hk
    simp [h]
  · simp [List.getElem?_set_ne hk]

theorem list_three_of_length {α : Type} (l : List α) (n : Nat) (h : l.length = 3 * (n + 1)) :
    ∃ i0 i1 i2 rest, l = i0 :: i1 :: i2 :: rest ∧ rest.length = 3 * n := by
  match l, h with
  | i0 :: i1 :: i2 :: rest, h =>
    refine ⟨i0, i1, i2, rest, rfl, ?_⟩
    simp only [List.length_cons] at h
    omega
  | [], h => simp at h
  | [_], h => simp at h; omega
  | [_, _], h => simp at h; omega

theorem ComputeNormalTriangles_step (xyzs : List (Vector3 K)) (i0 i1 i2 : Nat)
    (rest : List Nat) (normals : List (Vector3 K)) (hl : normals.length = xyzs.length)
    (h0 : U16 i0 < xyzs.length) (h1 : U16 i1 < xyzs.length) (h2 : U16 i2 < xyzs.length) :
    ∃ out, ComputeNormalTriangles xyzs (i0 :: i1 :: i2 :: rest) normals
        = ComputeNormalTriangles xyzs rest out ∧
      ComputeNormalTriangles xyzs [i0, i1, i2] normals = some out ∧
      out.length = xyzs.length ∧
      ∀ j, Vector3.add (out.getD j Vector3.Zero)
          (NormalSum xyzs (rest.map U16) j) =
        Vector3.add (normals.getD j Vector3.Zero)
          (NormalSum xyzs ((i0 :: i1 :: i2 :: rest).map U16) j) := by
  have g0 : xyzs.getD (U16 i0) Vector3.Zero = xyzs.get ⟨U16 i0, h0⟩ := by
    simp [List.getD_eq_getElem?_getD, h0]
  have g1 : xyzs.getD (U16 i1) Vector3.Zero = xyzs.get ⟨U16 i1, h1⟩ := by
    simp [List.getD_eq_getElem?_getD, h1]
  have g2 : xyzs.getD (U16 i2) Vector3.Zero = xyzs.get ⟨U16 i2, h2⟩ := by
    simp [List.getD_eq_getElem?_getD, h2]
  obtain ⟨n1, e1, l1, s1⟩ := AddAt_spec normals (U16 i0)
    (Cross (Vector3.sub (xyzs.get ⟨U16 i1, h1⟩) (xyzs.get ⟨U16 i0, h0⟩))
      (Vector3.sub (xyzs.get ⟨U16 i2, h2⟩) (xyzs.get ⟨U16 i0, h0⟩))) (by rw [hl]; exact h0)
  obtain ⟨n2, e2, l2, s2⟩ := AddAt_spec n1 (U16 i1)
    (Cross (Vector3.sub (xyzs.get ⟨U16 i1, h1⟩) (xyzs.get ⟨U16 i0, h0⟩))
      (Vector3.sub (xyzs.get ⟨U16 i2, h2⟩) (xyzs.get ⟨U16 i0, h0⟩)))
    (by rw [l1, hl]; exact h1)
  obtain ⟨n3, e3, l3, s3⟩ := AddAt_spec n2 (U16 i2)
    (Cross (Vector3.sub (xyzs.get ⟨U16 i1, h1⟩) (xyzs.get ⟨U16 i0, h0⟩))
      (Vector3.sub (xyzs.get ⟨U16 i2, h2⟩) (xyzs.get ⟨U16 i0, h0⟩)))
    (by rw [l2, l1, hl]; exact h2)
  refine ⟨n3, ?_, ?_, by rw [l3, l2, l1, hl], ?_⟩
  · rw [ComputeNormalTriangles]
    simp only [List.get?_eq_get h0, List.get?_eq_get h1, List.get?_eq_get h2, e1, e2, e3]
  · rw [ComputeNormalTriangles]
    simp only [List.get?_eq_get h0, List.get?_eq_get h1, List.get?_eq_get h2, e1, e2, e3,
      ComputeNormalTriangles]
  · intro j
    rw [s3 j, s2 j, s1 j]
    simp only [List.map_cons, NormalSum, g0, g1, g2, Vector3_add_assoc]

theorem ComputeNormalTriangles_spec (xyzs : List (Vector3 K)) (n : Nat) :
    ∀ (indices : List Nat) (normals : List (Vector3 K)), indices.length = 3 * n →
      (∀ i ∈ indices, U16 i < xyzs.length) → normals.length = xyzs.length →
      ∃ out, ComputeNormalTriangles xyzs indices normals = some out ∧
        ComputeNormalIterations xyzs indices normals = some (n, out) ∧
        out.length = xyzs.length ∧
        ∀ j, out.getD j Vector3.Zero =
          Vector3.add (normals.getD j Vector3.Zero) (NormalSum xyzs (indices.map U16) j) := by
  induction n with
  | zero =>
    intro indices normals hlen _ hl
    have e : indices = [] := List.length_eq_zero.mp (by omega)
    subst e
    refine ⟨normals, by rw [ComputeNormalTriangles], by rw [ComputeNormalIterations], hl, ?_⟩
    intro j
    simp [NormalSum, Vector3_add_Zero_right]
  | succ n ih =>
    intro indices normals hlen hin hl
    obtain ⟨i0, i1, i2, rest, e, hrest⟩ := list_three_of_length indices n hlen
    subst e
    have h0 : U16 i0 < xyzs.length := hin i0 (by simp)
    have h1 : U16 i1 < xyzs.length := hin i1 (by simp)
    have h2 : U16 i2 < xyzs.length := hin i2 (by simp)
    obtain ⟨mid, estep, ebody, lmid, smid⟩ :=
      ComputeNormalTriangles_step xyzs i0 i1 i2 rest normals hl h0 h1 h2
    obtain ⟨out, eout, eiter, lout, sout⟩ :=
      ih rest mid hrest (fun i hi => hin i (by simp [hi])) lmid
    refine ⟨out, by rw [estep, eout], ?_, lout, ?_⟩
    · rw [ComputeNormalIterations]
      simp only [ebody, eiter]
    · intro j
      rw [sout j, smid j]

theorem NormalSum_unreferenced (xyzs : List (Vector3 K)) (j : Nat) (n : Nat) :
    ∀ indices : List Nat, indices.length = n → (∀ i ∈ indices, i ≠ j) →
      NormalSum xyzs indices j = Vector3.Zero := by
  induction n using Nat.strong_induction_on with
  | _ n ih =>
    intro indices hlen hne
    match indices, hlen, hne with
    | i0 :: i1 :: i2 :: rest, hlen, hne =>
      have h0 : i0 ≠ j := hne i0 (by simp)
      have h1 : i1 ≠ j := hne i1 (by simp)
      have h2 : i2 ≠ j := hne i2 (by simp)
      have hr := ih rest.length (by simp only [List.length_cons] at hlen; omega) rest rfl
        (fun i hi => hne i (by simp [hi]))
      simp only [NormalSum, if_neg h0, if_neg h1, if_neg h2, hr, Vector3_add_Zero_right]
    | [], _, _ => rfl
    | [_], _, _ => rfl
    | [_, _], _, _ => rfl

theorem ComputeTangentTriangles_step (xyzs : List (Vector3 K)) (texs : List (Vector2 K))
    (i0 i1 i2 : Nat) (rest : List Nat) (targents binorms : List (Vector3 K))
    (previousXYZ currentXYZ nextXYZ : Vector3 K) (previousTex currentTex nextTex : Vector2 K)
    (hp : xyzs.get? (U16 i0) = some previousXYZ) (hc : xyzs.get? (U16 i1) = some currentXYZ)
    (hn : xyzs.get? (U16 i2) = some nextXYZ)
    (hpt : texs.get? (U16 i0) = some previousTex) (hct : texs.get? (U16 i1) = some currentTex)
    (hnt : texs.get? (U16 i2) = some nextTex)
    (hlt : targents.length = xyzs.length) (hlb : binorms.length = xyzs.length) :
    ∃ t b, ComputeTangentTriangles xyzs texs (i0 :: i1 :: i2 :: rest) (targents, binorms)
        = ComputeTangentTriangles xyzs texs rest (t, b) ∧
      ComputeTangentTriangles xyzs texs [i0, i1, i2] (targents, binorms) = some (t, b) ∧
      t.length = xyzs.length ∧ b.length = xyzs.length ∧
      (∀ j, t.getD j Vector3.Zero =
        Vector3.add (targents.getD j Vector3.Zero)
          (Vector3.add
            (Vector3.add
              (if U16 i0 = j then
                (TangentFace previousXYZ currentXYZ nextXYZ previousTex currentTex nextTex).1
              else Vector3.Zero)
              (if U16 i1 = j then
                (TangentFace previousXYZ currentXYZ nextXYZ previousTex currentTex nextTex).1
              else Vector3.Zero))
            (if U16 i2 = j then
              (TangentFace previousXYZ currentXYZ nextXYZ previousTex currentTex nextTex).1
            else Vector3.Zero))) ∧
      (∀ j, b.getD j Vector3.Zero =
        Vector3.add (binorms.getD j Vector3.Zero)
          (Vector3.add
            (Vector3.add
              (if U16 i0 = j then
                (TangentFace previousXYZ currentXYZ nextXYZ previousTex currentTex nextTex).2
              else Vector3.Zero)
              (if U16 i1 = j then
                (TangentFace previousXYZ currentXYZ nextXYZ previousTex currentTex nextTex).2
              else Vector3.Zero))
            (if U16 i2 = j then
              (TangentFace previousXYZ currentXYZ nextXYZ previousTex currentTex nextTex).2
            else Vector3.Zero))) := by
  have h0 : U16 i0 < xyzs.length := (List.get?_eq_some.mp hp).1
  have h1 : U16 i1 < xyzs.length := (List.get?_eq_some.mp hc).1
  have h2 : U16 i2 < xyzs.length := (List.get?_eq_some.mp hn).1
  obtain ⟨t1, et1, lt1, st1⟩ := AddAt_spec targents (U16 i0)
    (TangentFace previousXYZ currentXYZ nextXYZ previousTex currentTex nextTex).1
    (by rw [hlt]; exact h0)
  obtain ⟨t2, et2, lt2, st2⟩ := AddAt_spec t1 (U16 i1)
    (TangentFace previousXYZ currentXYZ nextXYZ previousTex currentTex nextTex).1
    (by rw [lt1, hlt]; exact h1)
  obtain ⟨t3, et3, lt3, st3⟩ := AddAt_spec t2 (U16 i2)
    (TangentFace previousXYZ currentXYZ nextXYZ previousTex currentTex nextTex).1
    (by rw [lt2, lt1, hlt]; exact h2)
  obtain ⟨b1, eb1, lb1, sb1⟩ := AddAt_spec binorms (U16 i0)
    (TangentFace previousXYZ currentXYZ nextXYZ previousTex currentTex nextTex).2
    (by rw [hlb]; exact h0)
  obtain ⟨b2, eb2, lb2, sb2⟩ := AddAt_spec b1 (U16 i1)
    (TangentFace previousXYZ currentXYZ nextXYZ previousTex currentTex nextTex).2
    (by rw [lb1, hlb]; exact h1)
  obtain ⟨b3, eb3, lb3, sb3⟩ := AddAt_spec b2 (U16 i2)
    (TangentFace previousXYZ currentXYZ nextXYZ previousTex currentTex nextTex).2
    (by rw [lb2, lb1, hlb]; exact h2)
  refine ⟨t3, b3, ?_, ?_, by rw [lt3, lt2, lt1, hlt], by rw [lb3, lb2, lb1, hlb], ?_, ?_⟩
  · exact ComputeTangentTriangles_cons xyzs texs i0 i1 i2 rest targents binorms
      previousXYZ currentXYZ nextXYZ previousTex currentTex nextTex hp hc hn hpt hct hnt
      t1 t2 t3 b1 b2 b3 et1 eb1 et2 eb2 et3 eb3
  · rw [ComputeTangentTriangles_cons xyzs texs i0 i1 i2 [] targents binorms
      previousXYZ currentXYZ nextXYZ previousTex currentTex nextTex hp hc hn hpt hct hnt
      t1 t2 t3 b1 b2 b3 et1 eb1 et2 eb2 et3 eb3, ComputeTangentTriangles]
  · intro j
    rw [st3 j, st2 j, st1 j]
    simp only [Vector3_add_assoc]
  · intro j
    rw [sb3 j, sb2 j, sb1 j]
    simp only [Vector3_add_assoc]

theorem ComputeTangentTriangles_spec (xyzs : List (Vector3 K)) (texs : List (Vector2 K))
    (htex : texs.length = xyzs.length) (n : Nat) :
    ∀ (indices : List Nat) (targents binorms : List (Vector3 K)), indices.length = 3 * n →
      (∀ i ∈ indices, U16 i < xyzs.length) → targents.length = xyzs.length →
      binorms.length = xyzs.length →
      ∃ t b, ComputeTangentTriangles xyzs texs indices (targents, binorms) = some (t, b) ∧
        ComputeTangentIterations xyzs texs indices (targents, binorms) = some (n, (t, b)) ∧
        t.length = xyzs.length ∧ b.length = xyzs.length := by
  induction n with
  | zero =>
    intro indices targents binorms hlen _ hlt hlb
    have e : indices = [] := List.length_eq_zero.mp (by omega)
    subst e
    exact ⟨targents, binorms, by rw [ComputeTangentTriangles],
      by rw [ComputeTangentIterations], hlt, hlb⟩
  | succ n ih =>
    intro indices targents binorms hlen hin hlt hlb
    obtain ⟨i0, i1, i2, rest, e, hrest⟩ := list_three_of_length indices n hlen
    subst e
    have h0 : U16 i0 < xyzs.length := hin i0 (by simp)
    have h1 : U16 i1 < xyzs.length := hin i1 (by simp)
    have h2 : U16 i2 < xyzs.length := hin i2 (by simp)
    obtain ⟨tm, bm, estep, ebody, ltm, lbm, _, _⟩ :=
      ComputeTangentTriangles_step xyzs texs i0 i1 i2 rest targents binorms
        (xyzs.get ⟨U16 i0, h0⟩) (xyzs.get ⟨U16 i1, h1⟩) (xyzs.get ⟨U16 i2, h2⟩)
        (texs.get ⟨U16 i0, by rw [htex]; exact h0⟩) (texs.get ⟨U16 i1, by rw [htex]; exact h1⟩)
        (texs.get ⟨U16 i2, by rw [htex]; exact h2⟩)
        (List.get?_eq_get h0) (List.get?_eq_get h1) (List.get?_eq_get h2)
        (List.get?_eq_get _) (List.get?_eq_get _) (List.get?_eq_get _) hlt hlb
    obtain ⟨t, b, eout, eiter, lt, lb⟩ :=
      ih rest tm bm hrest (fun i hi => hin i (by simp [hi])) ltm lbm
    refine ⟨t, b, by rw [estep, eout], ?_, lt, lb⟩
    rw [ComputeTangentIterations]
    simp only [ebody, eiter]

theorem three_mul_div_of_mod (n : Nat) (h : n % 3 = 0) : n = 3 * (n / 3) := by
  omega

theorem getD_replicate_Zero (n j : Nat) :
    (List.replicate n (Vector3.Zero : Vector3 K)).getD j Vector3.Zero = Vector3.Zero := by
  by_cases h : j < n
  · simp [List.getD_eq_getElem?_getD, List.getElem?_replicate, h]
  · simp [List.getD_eq_getElem?_getD, List.getElem?_replicate, h]

theorem get?_of_getD (l : List (Vector3 K)) (j : Nat) (v : Vector3 K) (h : j < l.length)
    (e : l.getD j Vector3.Zero = v) : l.get? j = some v := by
  rw [List.get?_eq_get h]
  rw [List.getD_eq_getElem?_getD, List.getElem?_eq_getElem h] at e
  simpa using e

theorem Cross_sub_self (p q : Vector3 K) :
    Cross (Vector3.sub p p) (Vector3.sub q p) = Vector3.mk 0 0 0 := by
  simp [Cross, Vector3.sub]

theorem ComputeNormalTriangles_wrapped (p0 p1 : Vector3 K) (tail normals : List (Vector3 K))
    (hl : normals.length = (p0 :: p1 :: tail).length) :
    ComputeNormalTriangles (p0 :: p1 :: tail) [65536, 0, 1] normals = some normals := by
  have e0 : U16 65536 = 0 := by norm_num [U16]
  have e1 : U16 0 = 0 := by norm_num [U16]
  have e2 : U16 1 = 1 := by norm_num [U16]
  have a0 : AddAt normals 0 (Vector3.mk 0 0 0) = some normals :=
    AddAt_Zero normals 0 (by rw [hl]; simp)
  have a1 : AddAt normals 1 (Vector3.mk 0 0 0) = some normals :=
    AddAt_Zero normals 1 (by rw [hl]; simp)
  rw [ComputeNormalTriangles]
  simp only [e0, e1, e2, List.get?_cons_zero, List.get?_cons_succ, Cross_sub_self, a0, a1,
    ComputeNormalTriangles]

theorem NormalSum_wrapped (p0 p1 : Vector3 K) (tail : List (Vector3 K))
    (h : tail.getD 65534 Vector3.Zero = Vector3.mk 0 0 0) :
    NormalSum (p0 :: p1 :: tail) [65536, 0, 1] 0 = Cross p0 p1 := by
  have e : (p0 :: p1 :: tail).getD 65536 Vector3.Zero = Vector3.mk 0 0 0 := h
  have e0 : (p0 :: p1 :: tail).getD 0 Vector3.Zero = p0 := rfl
  have e1 : (p0 :: p1 :: tail).getD 1 Vector3.Zero = p1 := rfl
  have z : Vector3.sub p0 (Vector3.mk 0 0 0) = p0 := by simp [Vector3.sub]
  have z1 : Vector3.sub p1 (Vector3.mk 0 0 0) = p1 := by simp [Vector3.sub]
  simp only [NormalSum, e, e0, e1, z, z1]
  simp [Vector3_add_Zero, Vector3_add_Zero_right]

/-- C21, as stated, fails: `ComputeNormal` reads every index into a `U16`.
With 65537 positions, the first two `(1,0,0)` and `(0,1,0)` and the others the
origin, the triangle `(65536, 0, 1)` has all its indices in range; the code
reads it as `(0, 0, 1)`, its face normal is zero and every accumulator stays
zero, while the sum of the claim at vertex 0 is `(0, 0, 1)`. -/
theorem C21_counterexample :
    (∀ i ∈ [65536, 0, 1], i < (Vector3.mk (1 : ℚ) 0 0 :: Vector3.mk 0 1 0 ::
      List.replicate 65535 Vector3.Zero).length) ∧
    ComputeNormalTriangles
        (Vector3.mk (1 : ℚ) 0 0 :: Vector3.mk 0 1 0 :: List.replicate 65535 Vector3.Zero)
        [65536, 0, 1] (List.replicate 65537 Vector3.Zero)
      = some (List.replicate 65537 Vector3.Zero) ∧
    NormalSum (Vector3.mk (1 : ℚ) 0 0 :: Vector3.mk 0 1 0 :: List.replicate 65535 Vector3.Zero)
        [65536, 0, 1] 0 = Vector3.mk 0 0 1 := by
  refine ⟨?_, ?_, ?_⟩
  · intro i hi
    rw [List.length_cons, List.length_cons, List.length_replicate]
    simp only [List.mem_cons, List.mem_singleton, List.not_mem_nil, or_false] at hi
    omega
  · exact ComputeNormalTriangles_wrapped _ _ _ _
      (by rw [List.length_cons, List.length_cons, List.length_replicate,
        List.length_replicate])
  · rw [NormalSum_wrapped _ _ _ (getD_replicate_Zero 65535 65534)]
    norm_num [Cross]

/-- C21, amended: for whole triangles whose indices are in range and fit a
`U16`, the loop of `ComputeNormal` ends with, for every vertex `j`, the sum
over every triangle and every slot holding `j` of the face normal
`Cross(pos[i1] - pos[i0], pos[i2] - pos[i0])`; the output is `Normalize` of
that sum, and the sum of a vertex no triangle references is zero. -/
theorem C21_ComputeNormal_sum (RecipSqrt : K → K) (indices : List Nat)
    (xyzs : List (Vector3 K)) (h3 : indices.length % 3 = 0)
    (hin : ∀ i ∈ indices, i < xyzs.length) (h16 : ∀ i ∈ indices, i < 65536) :
    ∃ acc, ComputeNormalTriangles xyzs indices (List.replicate xyzs.length Vector3.Zero)
        = some acc ∧
      acc.length = xyzs.length ∧
      (∀ j, j < xyzs.length → acc.get? j = some (NormalSum xyzs indices j)) ∧
      ComputeNormal RecipSqrt indices xyzs = some (acc.map (Normalize RecipSqrt)) ∧
      (∀ j, j < xyzs.length → (acc.map (Normalize RecipSqrt)).get? j
        = some (Normalize RecipSqrt (NormalSum xyzs indices j))) ∧
      (∀ j, (∀ i ∈ indices, i ≠ j) → NormalSum xyzs indices j = Vector3.Zero) := by
  obtain ⟨acc, eacc, _, lacc, sacc⟩ :=
    ComputeNormalTriangles_spec xyzs (indices.length / 3) indices
      (List.replicate xyzs.length Vector3.Zero) (three_mul_div_of_mod _ h3)
      (fun i hi => lt_of_le_of_lt (U16_le i) (hin i hi)) (List.length_replicate _ _)
  have hget : ∀ j, j < xyzs.length → acc.get? j = some (NormalSum xyzs indices j) := by
    intro j hj
    apply get?_of_getD acc j _ (by rw [lacc]; exact hj)
    rw [sacc j, getD_replicate_Zero, Vector3_add_Zero, map_U16_of_lt indices h16]
  refine ⟨acc, eacc, lacc, hget, ?_, ?_, ?_⟩
  · unfold ComputeNormal
    simp only [eacc]
  · intro j hj
    rw [List.get?_eq_getElem?, List.getElem?_map, ← List.get?_eq_getElem?, hget j hj]
    rfl
  · intro j hj
    exact NormalSum_unreferenced xyzs j indices.length indices rfl hj

theorem C21_witness :
    [0, 1, 2].length % 3 = 0 ∧
    (∀ i ∈ [0, 1, 2], i < [Vector3.mk (0 : ℚ) 0 0, Vector3.mk 1 0 0, Vector3.mk 0 1 0].length) ∧
    (∀ i ∈ [0, 1, 2], i < 65536) ∧
    ∃ acc, ComputeNormalTriangles [Vector3.mk (0 : ℚ) 0 0, Vector3.mk 1 0 0, Vector3.mk 0 1 0]
        [0, 1, 2] (List.replicate
          [Vector3.mk (0 : ℚ) 0 0, Vector3.mk 1 0 0, Vector3.mk 0 1 0].length Vector3.Zero)
        = some acc ∧
      acc.length = [Vector3.mk (0 : ℚ) 0 0, Vector3.mk 1 0 0, Vector3.mk 0 1 0].length ∧
      (∀ j, j < [Vector3.mk (0 : ℚ) 0 0, Vector3.mk 1 0 0, Vector3.mk 0 1 0].length →
        acc.get? j = some (NormalSum
          [Vector3.mk (0 : ℚ) 0 0, Vector3.mk 1 0 0, Vector3.mk 0 1 0] [0, 1, 2] j)) ∧
      ComputeNormal (fun _ => 1) [0, 1, 2]
          [Vector3.mk (0 : ℚ) 0 0, Vector3.mk 1 0 0, Vector3.mk 0 1 0]
        = some (acc.map (Normalize (fun _ => 1))) ∧
      (∀ j, j < [Vector3.mk (0 : ℚ) 0 0, Vector3.mk 1 0 0, Vector3.mk 0 1 0].length →
        (acc.map (Normalize (fun _ => 1))).get? j
          = some (Normalize (fun _ => 1) (NormalSum
            [Vector3.mk (0 : ℚ) 0 0, Vector3.mk 1 0 0, Vector3.mk 0 1 0] [0, 1, 2] j))) ∧
      (∀ j, (∀ i ∈ [0, 1, 2], i ≠ j) → NormalSum
        [Vector3.mk (0 : ℚ) 0 0, Vector3.mk 1 0 0, Vector3.mk 0 1 0] [0, 1, 2] j
          = Vector3.Zero) :=
  ⟨by decide, by decide, by decide,
    C21_ComputeNormal_sum (fun _ => 1) [0, 1, 2]
      [Vector3.mk (0 : ℚ) 0 0, Vector3.mk 1 0 0, Vector3.mk 0 1 0]
      (by decide) (by decide) (by decide)⟩

/-! ## Claims C22, C23, C26, C27 -/

/-- C22: a triangle whose UV determinant `s1 * t2 - s2 * t1` is 0 takes the
branch of `ComputeTangent` that sets `T = (1,0,0)` and `B = (0,1,0)` (the two
quotients are in the other branch), and the loop body adds this `T` to the
tangent and this `B` to the binormal of each of the three vertices of the
triangle, before the normalization pass. -/
theorem C22_degenerate_fallback (xyzs : List (Vector3 K)) (texs : List (Vector2 K))
    (i0 i1 i2 : Nat) (rest : List Nat) (targents binorms : List (Vector3 K))
    (previousXYZ currentXYZ nextXYZ : Vector3 K) (previousTex currentTex nextTex : Vector2 K)
    (hp : xyzs.get? (U16 i0) = some previousXYZ) (hc : xyzs.get? (U16 i1) = some currentXYZ)
    (hn : xyzs.get? (U16 i2) = some nextXYZ)
    (hpt : texs.get? (U16 i0) = some previousTex) (hct : texs.get? (U16 i1) = some currentTex)
    (hnt : texs.get? (U16 i2) = some nextTex)
    (hlt : targents.length = xyzs.length) (hlb : binorms.length = xyzs.length)
    (hden : (nextTex.x - currentTex.x) * (previousTex.y - currentTex.y)
        - (previousTex.x - currentTex.x) * (nextTex.y - currentTex.y) = 0) :
    TangentFace previousXYZ currentXYZ nextXYZ previousTex currentTex nextTex
      = (Vector3.mk 1 0 0, Vector3.mk 0 1 0) ∧
    ∃ t b, ComputeTangentTriangles xyzs texs (i0 :: i1 :: i2 :: rest) (targents, binorms)
        = ComputeTangentTriangles xyzs texs rest (t, b) ∧
      (∀ j, t.getD j Vector3.Zero =
        Vector3.add (targents.getD j Vector3.Zero)
          (Vector3.add
            (Vector3.add (if U16 i0 = j then Vector3.mk 1 0 0 else Vector3.Zero)
              (if U16 i1 = j then Vector3.mk 1 0 0 else Vector3.Zero))
            (if U16 i2 = j then Vector3.mk 1 0 0 else Vector3.Zero))) ∧
      (∀ j, b.getD j Vector3.Zero =
        Vector3.add (binorms.getD j Vector3.Zero)
          (Vector3.add
            (Vector3.add (if U16 i0 = j then Vector3.mk 0 1 0 else Vector3.Zero)
              (if U16 i1 = j then Vector3.mk 0 1 0 else Vector3.Zero))
            (if U16 i2 = j then Vector3.mk 0 1 0 else Vector3.Zero))) := by
  have hf := TangentFace_fallback previousXYZ currentXYZ nextXYZ previousTex currentTex nextTex
    (by rw [hden]; norm_num)
  obtain ⟨t, b, estep, _, _, _, st, sb⟩ :=
    ComputeTangentTriangles_step xyzs texs i0 i1 i2 rest targents binorms
      previousXYZ currentXYZ nextXYZ previousTex currentTex nextTex hp hc hn hpt hct hnt hlt hlb
  rw [hf] at st sb
  exact ⟨hf, t, b, estep, st, sb⟩

theorem C22_witness :
    ∃ t b, ComputeTangentTriangles
        [Vector3.mk (0 : ℚ) 0 0, Vector3.mk 1 0 0, Vector3.mk 0 1 0]
        [Vector2.mk (0 : ℚ) 0, Vector2.mk 1 1, Vector2.mk 2 2] [0, 1, 2]
        ([Vector3.Zero, Vector3.Zero, Vector3.Zero], [Vector3.Zero, Vector3.Zero, Vector3.Zero])
        = ComputeTangentTriangles
          [Vector3.mk (0 : ℚ) 0 0, Vector3.mk 1 0 0, Vector3.mk 0 1 0]
          [Vector2.mk (0 : ℚ) 0, Vector2.mk 1 1, Vector2.mk 2 2] [] (t, b) ∧
      (∀ j, t.getD j Vector3.Zero =
        Vector3.add
          (([Vector3.Zero, Vector3.Zero, Vector3.Zero] : List (Vector3 ℚ)).getD j Vector3.Zero)
          (Vector3.add
            (Vector3.add (if U16 0 = j then Vector3.mk 1 0 0 else Vector3.Zero)
              (if U16 1 = j then Vector3.mk 1 0 0 else Vector3.Zero))
            (if U16 2 = j then Vector3.mk 1 0 0 else Vector3.Zero))) ∧
      (∀ j, b.getD j Vector3.Zero =
        Vector3.add
          (([Vector3.Zero, Vector3.Zero, Vector3.Zero] : List (Vector3 ℚ)).getD j Vector3.Zero)
          (Vector3.add
            (Vector3.add (if U16 0 = j then Vector3.mk 0 1 0 else Vector3.Zero)
              (if U16 1 = j then Vector3.mk 0 1 0 else Vector3.Zero))
            (if U16 2 = j then Vector3.mk 0 1 0 else Vector3.Zero))) :=
  (C22_degenerate_fallback
    [Vector3.mk (0 : ℚ) 0 0, Vector3.mk 1 0 0, Vector3.mk 0 1 0]
    [Vector2.mk (0 : ℚ) 0, Vector2.mk 1 1, Vector2.mk 2 2] 0 1 2 []
    [Vector3.Zero, Vector3.Zero, Vector3.Zero] [Vector3.Zero, Vector3.Zero, Vector3.Zero]
    (Vector3.mk 0 0 0) (Vector3.mk 1 0 0) (Vector3.mk 0 1 0)
    (Vector2.mk 0 0) (Vector2.mk 1 1) (Vector2.mk 2 2)
    rfl rfl rfl rfl rfl rfl rfl rfl (by norm_num)).2

theorem C23_witness :
    Vector3.add
        (Vector3.scalarMul ((1 : ℚ) - 0)
          (TangentFace (Vector3.mk (0 : ℚ) 3 0) (Vector3.mk 0 0 0) (Vector3.mk 2 0 0)
            (Vector2.mk 0 1) (Vector2.mk 0 0) (Vector2.mk 1 0)).1)
        (Vector3.scalarMul ((0 : ℚ) - 0)
          (TangentFace (Vector3.mk (0 : ℚ) 3 0) (Vector3.mk 0 0 0) (Vector3.mk 2 0 0)
            (Vector2.mk 0 1) (Vector2.mk 0 0) (Vector2.mk 1 0)).2)
      = Vector3.sub (Vector3.mk 2 0 0) (Vector3.mk 0 0 0) ∧
    Vector3.add
        (Vector3.scalarMul ((0 : ℚ) - 0)
          (TangentFace (Vector3.mk (0 : ℚ) 3 0) (Vector3.mk 0 0 0) (Vector3.mk 2 0 0)
            (Vector2.mk 0 1) (Vector2.mk 0 0) (Vector2.mk 1 0)).1)
        (Vector3.scalarMul ((1 : ℚ) - 0)
          (TangentFace (Vector3.mk (0 : ℚ) 3 0) (Vector3.mk 0 0 0) (Vector3.mk 2 0 0)
            (Vector2.mk 0 1) (Vector2.mk 0 0) (Vector2.mk 1 0)).2)
      = Vector3.sub (Vector3.mk 0 3 0) (Vector3.mk 0 0 0) :=
  C23_TangentFace_solves (Vector3.mk (0 : ℚ) 3 0) (Vector3.mk 0 0 0) (Vector3.mk 2 0 0)
    (Vector2.mk 0 1) (Vector2.mk 0 0) (Vector2.mk 1 0) (by norm_num)

/-- C26: `Normalize` of the zero vector of dimension 2, 3 or 4 is the zero
vector, every component being `0 * RecipSqrt(0)` whatever scalar
`RecipSqrt(0)` is; and for whole triangles with indices in range,
`ComputeNormal` returns, with the zero normal at every vertex that no
triangle references. -/
theorem C26_Normalize_zero (RecipSqrt : K → K) (indices : List Nat) (xyzs : List (Vector3 K))
    (j : Nat) (h3 : indices.length % 3 = 0) (hin : ∀ i ∈ indices, U16 i < xyzs.length)
    (hj : j < xyzs.length) (hne : ∀ i ∈ indices, U16 i ≠ j) :
    (Normalize RecipSqrt (Vector2.mk (0 : K) 0)
        = Vector2.mk (0 * RecipSqrt 0) (0 * RecipSqrt 0) ∧
      Normalize RecipSqrt (Vector2.mk (0 : K) 0) = Vector2.mk 0 0) ∧
    (Normalize RecipSqrt (Vector3.mk (0 : K) 0 0)
        = Vector3.mk (0 * RecipSqrt 0) (0 * RecipSqrt 0) (0 * RecipSqrt 0) ∧
      Normalize RecipSqrt (Vector3.mk (0 : K) 0 0) = Vector3.mk 0 0 0) ∧
    (Normalize RecipSqrt (Vector4.mk (0 : K) 0 0 0)
        = Vector4.mk (0 * RecipSqrt 0) (0 * RecipSqrt 0) (0 * RecipSqrt 0) (0 * RecipSqrt 0) ∧
      Normalize RecipSqrt (Vector4.mk (0 : K) 0 0 0) = Vector4.mk 0 0 0 0) ∧
    ∃ out, ComputeNormal RecipSqrt indices xyzs = some out ∧
      out.get? j = some (Vector3.mk 0 0 0) := by
  refine ⟨?_, ?_, ?_, ?_⟩
  · simp [Normalize_vector2, LengthSq, Dot_vector2]
  · simp [Normalize_vector3, LengthSq, Dot_vector3]
  · simp [Normalize_vector4, LengthSq, Dot_vector4]
  · obtain ⟨acc, eacc, _, lacc, sacc⟩ :=
      ComputeNormalTriangles_spec xyzs (indices.length / 3) indices
        (List.replicate xyzs.length Vector3.Zero) (three_mul_div_of_mod _ h3) hin
        (List.length_replicate _ _)
    have hz : acc.get? j = some Vector3.Zero := by
      apply get?_of_getD acc j _ (by rw [lacc]; exact hj)
      rw [sacc j, getD_replicate_Zero, Vector3_add_Zero]
      apply NormalSum_unreferenced xyzs j _ _ rfl
      intro i hi
      obtain ⟨k, hk, e⟩ := List.mem_map.mp hi
      rw [← e]
      exact hne k hk
    refine ⟨acc.map (Normalize RecipSqrt), ?_, ?_⟩
    · unfold ComputeNormal
      simp only [eacc]
    · rw [List.get?_eq_getElem?, List.getElem?_map, ← List.get?_eq_getElem?, hz]
      simp [Vector3.Zero, Normalize_vector3, LengthSq, Dot_vector3]

theorem C26_witness :
    ∃ out, ComputeNormal (fun _ => (7 : ℚ)) [0, 1, 2]
        [Vector3.mk (0 : ℚ) 0 0, Vector3.mk 1 0 0, Vector3.mk 0 1 0, Vector3.mk 5 5 5] = some out ∧
      out.get? 3 = some (Vector3.mk 0 0 0) :=
  (C26_Normalize_zero (fun _ => (7 : ℚ)) [0, 1, 2]
    [Vector3.mk (0 : ℚ) 0 0, Vector3.mk 1 0 0, Vector3.mk 0 1 0, Vector3.mk 5 5 5] 3
    (by decide) (by decide) (by decide) (by decide)).2.2.2

/-- C27: for an index sequence whose length is a multiple of 3 and whose
entries are all smaller than the number of positions (the texture
coordinates being indexed like the positions), the triangle loops of
`ComputeNormal` and `ComputeTangent` end after exactly `length / 3`
iterations, with no read or write out of range (the model returns a result,
which it does not when an index leaves a sequence). -/
theorem C27_loops_in_range (RecipSqrt : K → K) (indices : List Nat) (xyzs : List (Vector3 K))
    (texs : List (Vector2 K)) (h3 : indices.length % 3 = 0)
    (hin : ∀ i ∈ indices, i < xyzs.length) (htex : texs.length = xyzs.length) :
    (∃ normals, ComputeNormalIterations xyzs indices (List.replicate xyzs.length Vector3.Zero)
        = some (indices.length / 3, normals) ∧
      ComputeNormalTriangles xyzs indices (List.replicate xyzs.length Vector3.Zero)
        = some normals ∧
      normals.length = xyzs.length ∧
      ComputeNormal RecipSqrt indices xyzs = some (normals.map (Normalize RecipSqrt))) ∧
    (∃ t b, ComputeTangentIterations xyzs texs indices
          (List.replicate xyzs.length Vector3.Zero, List.replicate xyzs.length Vector3.Zero)
        = some (indices.length / 3, (t, b)) ∧
      ComputeTangentTriangles xyzs texs indices
          (List.replicate xyzs.length Vector3.Zero, List.replicate xyzs.length Vector3.Zero)
        = some (t, b) ∧
      t.length = xyzs.length ∧ b.length = xyzs.length ∧
      ComputeTangent RecipSqrt indices xyzs texs
        = some (t.map (Normalize RecipSqrt), b.map (Normalize RecipSqrt))) := by
  have hin16 : ∀ i ∈ indices, U16 i < xyzs.length :=
    fun i hi => lt_of_le_of_lt (U16_le i) (hin i hi)
  constructor
  · obtain ⟨acc, eacc, eiter, lacc, _⟩ :=
      ComputeNormalTriangles_spec xyzs (indices.length / 3) indices
        (List.replicate xyzs.length Vector3.Zero) (three_mul_div_of_mod _ h3) hin16
        (List.length_replicate _ _)
    refine ⟨acc, eiter, eacc, lacc, ?_⟩
    unfold ComputeNormal
    simp only [eacc]
  · obtain ⟨t, b, eout, eiter, lt, lb⟩ :=
      ComputeTangentTriangles_spec xyzs texs htex (indices.length / 3) indices
        (List.replicate xyzs.length Vector3.Zero) (List.replicate xyzs.length Vector3.Zero)
        (three_mul_div_of_mod _ h3) hin16 (List.length_replicate _ _)
        (List.length_replicate _ _)
    refine ⟨t, b, eiter, eout, lt, lb, ?_⟩
    unfold ComputeTangent
    simp only [eout]

theorem C27_witness :
    (∃ normals, ComputeNormalIterations
          [Vector3.mk (0 : ℚ) 0 0, Vector3.mk 1 0 0, Vector3.mk 0 1 0, Vector3.mk 0 0 1]
          [0, 1, 2, 2, 1, 3] (List.replicate 4 Vector3.Zero)
        = some (2, normals)) ∧
    (∃ t b, ComputeTangentIterations
          [Vector3.mk (0 : ℚ) 0 0, Vector3.mk 1 0 0, Vector3.mk 0 1 0, Vector3.mk 0 0 1]
          [Vector2.mk (0 : ℚ) 0, Vector2.mk 1 0, Vector2.mk 0 1, Vector2.mk 1 1]
          [0, 1, 2, 2, 1, 3] (List.replicate 4 Vector3.Zero, List.replicate 4 Vector3.Zero)
        = some (2, (t, b))) :=
  have h := C27_loops_in_range (fun _ => (1 : ℚ)) [0, 1, 2, 2, 1, 3]
    [Vector3.mk (0 : ℚ) 0 0, Vector3.mk 1 0 0, Vector3.mk 0 1 0, Vector3.mk 0 0 1]
    [Vector2.mk (0 : ℚ) 0, Vector2.mk 1 0, Vector2.mk 0 1, Vector2.mk 1 1]
    (by decide) (by decide) (by decide)
  ⟨h.1.imp (fun _ hn => hn.1), h.2.imp (fun _ ht => ht.imp (fun _ hb => hb.1))⟩

theorem C29_witness :
    Dot (Quaternion.mk (0 : ℝ) 0 0 1) (Quaternion.mk (0 : ℝ) 0 0 (-1)) ≤ (0 : ℝ) - 1 ∧
    Slerp (0 : ℝ) Real.sin Real.arccos (Quaternion.mk 0 0 0 1) (Quaternion.mk 0 0 0 (-1)) (1 / 2)
      = Quaternion.add
          (Quaternion.scalarMul (Real.sin ((1 - 1 / 2) * PIdiv2)) (Quaternion.mk 0 0 0 1))
          (Quaternion.scalarMul (Real.sin (1 / 2 * PIdiv2))
            (Quaternion.mk (-(0 : ℝ)) 0 (-(-1)) 0)) :=
  have h : Dot (Quaternion.mk (0 : ℝ) 0 0 1) (Quaternion.mk (0 : ℝ) 0 0 (-1)) ≤ (0 : ℝ) - 1 := by
    norm_num [Dot_quaternion]
  ⟨h, (C29_Slerp_antiparallel (0 : ℝ) Real.sin Real.arccos (Quaternion.mk 0 0 0 1)
    (Quaternion.mk 0 0 0 (-1)) (1 / 2) h).1⟩

theorem C30_witness :
    LengthSq (Quaternion.mk (0 : ℚ) 0 0 1) = 1 ∧ LengthSq (Quaternion.mk (1 : ℚ) 0 0 0) = 1 ∧
    ToMatrix (MultiplyQuat (Quaternion.mk (0 : ℚ) 0 0 1) (Quaternion.mk 1 0 0 0))
      = Multiply (ToMatrix (Quaternion.mk (0 : ℚ) 0 0 1)) (ToMatrix (Quaternion.mk 1 0 0 0)) :=
  have ha : LengthSq (Quaternion.mk (0 : ℚ) 0 0 1) = 1 := by
    norm_num [LengthSq, Dot_quaternion]
  have hb : LengthSq (Quaternion.mk (1 : ℚ) 0 0 0) = 1 := by
    norm_num [LengthSq, Dot_quaternion]
  ⟨ha, hb, C30_ToMatrix_MultiplyQuat _ _ ha hb⟩

/-! ## Claims C31, C32 and C33: rotating by a quaternion, Euler angles, inverse -/

/-- C31: for every unit quaternion `q` and 3D vector `v`, `TransQuat(v, q)`
equals `TransformNormal(v, ToMatrix(q))`. -/
theorem C31_TransQuat_eq_TransformNormal (v : Vector3 K) (q : Quaternion K)
    (hq : LengthSq q = 1) :
    TransQuat v q = TransformNormal3 v (ToMatrix q) := by
  obtain ⟨qx, qy, qz, qw⟩ := q
  obtain ⟨vx, vy, vz⟩ := v
  simp only [LengthSq, Dot_quaternion] at hq
  simp only [TransQuat, TransformNormal3, Transform4, ToMatrix, Cross, Quaternion.v,
    Dot_vector3, Matrix4.get_00, Matrix4.get_01, Matrix4.get_02,
    Matrix4.get_03, Matrix4.get_10, Matrix4.get_11, Matrix4.get_12, Matrix4.get_13,
    Matrix4.get_20, Matrix4.get_21, Matrix4.get_22, Matrix4.get_23, Matrix4.get_30,
    Matrix4.get_31, Matrix4.get_32, Matrix4.get_33, Vector3.mk.injEq]
  refine ⟨?_, ?_, ?_⟩
  · linear_combination vx * hq
  · linear_combination vy * hq
  · linear_combination vz * hq

theorem C31_witness :
    LengthSq (Quaternion.mk (3 / 5 : ℚ) 0 0 (4 / 5)) = 1 ∧
    TransQuat (Vector3.mk (1 : ℚ) 2 3) (Quaternion.mk (3 / 5) 0 0 (4 / 5))
      = TransformNormal3 (Vector3.mk 1 2 3) (ToMatrix (Quaternion.mk (3 / 5) 0 0 (4 / 5))) :=
  have hq : LengthSq (Quaternion.mk (3 / 5 : ℚ) 0 0 (4 / 5)) = 1 := by
    norm_num [LengthSq, Dot_quaternion]
  ⟨hq, C31_TransQuat_eq_TransformNormal _ _ hq⟩

theorem ToMatrix_MultiplyQuat_of_unit (a b : Quaternion K) (ha : LengthSq a = 1)
    (hb : LengthSq b = 1) :
    ToMatrix (MultiplyQuat a b) = Multiply (ToMatrix a) (ToMatrix b) := by
  obtain ⟨ax, ay, az, aw⟩ := a
  obtain ⟨bx, b_y, bz, bw⟩ := b
  simp only [LengthSq, Dot_quaternion] at ha hb
  simp only [ToMatrix, MultiplyQuat, Multiply, Matrix4.get_00, Matrix4.get_01, Matrix4.get_02,
      Matrix4.get_03, Matrix4.get_10, Matrix4.get_11, Matrix4.get_12, Matrix4.get_13,
      Matrix4.get_20, Matrix4.get_21, Matrix4.get_22, Matrix4.get_23, Matrix4.get_30,
      Matrix4.get_31, Matrix4.get_32, Matrix4.get_33, Matrix4.mk.injEq]
  refine ⟨?_, ?_, ?_, ?_, ?_, ?_, ?_, ?_, ?_, ?_, ?_, ?_, ?_, ?_, ?_, ?_⟩
  · linear_combination (1 - b_y * (b_y + b_y) - bz * (bz + bz) - 1) * ha
      + (1 - ay * (ay + ay) - az * (az + az) - 1) * hb
  · linear_combination (bx * (b_y + b_y) + bw * (bz + bz)) * ha
      + (ax * (ay + ay) + aw * (az + az)) * hb
  · linear_combination (bx * (bz + bz) - bw * (b_y + b_y)) * ha
      + (ax * (az + az) - aw * (ay + ay)) * hb
  · ring
  · linear_combination (bx * (b_y + b_y) - bw * (bz + bz)) * ha
      + (ax * (ay + ay) - aw * (az + az)) * hb
  · linear_combination (1 - bx * (bx + bx) - bz * (bz + bz) - 1) * ha
      + (1 - ax * (ax + ax) - az * (az + az) - 1) * hb
  · linear_combination (b_y * (bz + bz) + bw * (bx + bx)) * ha
      + (ay * (az + az) + aw * (ax + ax)) * hb
  · ring
  · linear_combination (bx * (bz + bz) + bw * (b_y + b_y)) * ha
      + (ax * (az + az) + aw * (ay + ay)) * hb
  · linear_combination (b_y * (bz + bz) - bw * (bx + bx)) * ha
      + (ay * (az + az) - aw * (ax + ax)) * hb
  · linear_combination (1 - bx * (bx + bx) - b_y * (b_y + b_y) - 1) * ha
      + (1 - ax * (ax + ax) - ay * (ay + ay) - 1) * hb
  · ring
  · ring
  · ring
  · ring
  · ring

theorem LengthSq_MultiplyQuat (a b : Quaternion K) :
    LengthSq (MultiplyQuat a b) = LengthSq a * LengthSq b := by
  simp only [LengthSq, Dot_quaternion, MultiplyQuat]
  ring

/-- C32: with `(sx, cx)`, `(sy, cy)`, `(sz, cz)` the pairs `SinCos` returns
for the halves of pitch, yaw and roll, `RotationYawPitchRoll` is
`Multiply(Multiply(qz, qx), qy)` for `qz = (0,0,sz,cz)`, `qx = (sx,0,0,cx)`,
`qy = (0,sy,0,cy)`; its squared length is
`(sx^2+cx^2)*(sy^2+cy^2)*(sz^2+cz^2)`, which is 1 when each pair lies on the
unit circle; the matrix of the result is then the product of the matrices of
`qz`, `qx`, `qy` in this order, so that on a row vector the roll about Z comes
first, then the pitch about X, then the yaw about Y. -/
theorem C32_RotationYawPitchRoll (Sin : K → K) (yaw pitch roll : K) :
    RotationYawPitchRoll Sin yaw pitch roll =
      MultiplyQuat
        (MultiplyQuat (Quaternion.mk 0 0 (SinCos Sin (roll / 2)).1 (SinCos Sin (roll / 2)).2)
          (Quaternion.mk (SinCos Sin (pitch / 2)).1 0 0 (SinCos Sin (pitch / 2)).2))
        (Quaternion.mk 0 (SinCos Sin (yaw / 2)).1 0 (SinCos Sin (yaw / 2)).2) ∧
    LengthSq (RotationYawPitchRoll Sin yaw pitch roll) =
      ((SinCos Sin (pitch / 2)).1 ^ 2 + (SinCos Sin (pitch / 2)).2 ^ 2)
        * ((SinCos Sin (yaw / 2)).1 ^ 2 + (SinCos Sin (yaw / 2)).2 ^ 2)
        * ((SinCos Sin (roll / 2)).1 ^ 2 + (SinCos Sin (roll / 2)).2 ^ 2) ∧
    ((SinCos Sin (pitch / 2)).1 ^ 2 + (SinCos Sin (pitch / 2)).2 ^ 2 = 1 →
      (SinCos Sin (yaw / 2)).1 ^ 2 + (SinCos Sin (yaw / 2)).2 ^ 2 = 1 →
      (SinCos Sin (roll / 2)).1 ^ 2 + (SinCos Sin (roll / 2)).2 ^ 2 = 1 →
      LengthSq (RotationYawPitchRoll Sin yaw pitch roll) = 1 ∧
      ToMatrix (RotationYawPitchRoll Sin yaw pitch roll) =
        Multiply
          (Multiply
            (ToMatrix (Quaternion.mk 0 0 (SinCos Sin (roll / 2)).1 (SinCos Sin (roll / 2)).2))
            (ToMatrix
              (Quaternion.mk (SinCos Sin (pitch / 2)).1 0 0 (SinCos Sin (pitch / 2)).2)))
          (ToMatrix (Quaternion.mk 0 (SinCos Sin (yaw / 2)).1 0 (SinCos Sin (yaw / 2)).2))) := by
  have hl : LengthSq (RotationYawPitchRoll Sin yaw pitch roll) =
      ((SinCos Sin (pitch / 2)).1 ^ 2 + (SinCos Sin (pitch / 2)).2 ^ 2)
        * ((SinCos Sin (yaw / 2)).1 ^ 2 + (SinCos Sin (yaw / 2)).2 ^ 2)
        * ((SinCos Sin (roll / 2)).1 ^ 2 + (SinCos Sin (roll / 2)).2 ^ 2) := by
    simp only [LengthSq, Dot_quaternion, RotationYawPitchRoll]
    ring
  have hm : RotationYawPitchRoll Sin yaw pitch roll =
      MultiplyQuat
        (MultiplyQuat (Quaternion.mk 0 0 (SinCos Sin (roll / 2)).1 (SinCos Sin (roll / 2)).2)
          (Quaternion.mk (SinCos Sin (pitch / 2)).1 0 0 (SinCos Sin (pitch / 2)).2))
        (Quaternion.mk 0 (SinCos Sin (yaw / 2)).1 0 (SinCos Sin (yaw / 2)).2) := by
    simp only [RotationYawPitchRoll, MultiplyQuat, Quaternion.mk.injEq]
    refine ⟨?_, ?_, ?_, ?_⟩ <;> ring
  refine ⟨hm, hl, ?_⟩
  intro hx hy hz
  have ux : LengthSq (Quaternion.mk (SinCos Sin (pitch / 2)).1 0 0 (SinCos Sin (pitch / 2)).2)
      = 1 := by
    simp only [LengthSq, Dot_quaternion]
    linear_combination hx
  have uy : LengthSq (Quaternion.mk 0 (SinCos Sin (yaw / 2)).1 0 (SinCos Sin (yaw / 2)).2)
      = 1 := by
    simp only [LengthSq, Dot_quaternion]
    linear_combination hy
  have uz : LengthSq (Quaternion.mk 0 0 (SinCos Sin (roll / 2)).1 (SinCos Sin (roll / 2)).2)
      = 1 := by
    simp only [LengthSq, Dot_quaternion]
    linear_combination hz
  constructor
  · rw [hl, hx, hy, hz]
    norm_num
  · rw [hm, ToMatrix_MultiplyQuat_of_unit _ _ (by rw [LengthSq_MultiplyQuat, uz, ux, mul_one]) uy,
      ToMatrix_MultiplyQuat_of_unit _ _ uz ux]

theorem scaledSin_unit (x : ℝ) :
    (SinCos (fun y : ℝ => Real.sin (y * (Real.pi / PI))) x).1 ^ 2
      + (SinCos (fun y : ℝ => Real.sin (y * (Real.pi / PI))) x).2 ^ 2 = 1 := by
  have hPI : (PI : ℝ) ≠ 0 := by
    unfold PI
    norm_num
  have e : (x + PI / 2) * (Real.pi / PI) = x * (Real.pi / PI) + Real.pi / 2 := by
    field_simp
    ring
  simp only [SinCos, Cos, e, Real.sin_add_pi_div_two]
  exact Real.sin_sq_add_cos_sq _

theorem C32_witness :
    LengthSq (RotationYawPitchRoll (fun y : ℝ => Real.sin (y * (Real.pi / PI))) 1 2 3) = 1 :=
  ((C32_RotationYawPitchRoll (fun y : ℝ => Real.sin (y * (Real.pi / PI))) 1 2 3).2.2
    (scaledSin_unit _) (scaledSin_unit _) (scaledSin_unit _)).1

theorem LengthSq_quaternion_ne_zero (q : Quaternion K) (hq : q ≠ Quaternion.mk 0 0 0 0) :
    LengthSq q ≠ 0 := by
  obtain ⟨x, y, z, w⟩ := q
  simp only [LengthSq, Dot_quaternion]
  intro h
  apply hq
  have hx := mul_self_nonneg x
  have hy := mul_self_nonneg y
  have hz := mul_self_nonneg z
  have hw := mul_self_nonneg w
  have ex : x = 0 := mul_self_eq_zero.mp (by linarith)
  have ey : y = 0 := mul_self_eq_zero.mp (by linarith)
  have ez : z = 0 := mul_self_eq_zero.mp (by linarith)
  have ew : w = 0 := mul_self_eq_zero.mp (by linarith)
  rw [ex, ey, ez, ew]

/-- C33: for a non-zero quaternion `q`, with `Length(q)` the non-negative
square root of `LengthSq(q)`, `Inverse(q)` is `Conjugate(q)` times
`1 / Length(q)`, `Multiply(q, Inverse(q))` is `(0, 0, 0, Length(q))`, and
this is the identity quaternion exactly when `q` has unit length. -/
theorem C33_InverseQuat (Sqrt : K → K) (q : Quaternion K) (hq : q ≠ Quaternion.mk 0 0 0 0)
    (h0 : 0 ≤ Length Sqrt q) (hs : Length Sqrt q * Length Sqrt q = LengthSq q) :
    InverseQuat Sqrt q = Quaternion.mulScalar (Conjugate q) (1 / Length Sqrt q) ∧
    MultiplyQuat q (InverseQuat Sqrt q) = Quaternion.mk 0 0 0 (Length Sqrt q) ∧
    (MultiplyQuat q (InverseQuat Sqrt q) = Quaternion.mk 0 0 0 1 ↔ LengthSq q = 1) := by
  have hne := LengthSq_quaternion_ne_zero q hq
  have hL : Length Sqrt q ≠ 0 := by
    intro h
    rw [h, mul_zero] at hs
    exact hne hs.symm
  have hm : MultiplyQuat q (InverseQuat Sqrt q) = Quaternion.mk 0 0 0 (Length Sqrt q) := by
    simp only [InverseQuat]
    generalize Length Sqrt q = L at *
    obtain ⟨x, y, z, w⟩ := q
    simp only [LengthSq, Dot_quaternion] at hs
    simp only [MultiplyQuat, Quaternion.mk.injEq]
    refine ⟨?_, ?_, ?_, ?_⟩
    · ring
    · ring
    · ring
    · field_simp
      linear_combination -hs
  refine ⟨rfl, hm, ?_⟩
  rw [hm, ← hs]
  constructor
  · intro h
    have e : Length Sqrt q = 1 := (Quaternion.mk.injEq _ _ _ _ _ _ _ _ ▸ h).2.2.2
    rw [e, mul_one]
  · intro h
    have e : Length Sqrt q = 1 := by nlinarith
    rw [e]

theorem C33_witness :
    MultiplyQuat (Quaternion.mk (0 : ℚ) 0 3 4) (InverseQuat Rat.sqrt (Quaternion.mk 0 0 3 4))
      = Quaternion.mk 0 0 0 5 :=
  have hl : Length Rat.sqrt (Quaternion.mk (0 : ℚ) 0 3 4) = 5 := by
    have e : LengthSq (Quaternion.mk (0 : ℚ) 0 3 4) = 5 * 5 := by
      norm_num [LengthSq, Dot_quaternion]
    unfold Length
    rw [e, Rat.sqrt_eq]
    norm_num
  hl ▸ (C33_InverseQuat Rat.sqrt (Quaternion.mk (0 : ℚ) 0 3 4)
    (by simp)
    (by rw [hl]; norm_num)
    (by rw [hl]; norm_num [LengthSq, Dot_quaternion])).2.1

/-! ## Claim C34: the test on the UV determinant -/

/-- C34: `ComputeTangent` sets the fixed `T = (1,0,0)`, `B = (0,1,0)` when
the signed UV determinant `s1 * t2 - s2 * t1` is below `0.0001` and the two
quotients when it is not; so a triangle with a negative determinant, of any
magnitude, gets the fixed pair, although the 2x2 system then has the solution
the quotients give. -/
theorem C34_fallback_iff (previousXYZ currentXYZ nextXYZ : Vector3 K)
    (previousTex currentTex nextTex : Vector2 K) :
    ((nextTex.x - currentTex.x) * (previousTex.y - currentTex.y)
        - (previousTex.x - currentTex.x) * (nextTex.y - currentTex.y) < 1 / 10000 →
      TangentFace previousXYZ currentXYZ nextXYZ previousTex currentTex nextTex
        = (Vector3.mk 1 0 0, Vector3.mk 0 1 0)) ∧
    (¬ ((nextTex.x - currentTex.x) * (previousTex.y - currentTex.y)
        - (previousTex.x - currentTex.x) * (nextTex.y - currentTex.y) < 1 / 10000) →
      TangentFace previousXYZ currentXYZ nextXYZ previousTex currentTex nextTex
        = (Vector3.divScalar
            (Vector3.sub
              (Vector3.scalarMul (previousTex.y - currentTex.y)
                (Vector3.sub nextXYZ currentXYZ))
              (Vector3.scalarMul (nextTex.y - currentTex.y)
                (Vector3.sub previousXYZ currentXYZ)))
            ((nextTex.x - currentTex.x) * (previousTex.y - currentTex.y)
              - (previousTex.x - currentTex.x) * (nextTex.y - currentTex.y)),
          Vector3.divScalar
            (Vector3.sub
              (Vector3.scalarMul (nextTex.x - currentTex.x)
                (Vector3.sub previousXYZ currentXYZ))
              (Vector3.scalarMul (previousTex.x - currentTex.x)
                (Vector3.sub nextXYZ currentXYZ)))
            ((nextTex.x - currentTex.x) * (previousTex.y - currentTex.y)
              - (previousTex.x - currentTex.x) * (nextTex.y - currentTex.y)))) ∧
    ((nextTex.x - currentTex.x) * (previousTex.y - currentTex.y)
        - (previousTex.x - currentTex.x) * (nextTex.y - currentTex.y) < 0 →
      TangentFace previousXYZ currentXYZ nextXYZ previousTex currentTex nextTex
        = (Vector3.mk 1 0 0, Vector3.mk 0 1 0)) := by
  refine ⟨?_, ?_, ?_⟩
  · intro h
    exact TangentFace_fallback _ _ _ _ _ _ h
  · intro h
    unfold TangentFace
    simp only [if_neg h]
  · intro h
    exact TangentFace_fallback _ _ _ _ _ _ (lt_trans h (by norm_num))

theorem C34_witness :
    ((0 : ℚ) - 0) * (0 - 0) - (1 - 0) * (1 - 0) < 0 ∧
    TangentFace (Vector3.mk (0 : ℚ) 3 0) (Vector3.mk 0 0 0) (Vector3.mk 2 0 0)
        (Vector2.mk 1 0) (Vector2.mk 0 0) (Vector2.mk 0 1)
      = (Vector3.mk 1 0 0, Vector3.mk 0 1 0) ∧
    Vector3.add (Vector3.scalarMul ((0 : ℚ) - 0) (Vector3.mk 1 0 0))
        (Vector3.scalarMul (1 - 0) (Vector3.mk 0 1 0))
      ≠ Vector3.sub (Vector3.mk 2 0 0) (Vector3.mk 0 0 0) :=
  ⟨by norm_num,
    (C34_fallback_iff (Vector3.mk (0 : ℚ) 3 0) (Vector3.mk 0 0 0) (Vector3.mk 2 0 0)
      (Vector2.mk 1 0) (Vector2.mk 0 0) (Vector2.mk 0 1)).2.2 (by norm_num),
    by simp [Vector3.add, Vector3.scalarMul, Vector3.sub]⟩

/-! ## Claim C36: the spherical branch of `Slerp` -/

/-- C36: in the spherical branch of `Slerp` (`epsilon - 1 < Dot(a, b) <
1 - epsilon`, `epsilon` not negative), with the real sine and arccosine, for
unit quaternions `a`, `b` and every `t`: `sin(omega)` is not 0 for
`omega = acos(Dot(a, b))`, the result is `scale0 * a + scale1 * b` with
`scale0 = sin((1-t)*omega)/sin(omega)` and `scale1 = sin(t*omega)/sin(omega)`,
and it is a unit quaternion. -/
theorem C36_Slerp_spherical_unit (eps : ℝ) (a b : Quaternion ℝ) (t : ℝ) (heps : 0 ≤ eps)
    (ha : LengthSq a = 1) (hb : LengthSq b = 1)
    (h1 : eps - 1 < Dot a b) (h2 : Dot a b < 1 - eps) :
    Real.sin (Real.arccos (Dot a b)) ≠ 0 ∧
    Slerp eps Real.sin Real.arccos a b t =
      Quaternion.add
        (Quaternion.scalarMul
          (Real.sin ((1 - t) * Real.arccos (Dot a b)) / Real.sin (Real.arccos (Dot a b))) a)
        (Quaternion.scalarMul
          (Real.sin (t * Real.arccos (Dot a b)) / Real.sin (Real.arccos (Dot a b))) b) ∧
    LengthSq (Slerp eps Real.sin Real.arccos a b t) = 1 := by
  have hc1 : -1 < (Dot a b : ℝ) := by linarith
  have hc2 : (Dot a b : ℝ) < 1 := by linarith
  have hne : Real.sin (Real.arccos (Dot a b)) ≠ 0 := Real_sin_arccos_ne_zero _ hc1 hc2
  have hcos : Real.cos (Real.arccos (Dot a b)) = Dot a b := Real.cos_arccos hc1.le hc2.le
  have hSC := Real.sin_sq_add_cos_sq (Real.arccos (Dot a b))
  have hsk := Real.sin_sq_add_cos_sq (t * Real.arccos (Dot a b))
  have hsub : Real.sin ((1 - t) * Real.arccos (Dot a b)) =
      Real.sin (Real.arccos (Dot a b)) * Real.cos (t * Real.arccos (Dot a b))
        - Real.cos (Real.arccos (Dot a b)) * Real.sin (t * Real.arccos (Dot a b)) := by
    rw [← Real.sin_sub]
    congr 1
    ring
  have hform : Slerp eps Real.sin Real.arccos a b t =
      Quaternion.add
        (Quaternion.scalarMul
          (Real.sin ((1 - t) * Real.arccos (Dot a b)) / Real.sin (Real.arccos (Dot a b))) a)
        (Quaternion.scalarMul
          (Real.sin (t * Real.arccos (Dot a b)) / Real.sin (Real.arccos (Dot a b))) b) := by
    have h1g : (Dot a b : ℝ) > eps - 1 := h1
    unfold Slerp
    simp only [if_pos h1g, if_pos h2, Quaternion.add, Quaternion.scalarMul, Quaternion.mulScalar,
      Quaternion.mk.injEq]
    refine ⟨?_, ?_, ?_, ?_⟩ <;> ring
  refine ⟨hne, hform, ?_⟩
  rw [hform, hsub, hcos]
  rw [hcos] at hSC
  have hi : (Real.sin (Real.arccos (Dot a b)))⁻¹ * Real.sin (Real.arccos (Dot a b)) = 1 :=
    inv_mul_cancel₀ hne
  simp only [div_eq_mul_inv]
  generalize (Real.sin (Real.arccos (Dot a b)))⁻¹ = i at hi ⊢
  generalize Real.sin (Real.arccos (Dot a b)) = S at hi hSC ⊢
  generalize Real.sin (t * Real.arccos (Dot a b)) = s at hsk ⊢
  generalize Real.cos (t * Real.arccos (Dot a b)) = k at hsk ⊢
  obtain ⟨ax, ay, az, aw⟩ := a
  obtain ⟨bx, b_y, bz, bw⟩ := b
  simp only [LengthSq, Dot_quaternion, Quaternion.add, Quaternion.scalarMul] at *
  linear_combination
    ((S * k - (ax * bx + (ay * b_y + (az * bz + aw * bw))) * s) * i) ^ 2 * ha
      + (s * i) ^ 2 * hb + (i * S + 1) * hi + i ^ 2 * S ^ 2 * hsk - i ^ 2 * s ^ 2 * hSC

theorem C36_witness :
    LengthSq (Slerp (1 / 8388608 : ℝ) Real.sin Real.arccos (Quaternion.mk 0 0 0 1)
      (Quaternion.mk 1 0 0 0) (1 / 3)) = 1 :=
  (C36_Slerp_spherical_unit (1 / 8388608 : ℝ) (Quaternion.mk 0 0 0 1) (Quaternion.mk 1 0 0 0)
    (1 / 3) (by norm_num) (by norm_num [LengthSq, Dot_quaternion])
    (by norm_num [LengthSq, Dot_quaternion]) (by norm_num [Dot_quaternion])
    (by norm_num [Dot_quaternion])).2.2

/-! ## Claim C35: reversed winding -/

theorem Vector3_neg_Zero : Vector3.neg (Vector3.Zero : Vector3 K) = Vector3.Zero := by
  simp [Vector3.neg, Vector3.Zero]

theorem Cross_swap (v0 v1 v2 : Vector3 K) :
    Cross (Vector3.sub v2 v0) (Vector3.sub v1 v0)
      = Vector3.neg (Cross (Vector3.sub v1 v0) (Vector3.sub v2 v0)) := by
  simp only [Cross, Vector3.sub, Vector3.neg, Vector3.mk.injEq]
  refine ⟨?_, ?_, ?_⟩ <;> ring

theorem Normalize_neg (R : K → K) (v : Vector3 K) :
    Normalize R (Vector3.neg v) = Vector3.neg (Normalize R v) := by
  have hl : LengthSq (Vector3.neg v) = LengthSq v := by
    simp only [LengthSq, Dot_vector3, Vector3.neg]
    ring
  rw [Normalize_vector3, Normalize_vector3, hl]
  simp only [Vector3.neg, Vector3.mk.injEq]
  refine ⟨?_, ?_, ?_⟩ <;> ring

theorem getD_map_neg (l : List (Vector3 K)) (j : Nat) :
    (l.map Vector3.neg).getD j Vector3.Zero = Vector3.neg (l.getD j Vector3.Zero) := by
  by_cases h : j < l.length
  · simp [List.getD_eq_getElem?_getD, h]
  · simp [List.getD_eq_getElem?_getD, List.getElem?_eq_none (not_lt.mp h), Vector3_neg_Zero]

theorem list_eq_of_getD (l1 l2 : List (Vector3 K)) (hl : l1.length = l2.length)
    (h : ∀ j, l1.getD j Vector3.Zero = l2.getD j Vector3.Zero) : l1 = l2 := by
  apply List.ext_getElem hl
  intro j h1 h2
  have e := h j
  simpa [List.getD_eq_getElem?_getD, h1, h2] using e

theorem ComputeNormalTriangles_cons (xyzs : List (Vector3 K)) (i0 i1 i2 : Nat)
    (rest : List Nat) (normals : List (Vector3 K)) (v0 v1 v2 : Vector3 K)
    (h0 : xyzs.get? (U16 i0) = some v0) (h1 : xyzs.get? (U16 i1) = some v1)
    (h2 : xyzs.get? (U16 i2) = some v2) (n1 n2 n3 : List (Vector3 K))
    (e1 : AddAt normals (U16 i0) (Cross (Vector3.sub v1 v0) (Vector3.sub v2 v0)) = some n1)
    (e2 : AddAt n1 (U16 i1) (Cross (Vector3.sub v1 v0) (Vector3.sub v2 v0)) = some n2)
    (e3 : AddAt n2 (U16 i2) (Cross (Vector3.sub v1 v0) (Vector3.sub v2 v0)) = some n3) :
    ComputeNormalTriangles xyzs (i0 :: i1 :: i2 :: rest) normals
      = ComputeNormalTriangles xyzs rest n3 := by
  rw [ComputeNormalTriangles]
  simp only [h0, h1, h2, e1, e2, e3]

theorem ComputeNormalTriangles_read_none (xyzs : List (Vector3 K)) (i0 i1 i2 : Nat)
    (rest : List Nat) (normals : List (Vector3 K))
    (h : xyzs.get? (U16 i0) = none ∨ xyzs.get? (U16 i1) = none ∨ xyzs.get? (U16 i2) = none) :
    ComputeNormalTriangles xyzs (i0 :: i1 :: i2 :: rest) normals = none := by
  rw [ComputeNormalTriangles]
  revert h
  cases xyzs.get? (U16 i0) <;> cases xyzs.get? (U16 i1) <;>
    cases xyzs.get? (U16 i2) <;> intro h <;> first | rfl | simp at h

theorem ComputeNormalTriangles_SwapWinding (xyzs : List (Vector3 K)) (n : Nat) :
    ∀ (indices : List Nat) (normals : List (Vector3 K)), indices.length = n →
      normals.length = xyzs.length →
      ComputeNormalTriangles xyzs (SwapWinding indices) (normals.map Vector3.neg)
        = (ComputeNormalTriangles xyzs indices normals).map (List.map Vector3.neg) := by
  induction n using Nat.strong_induction_on with
  | _ n ih =>
    intro indices normals hlen hl
    match indices, hlen with
    | [], _ =>
      simp [SwapWinding, ComputeNormalTriangles]
    | [_], _ =>
      simp [SwapWinding, ComputeNormalTriangles]
    | [_, _], _ =>
      simp [SwapWinding, ComputeNormalTriangles]
    | i0 :: i1 :: i2 :: rest, hlen =>
      rw [SwapWinding]
      by_cases hnone : xyzs.get? (U16 i0) = none ∨ xyzs.get? (U16 i1) = none
          ∨ xyzs.get? (U16 i2) = none
      · rw [ComputeNormalTriangles_read_none xyzs i0 i1 i2 rest normals hnone,
          ComputeNormalTriangles_read_none xyzs i0 i2 i1 _ _
            (by rcases hnone with h | h | h
                · exact Or.inl h
                · exact Or.inr (Or.inr h)
                · exact Or.inr (Or.inl h))]
        rfl
      · have k0 : U16 i0 < xyzs.length := by
          by_contra hk
          exact hnone (Or.inl (List.get?_eq_none.mpr (not_lt.mp hk)))
        have k1 : U16 i1 < xyzs.length := by
          by_contra hk
          exact hnone (Or.inr (Or.inl (List.get?_eq_none.mpr (not_lt.mp hk))))
        have k2 : U16 i2 < xyzs.length := by
          by_contra hk
          exact hnone (Or.inr (Or.inr (List.get?_eq_none.mpr (not_lt.mp hk))))
        obtain ⟨n1, e1, l1, s1⟩ := AddAt_spec normals (U16 i0)
          (Cross (Vector3.sub (xyzs.get ⟨U16 i1, k1⟩) (xyzs.get ⟨U16 i0, k0⟩))
            (Vector3.sub (xyzs.get ⟨U16 i2, k2⟩) (xyzs.get ⟨U16 i0, k0⟩)))
          (by rw [hl]; exact k0)
        obtain ⟨n2, e2, l2, s2⟩ := AddAt_spec n1 (U16 i1)
          (Cross (Vector3.sub (xyzs.get ⟨U16 i1, k1⟩) (xyzs.get ⟨U16 i0, k0⟩))
            (Vector3.sub (xyzs.get ⟨U16 i2, k2⟩) (xyzs.get ⟨U16 i0, k0⟩)))
          (by rw [l1, hl]; exact k1)
        obtain ⟨n3, e3, l3, s3⟩ := AddAt_spec n2 (U16 i2)
          (Cross (Vector3.sub (xyzs.get ⟨U16 i1, k1⟩) (xyzs.get ⟨U16 i0, k0⟩))
            (Vector3.sub (xyzs.get ⟨U16 i2, k2⟩) (xyzs.get ⟨U16 i0, k0⟩)))
          (by rw [l2, l1, hl]; exact k2)
        obtain ⟨m1, f1, r1, t1⟩ := AddAt_spec (normals.map Vector3.neg) (U16 i0)
          (Cross (Vector3.sub (xyzs.get ⟨U16 i2, k2⟩) (xyzs.get ⟨U16 i0, k0⟩))
            (Vector3.sub (xyzs.get ⟨U16 i1, k1⟩) (xyzs.get ⟨U16 i0, k0⟩)))
          (by rw [List.length_map, hl]; exact k0)
        obtain ⟨m2, f2, r2, t2⟩ := AddAt_spec m1 (U16 i2)
          (Cross (Vector3.sub (xyzs.get ⟨U16 i2, k2⟩) (xyzs.get ⟨U16 i0, k0⟩))
            (Vector3.sub (xyzs.get ⟨U16 i1, k1⟩) (xyzs.get ⟨U16 i0, k0⟩)))
          (by rw [r1, List.length_map, hl]; exact k2)
        obtain ⟨m3, f3, r3, t3⟩ := AddAt_spec m2 (U16 i1)
          (Cross (Vector3.sub (xyzs.get ⟨U16 i2, k2⟩) (xyzs.get ⟨U16 i0, k0⟩))
            (Vector3.sub (xyzs.get ⟨U16 i1, k1⟩) (xyzs.get ⟨U16 i0, k0⟩)))
          (by rw [r2, r1, List.length_map, hl]; exact k1)
        have hm : m3 = n3.map Vector3.neg := by
          apply list_eq_of_getD
          · rw [r3, r2, r1, List.length_map, List.length_map, l3, l2, l1]
          · intro j
            rw [t3 j, t2 j, t1 j, getD_map_neg, getD_map_neg, s3 j, s2 j, s1 j, Cross_swap]
            generalize Cross (Vector3.sub (xyzs.get ⟨U16 i1, k1⟩) (xyzs.get ⟨U16 i0, k0⟩))
              (Vector3.sub (xyzs.get ⟨U16 i2, k2⟩) (xyzs.get ⟨U16 i0, k0⟩)) = vec
            generalize normals.getD j Vector3.Zero = nj
            split_ifs <;>
              simp only [Vector3.add, Vector3.neg, Vector3.Zero, Vector3.mk.injEq] <;>
              refine ⟨?_, ?_, ?_⟩ <;> ring
        rw [ComputeNormalTriangles_cons xyzs i0 i1 i2 rest normals _ _ _
            (List.get?_eq_get k0) (List.get?_eq_get k1) (List.get?_eq_get k2) n1 n2 n3 e1 e2 e3,
          ComputeNormalTriangles_cons xyzs i0 i2 i1 (SwapWinding rest) _ _ _ _
            (List.get?_eq_get k0) (List.get?_eq_get k2) (List.get?_eq_get k1) m1 m2 m3 f1 f2 f3,
          hm]
        exact ih rest.length (by simp only [List.length_cons] at hlen; omega) rest n3 rfl
          (by rw [l3, l2, l1, hl])

/-- C35: for every mesh, `ComputeNormal` on the index sequence with each
triangle `(i0, i1, i2)` replaced by `(i0, i2, i1)` returns, at every vertex,
the negation of the normal it returns for the original index sequence (and
returns nothing exactly when it returns nothing for the original). -/
theorem C35_reversed_winding_negates (RecipSqrt : K → K) (indices : List Nat)
    (xyzs : List (Vector3 K)) :
    ComputeNormal RecipSqrt (SwapWinding indices) xyzs
      = (ComputeNormal RecipSqrt indices xyzs).map (List.map Vector3.neg) := by
  have hz : List.replicate xyzs.length (Vector3.Zero : Vector3 K)
      = (List.replicate xyzs.length (Vector3.Zero : Vector3 K)).map Vector3.neg := by
    rw [List.map_replicate, Vector3_neg_Zero]
  have hs := ComputeNormalTriangles_SwapWinding xyzs indices.length indices
    (List.replicate xyzs.length Vector3.Zero) rfl (List.length_replicate _ _)
  rw [← hz] at hs
  unfold ComputeNormal
  simp only [hs]
  cases ComputeNormalTriangles xyzs indices (List.replicate xyzs.length Vector3.Zero) with
  | none => rfl
  | some acc =>
    simp only [Option.map_some', List.map_map, Option.some.injEq]
    apply List.map_congr_left
    intro v _
    exact Normalize_neg RecipSqrt v

end MathLib

end KlayGE
